import Mathlib

/-!
# Kiwi runtime core: the operator engine, the slice engine and the router

A shallow embedding of `MathImpl` and of the optimizers of
`MLOptimizerBuiltins` (`kiwi/include/math/functions.h`), of the operator
visitors (`include/math/visitor.h`), of `InterpHelper::interpretAssignOp`,
`InterpHelper::interpretListSlice`, `InterpHelper::updateListSlice`,
`InterpHelper::updateVariablesInCallerFrame` and
`InterpHelper::isSliceAssignmentExpression` (`include/interp_helper.h`), of
the name sets of `include/parsing/builtins.h`, of
`BuiltinInterpreter::execute` (`include/interp_builtin.h`) and of
`MLBuiltinHandler` (`kiwi/include/builtins/ml_handler.h`).

Conventions of the embedding

* `k_int` is the 64-bit signed integer (`__rotr__` reinterprets a `k_int` as
  `unsigned long long`); a `k_int` result is an `Int` reduced by `wrap64`.
  An `int` is reduced by `wrap32`. Signed overflow is two's-complement
  wrap-around, except in the division `INT64_MIN / -1`, which has the outcome
  `KError.undefined`.
* `double` is the IEEE-754 binary64 datum `Double`, given by its three fields.
  Conversions from and to `k_int` and the test `== 0.0` are defined on the
  fields; the rounding arithmetic of the host (`+ - * /`, `fmod`, `pow`, the
  stream output of a double) is the parameter `DoubleArith`.
* A container value is a handle (the `std::shared_ptr`): an index into the
  `Heap`, which holds the storage of every `List` object. Copying a `Value`
  copies the handle; writing through a handle changes the heap cell.
* Functions that throw return `Except KError _`; the position token and the
  message of an error are dropped. A function with a counted loop takes a
  fuel argument and returns `none` when the fuel runs out. The slice
  functions index vectors with `int` values: their runs end in `Run`, which
  has a third outcome for an access outside a vector.
* The source passes a `Token` to every operator for diagnostics only; the
  embedding leaves it out.
* A `std::unordered_map` of variables is the list of its bindings in
  iteration order; a `std::unordered_set` of names is the list of its
  initializer. The builtin handler classes are the parameter
  `BuiltinHandlers`.
* The functions that `MLBuiltinHandler` calls are the parameter `MLFunctions`
  (the handler passes arguments that the functions of `math/functions.h` at
  hand do not take); the optimizers of `math/functions.h` are embedded on
  their own, with `std::sqrt`, `std::abs` and `std::max` as the parameter
  `DoubleLib`. An optimizer returns the heap it leaves also when it throws.
-/

namespace Kiwi

/-! ## Errors -/

/-- The members of `MLBuiltins` (`parsing/builtins.h` of the `kiwi` tree) that
`MLBuiltinHandler` gives to `BuiltinUnexpectedArgumentError`; a member stands
for the name it holds. -/
inductive MLBuiltins
  | LossCosSimilarity | LossCatCrossEntropy | LossBinaryCrossEntropy
  | OptimSGDNesterov | OptimSGD | OptimNadam | OptimAdam | OptimAdamax | OptimAdagrad
  | OptimAdadelta | OptimRMSProp
  | RegDropout | RegWeightDecay
  deriving DecidableEq, Repr

/-- Error kinds of `errors/error.h` that the modelled functions throw;
`bad_alloc` for the exception of the standard library with which
`std::vector::reserve` fails (`std::bad_alloc`, or `std::length_error` above
`max_size()`); and `undefined`, which is no exception: an operator has no
defined result there (the quotient `INT64_MIN / -1`, on which x86-64 traps, and
the append to a vector inside the loop over that same vector). -/
inductive KError
  | ConversionError
  | DivideByZeroError
  | SyntaxError
  | InvalidOperationError
  | IndexError
  | RangeError
  | UnknownBuiltinError
  | BuiltinUnexpectedArgumentError (builtin : MLBuiltins)
  | bad_alloc
  | undefined
  deriving DecidableEq, Repr

/-! ## Machine integers -/

/-- Two's-complement reduction to the 64-bit `k_int` range. -/
def wrap64 (x : Int) : Int :=
  (x + 9223372036854775808) % 18446744073709551616 - 9223372036854775808

/-- Two's-complement reduction to the 32-bit `int` range. -/
def wrap32 (x : Int) : Int :=
  (x + 2147483648) % 4294967296 - 2147483648

/-! ## Doubles -/

/-- An IEEE-754 binary64 datum: sign bit, 11-bit biased exponent field and
52-bit fraction field. -/
structure Double where
  sign : Bool
  exponent : Nat
  fraction : Nat
  deriving DecidableEq, Repr

/-- The comparison `d == 0.0`: true of `+0.0` and of `-0.0` only. -/
def Double.isZero (d : Double) : Bool :=
  d.exponent == 0 && d.fraction == 0

/-- The conversion `static_cast<double>(n)` of a `k_int`: the nearest binary64
value, ties to even. -/
def Double.ofInt (n : Int) : Double :=
  if n = 0 then ⟨false, 0, 0⟩
  else
    let a := n.natAbs
    let k := Nat.log2 a
    if k ≤ 52 then ⟨decide (n < 0), 1023 + k, a * 2 ^ (52 - k) - 2 ^ 52⟩
    else
      let shift := k - 52
      let q := a / 2 ^ shift
      let r := a % 2 ^ shift
      let half := 2 ^ (shift - 1)
      let m := if r > half ∨ (r = half ∧ q % 2 = 1) then q + 1 else q
      if m = 2 ^ 53 then ⟨decide (n < 0), 1023 + k + 1, 0⟩
      else ⟨decide (n < 0), 1023 + k, m - 2 ^ 52⟩

/-- The conversion `static_cast<k_int>(d)`: truncation toward zero. A NaN, an
infinity or a magnitude of `2^63` and more has no `k_int` value; the model
returns `-2^63` there, the result of the x86-64 conversion instruction. -/
def Double.toInt (d : Double) : Int :=
  if d.exponent ≥ 1086 then -9223372036854775808
  else if d.exponent < 1023 then 0
  else
    let m := 2 ^ 52 + d.fraction
    let e := d.exponent - 1023
    let mag : Nat := if e ≥ 52 then m * 2 ^ (e - 52) else m / 2 ^ (52 - e)
    if d.sign then -(mag : Int) else (mag : Int)

/-- The floating-point operations of the host that the source calls: the four
rounding operators, `fmod` and `pow` of `<cmath>`, and the text that
`std::ostream << double` writes. -/
structure DoubleArith where
  add : Double → Double → Double
  sub : Double → Double → Double
  mul : Double → Double → Double
  div : Double → Double → Double
  fmod : Double → Double → Double
  pow : Double → Double → Double
  format : Double → String

/-! ## Values and the heap -/

/-- The variant `k_value`, with the alternatives in the order of the source
(`is_truthy` switches on this index). A `k_list`, `k_hash`, `k_object` or
`k_lambda` is a shared pointer: the embedding keeps the handle. -/
inductive Value
  | int (n : Int)
  | double (d : Double)
  | bool (b : Bool)
  | string (s : String)
  | list (h : Nat)
  | hash (h : Nat)
  | object (h : Nat)
  | lambda (h : Nat)
  | null
  deriving DecidableEq, Repr

/-- The storage behind the list handles: cell `h` holds `elements` of the
`List` object that handle `h` points to. -/
structure Heap where
  lists : List (List Value)
  deriving DecidableEq, Repr

/-- A handle points to an allocated `List` object. -/
def Heap.valid (heap : Heap) (h : Nat) : Prop := h < heap.lists.length

instance (heap : Heap) (h : Nat) : Decidable (heap.valid h) := by
  unfold Heap.valid; infer_instance

/-- Read `list->elements`. -/
def Heap.elements (heap : Heap) (h : Nat) : List Value :=
  heap.lists.getD h []

/-- Replace `list->elements`. -/
def Heap.setElements (heap : Heap) (h : Nat) (xs : List Value) : Heap :=
  { heap with lists := heap.lists.set h xs }

/-- One `list->elements.emplace_back(v)`. -/
def Heap.emplace_back (heap : Heap) (h : Nat) (v : Value) : Heap :=
  heap.setElements h (heap.elements h ++ [v])

/-- The allocation `std::make_shared<List>(xs)`: a fresh handle. -/
def Heap.make_shared (heap : Heap) (xs : List Value) : Nat × Heap :=
  (heap.lists.length, { heap with lists := heap.lists ++ [xs] })

/-- The helpers of `typing/value.h` that the operator engine calls:
`same_value` (equality by value, used by list subtraction) and `clone_value`
(deep copy, used by list multiplication). Both read the heap; `clone_value`
may allocate. With them comes the allocator of the host: `can_reserve n`
tells whether `std::vector<k_value>::reserve(n)` succeeds; when it does not,
`reserve` throws. -/
structure ValueHelpers where
  same_value : Heap → Value → Value → Bool
  clone_value : Heap → Value → Value × Heap
  can_reserve : Nat → Bool

/-! ## `MathImpl` -/

/-- The comparison `MathImpl.is_zero`. -/
def is_zero (v : Value) : Except KError Bool :=
  match v with
  | .double d => .ok d.isZero
  | .int n => .ok (n == 0)
  | _ => .error .ConversionError

/-- What the first `if` chain of the string branches of `do_addition` writes
to the `std::ostringstream` for one operand: decimal digits for a `k_int`, the
stream text of a double, `true`/`false` (`std::boolalpha`) for a bool, the
string itself, and nothing for every other alternative. -/
def streamText (fp : DoubleArith) (v : Value) : String :=
  match v with
  | .int n => toString n
  | .double d => fp.format d
  | .bool b => if b then "true" else "false"
  | .string s => s
  | _ => ""

/-- The loop `for (const auto& item : rightList) list->elements.emplace_back(item)`
of `do_addition`, over the elements `rightList` holds when the loop starts. -/
def appendLoop (list : Nat) : List Value → Heap → Heap
  | [], heap => heap
  | item :: rest, heap => appendLoop list rest (heap.emplace_back list item)

/-- The operator `MathImpl.do_addition`. For `L + L` on one handle the loop
over `rightList` appends to the vector it walks, which invalidates its
iterators: the result is undefined unless the list is empty. -/
def do_addition (fp : DoubleArith) (heap : Heap) (left right : Value) :
    Except KError (Value × Heap) :=
  match left, right with
  | .int l, .int r => .ok (.int (wrap64 (l + r)), heap)
  | .double l, .double r => .ok (.double (fp.add l r), heap)
  | .int l, .double r => .ok (.double (fp.add (Double.ofInt l) r), heap)
  | .double l, .int r => .ok (.double (fp.add l (Double.ofInt r)), heap)
  | l, .string r => .ok (.string (streamText fp l ++ r), heap)
  | .string l, r => .ok (.string (l ++ streamText fp r), heap)
  | .list list, .list rightList =>
      if list = rightList ∧ heap.elements list ≠ [] then .error .undefined
      else .ok (.list list, appendLoop list (heap.elements rightList) heap)
  | .list list, r => .ok (.list list, heap.emplace_back list r)
  | _, _ => .error .ConversionError

/-- The first loop of `do_subtraction` (list minus a non-list value): skip the
first item that `same_value` equates with `right`, keep every other item. -/
def removeFirstLoop (same : Value → Value → Bool) (right : Value) :
    List Value → Bool → List Value → List Value
  | [], _, listValues => listValues
  | item :: rest, found, listValues =>
      if !found && same item right then removeFirstLoop same right rest true listValues
      else removeFirstLoop same right rest found (listValues ++ [item])

/-- The inner loop of the list/list branch of `do_subtraction`: is some
`ritem` of the right list equal by value to `item`? -/
def foundInRight (same : Value → Value → Bool) (item : Value) : List Value → Bool
  | [] => false
  | ritem :: rest => if same item ritem then true else foundInRight same item rest

/-- The outer loop of the list/list branch of `do_subtraction`. -/
def differenceLoop (same : Value → Value → Bool) (rightList : List Value) :
    List Value → List Value → List Value
  | [], listValues => listValues
  | item :: rest, listValues =>
      if !foundInRight same item rightList then
        differenceLoop same rightList rest (listValues ++ [item])
      else differenceLoop same rightList rest listValues

/-- The operator `MathImpl.do_subtraction`. -/
def do_subtraction (fp : DoubleArith) (vh : ValueHelpers) (heap : Heap)
    (left right : Value) : Except KError (Value × Heap) :=
  match left, right with
  | .int l, .int r => .ok (.int (wrap64 (l - r)), heap)
  | .double l, .double r => .ok (.double (fp.sub l r), heap)
  | .int l, .double r => .ok (.double (fp.sub (Double.ofInt l) r), heap)
  | .double l, .int r => .ok (.double (fp.sub l (Double.ofInt r)), heap)
  | .list list, .list rlist =>
      let listValues :=
        differenceLoop (vh.same_value heap) (heap.elements rlist) (heap.elements list) []
      let (h, heap1) := heap.make_shared listValues
      .ok (.list h, heap1)
  | .list list, r =>
      let listValues := removeFirstLoop (vh.same_value heap) r (heap.elements list) false []
      let (h, heap1) := heap.make_shared listValues
      .ok (.list h, heap1)
  | _, _ => .error .ConversionError

/-- The operator `MathImpl.do_exponentiation`; the Integer/Integer case
converts the floating-point power back with `static_cast<k_int>`. -/
def do_exponentiation (fp : DoubleArith) (left right : Value) : Except KError Value :=
  match left, right with
  | .int l, .int r => .ok (.int (Double.toInt (fp.pow (Double.ofInt l) (Double.ofInt r))))
  | .double l, .double r => .ok (.double (fp.pow l r))
  | .int l, .double r => .ok (.double (fp.pow (Double.ofInt l) r))
  | .double l, .int r => .ok (.double (fp.pow l (Double.ofInt r)))
  | _, _ => .error .ConversionError

/-- The operator `MathImpl.do_modulus`; `%` on `k_int` truncates toward zero,
and `INT64_MIN % -1` is undefined (the division overflows). -/
def do_modulus (fp : DoubleArith) (left right : Value) : Except KError Value :=
  match left, right with
  | .int l, .int r =>
      if r = 0 then .error .DivideByZeroError
      else if l = -9223372036854775808 ∧ r = -1 then .error .undefined
      else .ok (.int (wrap64 (Int.tmod l r)))
  | .double l, .double rhs =>
      if rhs.isZero then .error .DivideByZeroError
      else .ok (.double (fp.fmod l rhs))
  | .int l, .double rhs =>
      if rhs.isZero then .error .DivideByZeroError
      else .ok (.double (fp.fmod (Double.ofInt l) rhs))
  | .double l, .int r =>
      let rhs := Double.ofInt r
      if rhs.isZero then .error .DivideByZeroError
      else .ok (.double (fp.fmod l rhs))
  | _, _ => .error .ConversionError

/-- The operator `MathImpl.do_division`; `/` on `k_int` truncates toward zero,
and `INT64_MIN / -1` is undefined (the quotient overflows). -/
def do_division (fp : DoubleArith) (left right : Value) : Except KError Value :=
  match left, right with
  | .int l, .int rhs =>
      if rhs = 0 then .error .DivideByZeroError
      else if l = -9223372036854775808 ∧ rhs = -1 then .error .undefined
      else .ok (.int (wrap64 (Int.tdiv l rhs)))
  | .double l, .double rhs =>
      if rhs.isZero then .error .DivideByZeroError
      else .ok (.double (fp.div l rhs))
  | .int l, .double rhs =>
      if rhs.isZero then .error .DivideByZeroError
      else .ok (.double (fp.div (Double.ofInt l) rhs))
  | .double l, .int r =>
      let rhs := Double.ofInt r
      if rhs.isZero then .error .DivideByZeroError
      else .ok (.double (fp.div l rhs))
  | _, _ => .error .ConversionError

/-- The inner loop of `do_list_multiplication`:
`for (const auto& item : list->elements) elements.emplace_back(clone_value(item))`,
where `elements` is the storage of the new list. -/
def cloneLoop (vh : ValueHelpers) (newList : Nat) : List Value → Heap → Heap
  | [], heap => heap
  | item :: rest, heap =>
      let (c, heap1) := vh.clone_value heap item
      cloneLoop vh newList rest (heap1.emplace_back newList c)

/-- The outer loop of `do_list_multiplication`:
`for (int i = 0; i < multiplier; ++i)`, with the `int` counter `i` compared
with the `k_int` bound `multiplier`. -/
def repeatLoop (vh : ValueHelpers) (list newList : Nat) (multiplier : Int) :
    Nat → Int → Heap → Option Heap
  | 0, _, _ => none
  | fuel + 1, i, heap =>
      if i < multiplier then
        repeatLoop vh list newList multiplier fuel (wrap32 (i + 1))
          (cloneLoop vh newList (heap.elements list) heap)
      else some heap

/-- The function `MathImpl.do_list_multiplication`, on the handle and the
multiplier that `std::get` extracts. The argument of `elements.reserve(...)`
is the product `list->elements.size() * multiplier` in `size_t`, so reduced to
64 bits; when the host cannot reserve that many values the call throws before
the loop is entered. -/
def do_list_multiplication (vh : ValueHelpers) (fuel : Nat) (heap : Heap)
    (list : Nat) (multiplier : Int) : Option (Except KError (Value × Heap)) :=
  if multiplier < 1 then some (.error .SyntaxError)
  else if (heap.elements list).length = 0 then some (.error .SyntaxError)
  else
    let (newList, heap1) := heap.make_shared []
    if vh.can_reserve
        (((heap.elements list).length * multiplier.toNat) % 18446744073709551616) then
      (repeatLoop vh list newList multiplier fuel 0 heap1).map
        fun heap2 => .ok (.list newList, heap2)
    else some (.error .bad_alloc)

/-- The loop of `do_string_multiplication`:
`for (int i = 0; i < multiplier; ++i) build.append(string)`, with the `int`
counter `i` compared with the `k_int` bound `multiplier`. -/
def stringLoop (string : String) (multiplier : Int) : Nat → Int → String → Option String
  | 0, _, _ => none
  | fuel + 1, i, build =>
      if i < multiplier then
        stringLoop string multiplier fuel (wrap32 (i + 1)) (build ++ string)
      else some build

/-- The function `MathImpl.do_string_multiplication`, on the string and the
multiplier that `std::get` extracts. The call `build.reserve(...)` sets a
capacity only and is left out. -/
def do_string_multiplication (fuel : Nat) (string : String) (multiplier : Int) :
    Option Value :=
  if multiplier ≤ 0 then some (.string "")
  else (stringLoop string multiplier fuel 0 "").map Value.string

/-- The operator `MathImpl.do_multiplication`. -/
def do_multiplication (fp : DoubleArith) (vh : ValueHelpers) (fuel : Nat) (heap : Heap)
    (left right : Value) : Option (Except KError (Value × Heap)) :=
  match left, right with
  | .int l, .int r => some (.ok (.int (wrap64 (l * r)), heap))
  | .double l, .double r => some (.ok (.double (fp.mul l r), heap))
  | .int l, .double r => some (.ok (.double (fp.mul (Double.ofInt l) r), heap))
  | .double l, .int r => some (.ok (.double (fp.mul l (Double.ofInt r)), heap))
  | .string s, .int k =>
      (do_string_multiplication fuel s k).map fun v => .ok (v, heap)
  | .list list, .int k => do_list_multiplication vh fuel heap list k
  | _, _ => some (.error .ConversionError)

/-- The shift count of a 64-bit shift: the low six bits of the right operand
(a count outside `0..63` has no defined result in the source language; the
model takes the count the x86-64 shift instructions use). -/
def shiftCount (n : Int) : Nat := (n % 64).toNat

/-- The operator `MathImpl.do_bitwise_and`. -/
def do_bitwise_and (left right : Value) : Except KError Value :=
  match left, right with
  | .int lhs, .int r => .ok (.int (Int.land lhs r))
  | .int lhs, .double r => .ok (.int (Int.land lhs (Double.toInt r)))
  | .int lhs, .bool r => .ok (.int (Int.land lhs (if r then 1 else 0)))
  | _, _ => .error .ConversionError

/-- The operator `MathImpl.do_bitwise_or`. -/
def do_bitwise_or (left right : Value) : Except KError Value :=
  match left, right with
  | .int lhs, .int r => .ok (.int (Int.lor lhs r))
  | .int lhs, .double r => .ok (.int (Int.lor lhs (Double.toInt r)))
  | .int lhs, .bool r => .ok (.int (Int.lor lhs (if r then 1 else 0)))
  | _, _ => .error .ConversionError

/-- The operator `MathImpl.do_bitwise_xor`. -/
def do_bitwise_xor (left right : Value) : Except KError Value :=
  match left, right with
  | .int lhs, .int r => .ok (.int (Int.xor lhs r))
  | .int lhs, .double r => .ok (.int (Int.xor lhs (Double.toInt r)))
  | .int lhs, .bool r => .ok (.int (Int.xor lhs (if r then 1 else 0)))
  | _, _ => .error .ConversionError

/-- The operator `MathImpl.do_bitwise_not`. -/
def do_bitwise_not (left : Value) : Except KError Value :=
  match left with
  | .int l => .ok (.int (Int.not l))
  | .double l => .ok (.int (Int.not (Double.toInt l)))
  | .bool l => .ok (.int (Int.not (if l then 1 else 0)))
  | _ => .error .ConversionError

/-- The operator `MathImpl.do_bitwise_lshift`: both operands must be Integers. -/
def do_bitwise_lshift (left right : Value) : Except KError Value :=
  match left, right with
  | .int l, .int r => .ok (.int (wrap64 (l * 2 ^ shiftCount r)))
  | _, _ => .error .ConversionError

/-- The operator `MathImpl.do_bitwise_rshift`: both operands must be Integers;
the shift of a signed `k_int` is arithmetic. -/
def do_bitwise_rshift (left right : Value) : Except KError Value :=
  match left, right with
  | .int l, .int r => .ok (.int (Int.shiftRight l (shiftCount r)))
  | _, _ => .error .ConversionError

/-! ## The visitors and `InterpHelper::interpretAssignOp` -/

/-- The operator names of the token sub-type enumeration that the modelled
functions test, and the builtin names of the same enumeration (`KName` in the
`kiwi` tree) that `MLBuiltinHandler::execute` switches on. -/
inductive SubTokenType
  | Default
  | Ops_Assign
  | Ops_Add | Ops_AddAssign
  | Ops_Subtract | Ops_SubtractAssign
  | Ops_Multiply | Ops_MultiplyAssign
  | Ops_Divide | Ops_DivideAssign
  | Ops_Exponent | Ops_ExponentAssign
  | Ops_Modulus | Ops_ModuloAssign
  | Ops_BitwiseAnd | Ops_BitwiseAndAssign
  | Ops_BitwiseOr | Ops_BitwiseOrAssign
  | Ops_BitwiseXor | Ops_BitwiseXorAssign
  | Ops_BitwiseLeftShift | Ops_BitwiseLeftShiftAssign
  | Ops_BitwiseRightShift | Ops_BitwiseRightShiftAssign
  | Ops_BitwiseNot | Ops_BitwiseNotAssign
  | Ops_And | Ops_AndAssign
  | Ops_Or | Ops_OrAssign
  | Ops_Not
  | Ops_LessThan | Ops_LessThanOrEqual
  | Ops_GreaterThan | Ops_GreaterThanOrEqual
  | Ops_Equal | Ops_NotEqual
  | Builtin_MLReg_Dropout | Builtin_MLReg_WeightDecay | Builtin_MLReg_L1Lasso
  | Builtin_MLReg_L2Ridge | Builtin_MLReg_ElasticNet
  | Builtin_MLOptim_RMSProp | Builtin_MLOptim_Adadelta | Builtin_MLOptim_Adagrad
  | Builtin_MLOptim_Adamax | Builtin_MLOptim_Adam | Builtin_MLOptim_Nadam
  | Builtin_MLOptim_SGD | Builtin_MLOptim_SGDNesterov
  | Builtin_MLLoss_BinaryCrossEntropy | Builtin_MLLoss_BinaryFocal
  | Builtin_MLLoss_CatCrossEntropy | Builtin_MLLoss_CosSimilarity
  deriving DecidableEq, Repr

/-- The call operator of `DivideVisitor`: `is_zero` on the right operand first,
then `do_division`. -/
def DivideVisitor (fp : DoubleArith) (left right : Value) : Except KError Value :=
  match is_zero right with
  | .error e => .error e
  | .ok true => .error .DivideByZeroError
  | .ok false => do_division fp left right

/-- Pair the result of an operator that leaves the heap alone with the heap. -/
def withHeap (heap : Heap) (r : Except KError Value) : Except KError (Value × Heap) :=
  r.map fun v => (v, heap)

/-- The function `InterpHelper::interpretAssignOp`: every compound assignment
operator visits the current value and the right-hand value with the visitor
of its operator. -/
def interpretAssignOp (fp : DoubleArith) (vh : ValueHelpers) (fuel : Nat) (heap : Heap)
    (op : SubTokenType) (currentValue value : Value) :
    Option (Except KError (Value × Heap)) :=
  if op = .Ops_AddAssign then some (do_addition fp heap currentValue value)
  else if op = .Ops_SubtractAssign then some (do_subtraction fp vh heap currentValue value)
  else if op = .Ops_MultiplyAssign then do_multiplication fp vh fuel heap currentValue value
  else if op = .Ops_DivideAssign then some (withHeap heap (DivideVisitor fp currentValue value))
  else if op = .Ops_ExponentAssign then
    some (withHeap heap (do_exponentiation fp currentValue value))
  else if op = .Ops_ModuloAssign then some (withHeap heap (do_modulus fp currentValue value))
  else if op = .Ops_BitwiseAndAssign then
    some (withHeap heap (do_bitwise_and currentValue value))
  else if op = .Ops_BitwiseOrAssign then
    some (withHeap heap (do_bitwise_or currentValue value))
  else if op = .Ops_BitwiseXorAssign then
    some (withHeap heap (do_bitwise_xor currentValue value))
  else if op = .Ops_BitwiseLeftShiftAssign then
    some (withHeap heap (do_bitwise_lshift currentValue value))
  else if op = .Ops_BitwiseRightShiftAssign then
    some (withHeap heap (do_bitwise_rshift currentValue value))
  else if op = .Ops_BitwiseNotAssign then some (withHeap heap (do_bitwise_not value))
  else some (.error .InvalidOperationError)

/-! ## Predicates on values and sample hosts -/

/-- The value holds the `k_int` alternative. -/
def Value.isInt : Value → Bool
  | .int _ => true
  | _ => false

/-- The value holds the `double` alternative. -/
def Value.isDouble : Value → Bool
  | .double _ => true
  | _ => false

/-- The value holds the `k_string` alternative. -/
def Value.isString : Value → Bool
  | .string _ => true
  | _ => false

/-- The value holds the `k_list` alternative. -/
def Value.isList : Value → Bool
  | .list _ => true
  | _ => false

/-- The value is numeric: an Integer or a Float. -/
def Value.isNumeric (v : Value) : Bool := v.isInt || v.isDouble

/-- The value is the Integer `0` or a Float that compares equal to `0.0`. -/
def Value.isZeroNumber : Value → Bool
  | .int n => n == 0
  | .double d => d.isZero
  | _ => false

/-- The text `std::boolalpha` gives a bool. -/
def boolText (b : Bool) : String := if b then "true" else "false"

/-- The quiet NaN with zero payload. -/
def Double.nan : Double := ⟨false, 2047, 2 ^ 51⟩

/-- A host arithmetic in which every operation returns the quiet NaN; used
where a concrete host is needed and no Float is computed. -/
def DoubleArith.quiet : DoubleArith where
  add := fun _ _ => Double.nan
  sub := fun _ _ => Double.nan
  mul := fun _ _ => Double.nan
  div := fun _ _ => Double.nan
  fmod := fun _ _ => Double.nan
  pow := fun _ _ => Double.nan
  format := fun _ => "nan"

/-- Concrete value helpers for examples: `same_value` compares scalars by
value and containers by handle, `clone_value` copies a list cell into a fresh
cell and returns every other value as it is, and the host can reserve fewer
than `2^31` values. -/
def ValueHelpers.shallow : ValueHelpers where
  can_reserve := fun n => decide (n < 2147483648)
  same_value := fun _ a b => decide (a = b)
  clone_value := fun heap v =>
    match v with
    | .list h =>
        let (g, heap1) := heap.make_shared (heap.elements h)
        (.list g, heap1)
    | _ => (v, heap)

/-- Modelled from the spec: the storage behind the hash handles. The `Hash`
object of `typing/value.h` is not under `src/`; the spec describes a Map as an
insertion-ordered mapping, and the source reads its vector `keys` and its
`size()`. Cell `h` holds the vector `keys` of the `Hash` object that handle
`h` points to, and `size()` is the number of keys. -/
structure HashHeap where
  keys : List (List Value)
  deriving DecidableEq, Repr

/-- Read `hash->keys`. -/
def HashHeap.keysOf (hh : HashHeap) (h : Nat) : List Value :=
  hh.keys.getD h []

/-- The call `hash->size()`. -/
def HashHeap.size (hh : HashHeap) (h : Nat) : Nat :=
  (hh.keysOf h).length

/-- The operator names of `do_unary_op` and `do_binary_op` are values of the
same enumeration, named `KName` there. -/
abbrev KName := SubTokenType

/-- The predicate `MathImpl.is_truthy`, a switch on the index of the variant. -/
def is_truthy (heap : Heap) (hh : HashHeap) (value : Value) : Bool :=
  match value with
  | .int n => n != 0
  | .double d => !d.isZero
  | .bool b => b
  | .string s => !s.isEmpty
  | .list h => !(heap.elements h).isEmpty
  | .hash h => decide (hh.size h > 0)
  | .object _ => true
  | .lambda _ => true
  | .null => false

/-- The operator `MathImpl.do_logical_not`. -/
def do_logical_not (heap : Heap) (hh : HashHeap) (right : Value) : Value :=
  match right with
  | .bool b => .bool (!b)
  | .null => .bool true
  | .int n => .int (if n = 0 then 1 else 0)
  | .double d => .bool d.isZero
  | .string s => .bool s.isEmpty
  | .list h => .bool (heap.elements h).isEmpty
  | .hash h => .bool (hh.keysOf h).isEmpty
  | _ => .bool false

/-- The unary minus of a double: the sign bit is flipped. -/
def Double.neg (d : Double) : Double := { d with sign := !d.sign }

/-- The operator `MathImpl.do_negation`. -/
def do_negation (right : Value) : Except KError Value :=
  match right with
  | .int n => .ok (.int (wrap64 (-n)))
  | .double d => .ok (.double d.neg)
  | _ => .error .ConversionError

/-- The function `MathImpl.do_unary_op`. -/
def do_unary_op (heap : Heap) (hh : HashHeap) (op : KName) (right : Value) :
    Except KError Value :=
  match op with
  | .Ops_Not => .ok (do_logical_not heap hh right)
  | .Ops_BitwiseNot => do_bitwise_not right
  | .Ops_BitwiseNotAssign => do_bitwise_not right
  | .Ops_Subtract => do_negation right
  | _ => .error .InvalidOperationError

/-- The ordering helpers `lt_value` and `gt_value` of `typing/value.h`, which
the comparison operators call; they may throw. -/
structure ValueOrder where
  lt_value : Heap → Value → Value → Except KError Bool
  gt_value : Heap → Value → Value → Except KError Bool

/-- The operator `MathImpl.do_eq_comparison`. -/
def do_eq_comparison (vh : ValueHelpers) (heap : Heap) (left right : Value) : Value :=
  .bool (vh.same_value heap left right)

/-- The operator `MathImpl.do_neq_comparison`. -/
def do_neq_comparison (vh : ValueHelpers) (heap : Heap) (left right : Value) : Value :=
  .bool (!vh.same_value heap left right)

/-- The operator `MathImpl.do_lt_comparison`. -/
def do_lt_comparison (vo : ValueOrder) (heap : Heap) (left right : Value) :
    Except KError Value :=
  (vo.lt_value heap left right).map Value.bool

/-- The operator `MathImpl.do_lte_comparison`: `lt_value(..) || same_value(..)`,
the right side evaluated only when the left side is false. -/
def do_lte_comparison (vo : ValueOrder) (vh : ValueHelpers) (heap : Heap)
    (left right : Value) : Except KError Value :=
  match vo.lt_value heap left right with
  | .error e => .error e
  | .ok true => .ok (.bool true)
  | .ok false => .ok (.bool (vh.same_value heap left right))

/-- The operator `MathImpl.do_gt_comparison`. -/
def do_gt_comparison (vo : ValueOrder) (heap : Heap) (left right : Value) :
    Except KError Value :=
  (vo.gt_value heap left right).map Value.bool

/-- The operator `MathImpl.do_gte_comparison`: `gt_value(..) || same_value(..)`,
the right side evaluated only when the left side is false. -/
def do_gte_comparison (vo : ValueOrder) (vh : ValueHelpers) (heap : Heap)
    (left right : Value) : Except KError Value :=
  match vo.gt_value heap left right with
  | .error e => .error e
  | .ok true => .ok (.bool true)
  | .ok false => .ok (.bool (vh.same_value heap left right))

/-- The function `MathImpl.do_binary_op`, a switch on the operator name. -/
def do_binary_op (fp : DoubleArith) (vh : ValueHelpers) (vo : ValueOrder) (fuel : Nat)
    (heap : Heap) (hh : HashHeap) (op : KName) (left right : Value) :
    Option (Except KError (Value × Heap)) :=
  match op with
  | .Ops_Add | .Ops_AddAssign => some (do_addition fp heap left right)
  | .Ops_Subtract | .Ops_SubtractAssign => some (do_subtraction fp vh heap left right)
  | .Ops_Multiply | .Ops_MultiplyAssign => do_multiplication fp vh fuel heap left right
  | .Ops_Divide | .Ops_DivideAssign => some (withHeap heap (do_division fp left right))
  | .Ops_Modulus | .Ops_ModuloAssign => some (withHeap heap (do_modulus fp left right))
  | .Ops_Exponent | .Ops_ExponentAssign =>
      some (withHeap heap (do_exponentiation fp left right))
  | .Ops_BitwiseAnd | .Ops_BitwiseAndAssign =>
      some (withHeap heap (do_bitwise_and left right))
  | .Ops_BitwiseOr | .Ops_BitwiseOrAssign => some (withHeap heap (do_bitwise_or left right))
  | .Ops_BitwiseXor | .Ops_BitwiseXorAssign =>
      some (withHeap heap (do_bitwise_xor left right))
  | .Ops_BitwiseLeftShift | .Ops_BitwiseLeftShiftAssign =>
      some (withHeap heap (do_bitwise_lshift left right))
  | .Ops_BitwiseRightShift | .Ops_BitwiseRightShiftAssign =>
      some (withHeap heap (do_bitwise_rshift left right))
  | .Ops_And | .Ops_AndAssign =>
      some (.ok (.bool (is_truthy heap hh left && is_truthy heap hh right), heap))
  | .Ops_Or | .Ops_OrAssign =>
      some (.ok (.bool (is_truthy heap hh left || is_truthy heap hh right), heap))
  | .Ops_LessThan => some (withHeap heap (do_lt_comparison vo heap left right))
  | .Ops_LessThanOrEqual => some (withHeap heap (do_lte_comparison vo vh heap left right))
  | .Ops_GreaterThan => some (withHeap heap (do_gt_comparison vo heap left right))
  | .Ops_GreaterThanOrEqual =>
      some (withHeap heap (do_gte_comparison vo vh heap left right))
  | .Ops_Equal => some (.ok (do_eq_comparison vh heap left right, heap))
  | .Ops_NotEqual => some (.ok (do_neq_comparison vh heap left right, heap))
  | _ => some (.error .InvalidOperationError)

/-- The value holds the `bool` alternative. -/
def Value.isBool : Value → Bool
  | .bool _ => true
  | _ => false

/-- The coercion of a right operand that the bitwise claims describe: an
Integer as it is, a Float truncated toward zero, a Boolean as `1` or `0`; no
other alternative is coerced. -/
def bitwiseOperand (right : Value) : Option Int :=
  match right with
  | .int r => some r
  | .double r => some (Double.toInt r)
  | .bool r => some (if r then 1 else 0)
  | _ => none

/-- Concrete ordering helpers for examples: Integers are ordered by value and
every other pair is rejected. -/
def ValueOrder.integers : ValueOrder where
  lt_value := fun _ a b =>
    match a, b with
    | .int x, .int y => .ok (decide (x < y))
    | _, _ => .error .InvalidOperationError
  gt_value := fun _ a b =>
    match a, b with
    | .int x, .int y => .ok (decide (x > y))
    | _, _ => .error .InvalidOperationError

/-! ## The slice engine of `InterpHelper` -/

/-- How a run of a slice function ends: with a value, with a thrown error, or
outside defined behaviour (an access outside the bounds of a vector, an
invalid iterator range). -/
inductive Run (α : Type)
  | ok (a : α)
  | error (e : KError)
  | undefined
  deriving DecidableEq, Repr

/-- Apply a function to the value of a run. -/
def Run.map {α β : Type} (f : α → β) : Run α → Run β
  | .ok a => .ok (f a)
  | .error e => .error e
  | .undefined => .undefined

/-- The record `SliceIndex` (`objects/sliceindex.h`), with the fields the
source reads. -/
structure SliceIndex where
  indexOrStart : Value
  stopIndex : Value
  stepValue : Value
  isSlice : Bool
  deriving DecidableEq, Repr

/-- The read `elements[i]` of a vector with an `int` index: defined for
`0 ≤ i < size` only. -/
def vectorAt (elements : List Value) (i : Int) : Option Value :=
  if i < 0 then none else elements[i.toNat]?

/-- The loop of `interpretListSlice` for `step < 0`:
`for (int i = ...; i >= stop; i += step)` with the guard
`if (i < 0 || i >= listSize) break;`. -/
def reverseLoop (elements : List Value) (listSize stop step : Int) :
    Nat → Int → List Value → Option (Run (List Value))
  | 0, _, _ => none
  | fuel + 1, i, sliced =>
      if i ≥ stop then
        if i < 0 ∨ i ≥ listSize then some (.ok sliced)
        else
          match vectorAt elements i with
          | some v =>
              reverseLoop elements listSize stop step fuel (wrap32 (i + step)) (sliced ++ [v])
          | none => some .undefined
      else some (.ok sliced)

/-- The loop of `interpretListSlice` for `step ≥ 0`:
`for (int i = start; i < stop; i += step)` with the guard
`if (i >= listSize) break;`. -/
def forwardLoop (elements : List Value) (listSize stop step : Int) :
    Nat → Int → List Value → Option (Run (List Value))
  | 0, _, _ => none
  | fuel + 1, i, sliced =>
      if i < stop then
        if i ≥ listSize then some (.ok sliced)
        else
          match vectorAt elements i with
          | some v =>
              forwardLoop elements listSize stop step fuel (wrap32 (i + step)) (sliced ++ [v])
          | none => some .undefined
      else some (.ok sliced)

/-- The function `InterpHelper::interpretListSlice`. The `k_int` components of
the slice and the size of the list are stored in `int` variables. A slice read
collects into a new list; a single-index read returns the element. -/
def interpretListSlice (fuel : Nat) (heap : Heap) (slice : SliceIndex) (list : Nat) :
    Option (Run (Value × Heap)) :=
  let elements := heap.elements list
  if slice.isSlice then
    match slice.indexOrStart, slice.stopIndex, slice.stepValue with
    | .int start0, .int stop0, .int step0 =>
        let start := wrap32 start0
        let stop := wrap32 stop0
        let step := wrap32 step0
        let listSize := wrap32 elements.length
        let start := if start < 0 then max (wrap32 (start + listSize)) 0 else start
        let stop := if stop < 0 then wrap32 (stop + listSize) else min stop listSize
        let stop := if step < 0 ∧ stop = listSize then -1 else stop
        let sliced :=
          if step < 0 then
            reverseLoop elements listSize stop step fuel
              (if start = 0 then wrap32 (listSize - 1) else start) []
          else forwardLoop elements listSize stop step fuel start []
        sliced.map fun r => r.map fun xs => (.list (heap.make_shared xs).1, (heap.make_shared xs).2)
    | _, _, _ => some (.error .IndexError)
  else
    match slice.indexOrStart with
    | .int index0 =>
        let index := wrap32 index0
        let listSize := wrap32 elements.length
        let index := if index < 0 then wrap32 (index + listSize) else index
        if index < 0 ∨ index ≥ listSize then some (.error .RangeError)
        else
          match vectorAt elements index with
          | some v => some (.ok (v, heap))
          | none => some .undefined
    | _ => some (.error .IndexError)

/-- The loop of `updateListSlice` for `step != 1`:
`for (int i = start; i != stop && rhsIndex < rhsSize; i += step)`, one
right-hand element written per round; the first argument holds the right-hand
elements from `rhsIndex` on. -/
def stridedWriteLoop (listSize stop step : Int) :
    List Value → Int → List Value → Run (List Value)
  | [], _, elements => .ok elements
  | v :: rest, i, elements =>
      if i ≠ stop then
        if (step > 0 ∧ i < listSize) ∨ (step < 0 ∧ i ≥ 0) then
          if 0 ≤ i ∧ i.toNat < elements.length then
            stridedWriteLoop listSize stop step rest (wrap32 (i + step))
              (elements.set i.toNat v)
          else .undefined
        else .ok elements
      else .ok elements

/-- The function `InterpHelper::updateListSlice`. The `k_int` components of the
slice and both sizes are stored in `int` variables. For `step == 1` and
`start >= stop` the source calls `erase(begin + start, begin + stop)` and then
`insert(begin + start, ...)`, defined when the range is empty and `start` is a
position of the vector; for `start < stop` it calls `std::copy` onto
`begin + start`, defined when the right-hand elements fit before the end. The
right-hand elements are those the right-hand list holds at entry. -/
def updateListSlice (heap : Heap) (insertOp : Bool) (targetList : Nat) (slice : SliceIndex)
    (rhsValues : Nat) : Run Heap :=
  match slice.indexOrStart, slice.stopIndex, slice.stepValue with
  | .int start0, .int stop0, .int step0 =>
      let start := wrap32 start0
      let stop := wrap32 stop0
      let step := wrap32 step0
      let stop := if !slice.isSlice && insertOp then start else stop
      let elems := heap.elements targetList
      let rhs := heap.elements rhsValues
      let listSize := wrap32 elems.length
      let rhsSize := wrap32 rhs.length
      let start := if start < 0 then wrap32 (start + listSize) else start
      let stop := if stop < 0 then wrap32 (stop + listSize) else stop
      let start := if start < 0 then 0 else start
      let stop := if stop > listSize then listSize else stop
      let stop := if step < 0 ∧ stop = listSize then -1 else stop
      if step = 1 then
        if start ≥ stop then
          if start = stop ∧ 0 ≤ start ∧ start.toNat ≤ elems.length then
            .ok (heap.setElements targetList
              (elems.take start.toNat ++ rhs ++ elems.drop start.toNat))
          else .undefined
        else
          if 0 ≤ start ∧ start.toNat + rhs.length ≤ elems.length then
            .ok (heap.setElements targetList
              (elems.take start.toNat ++ rhs ++ elems.drop (start.toNat + rhs.length)))
          else .undefined
      else
        (stridedWriteLoop listSize stop step (rhs.take rhsSize.toNat) start elems).map
          fun es => heap.setElements targetList es
  | _, _, _ => .error .IndexError

/-- The number of indices `s, s + step, s + 2·step, …` that are below `e`, for
a positive `step`. -/
def strideCount (s e step : Int) : Nat := ((e - s + step - 1) / step).toNat

/-- The normalized start of a slice read on a list of `n` elements, as the
slice claims state it: `start + n` clamped to `≥ 0` when `start < 0`. -/
def normStart (start n : Int) : Int := if start < 0 then max (start + n) 0 else start

/-- The normalized stop of a slice read on a list of `n` elements, as the slice
claims state it: `stop + n` when `stop < 0`, else `min stop n`. -/
def normStop (stop n : Int) : Int := if stop < 0 then stop + n else min stop n

/-- The normalization of start and stop in the slice read of
`interpretListSlice` (the lines from `int start = ...` to the reset of `stop`
for reverse slicing), as a function of the size of the list and of the three
`k_int` components: the pair `(start, stop)` with which the loops are entered.
For `step < 0` the loop then starts at `listSize - 1` when this `start` is `0`. -/
def readBounds (listLength : Nat) (start0 stop0 step0 : Int) : Int × Int :=
  let start := wrap32 start0
  let stop := wrap32 stop0
  let step := wrap32 step0
  let listSize := wrap32 listLength
  let start := if start < 0 then max (wrap32 (start + listSize)) 0 else start
  let stop := if stop < 0 then wrap32 (stop + listSize) else min stop listSize
  let stop := if step < 0 ∧ stop = listSize then -1 else stop
  (start, stop)

/-- The normalization of start and stop in `updateListSlice` (the lines from
`int start = ...` to the reset of `stop` for reverse slicing): the pair
`(start, stop)` with which the write is done. -/
def writeBounds (insertOp isSlice : Bool) (listLength : Nat) (start0 stop0 step0 : Int) :
    Int × Int :=
  let start := wrap32 start0
  let stop := wrap32 stop0
  let step := wrap32 step0
  let stop := if !isSlice && insertOp then start else stop
  let listSize := wrap32 listLength
  let start := if start < 0 then wrap32 (start + listSize) else start
  let stop := if stop < 0 then wrap32 (stop + listSize) else stop
  let start := if start < 0 then 0 else start
  let stop := if stop > listSize then listSize else stop
  let stop := if step < 0 ∧ stop = listSize then -1 else stop
  (start, stop)

/-- The writes of `updateListSlice` once start and stop are normalized: the
branches for `step == 1` and the loop for `step != 1`, on the normalized
`int` values. -/
def sliceWrite (heap : Heap) (targetList rhsValues : Nat) (start stop step : Int) : Run Heap :=
  let elems := heap.elements targetList
  let rhs := heap.elements rhsValues
  let listSize := wrap32 elems.length
  let rhsSize := wrap32 rhs.length
  if step = 1 then
    if start ≥ stop then
      if start = stop ∧ 0 ≤ start ∧ start.toNat ≤ elems.length then
        .ok (heap.setElements targetList
          (elems.take start.toNat ++ rhs ++ elems.drop start.toNat))
      else .undefined
    else
      if 0 ≤ start ∧ start.toNat + rhs.length ≤ elems.length then
        .ok (heap.setElements targetList
          (elems.take start.toNat ++ rhs ++ elems.drop (start.toNat + rhs.length)))
      else .undefined
  else
    (stridedWriteLoop listSize stop step (rhs.take rhsSize.toNat) start elems).map
      fun es => heap.setElements targetList es

/-- The collection of `interpretListSlice` once start and stop are normalized:
the reverse loop for `step < 0`, the forward loop otherwise, and the new list. -/
def sliceRead (fuel : Nat) (heap : Heap) (list : Nat) (start stop step : Int) :
    Option (Run (Value × Heap)) :=
  let elements := heap.elements list
  let listSize := wrap32 elements.length
  let sliced :=
    if step < 0 then
      reverseLoop elements listSize stop step fuel
        (if start = 0 then wrap32 (listSize - 1) else start) []
    else forwardLoop elements listSize stop step fuel start []
  sliced.map fun r => r.map fun xs => (.list (heap.make_shared xs).1, (heap.make_shared xs).2)

/-- The first `m` indices of the progression `start, start + step, ...` are
positions of the stride that the write loop of `updateListSlice` walks: each
one passes the loop test `i != stop` and lies inside the list, so the loop
visits it when the right-hand side has an element left for it. -/
def onWriteStride (listSize stop start step : Int) (m : Nat) : Prop :=
  ∀ k, k < m → start + (k : Int) * step ≠ stop ∧ 0 ≤ start + (k : Int) * step ∧
    start + (k : Int) * step < listSize

instance (listSize stop start step : Int) (m : Nat) :
    Decidable (onWriteStride listSize stop start step m) := by
  unfold onWriteStride; infer_instance

/-! ## Call frames -/

/-- The type `std::unordered_map<std::string, Value>` of the variables of a
frame: the bindings in iteration order. A map holds a name once. -/
abbrev Variables := List (String × Value)

/-- The lookup `variables.find(name)`: the bound value, `none` for `end()`. -/
def Variables.find : Variables → String → Option Value
  | [], _ => none
  | (k, v) :: rest, name => if k = name then some v else Variables.find rest name

/-- The assignment `variables[name] = value`: the binding of `name` is
replaced, and a new binding is inserted when the map has none. -/
def Variables.assign : Variables → String → Value → Variables
  | [], name, value => [(name, value)]
  | (k, v) :: rest, name, value =>
      if k = name then (k, value) :: rest else (k, v) :: Variables.assign rest name value

/-- The names bound in a map. -/
def Variables.names (m : Variables) : List String := m.map Prod.fst

/-- The record `CallStackFrame` (`objects/stackframe.h`), with the field the
source reads: `frameVariables` is the member `variables` (a reserved word
here). -/
structure CallStackFrame where
  frameVariables : Variables

/-- The function `InterpHelper::shouldUpdateFrameVariables`. -/
def shouldUpdateFrameVariables (varName : String) (nextFrame : CallStackFrame) : Bool :=
  (nextFrame.frameVariables.find varName).isSome

/-- The function `InterpHelper::updateVariablesInCallerFrame`: the loop over
the bindings `calleeVariables` of the callee (the parameter `variables`). -/
def updateVariablesInCallerFrame (calleeVariables : Variables)
    (callerFrame : CallStackFrame) : CallStackFrame :=
  calleeVariables.foldl
    (fun frame var =>
      if shouldUpdateFrameVariables var.1 frame then
        { frame with frameVariables := frame.frameVariables.assign var.1 var.2 }
      else frame)
    callerFrame

/-! ## Builtin names (`parsing/builtins.h`) -/

/-- The member `builtins` of `FileIOBuiltIns` (file and directory operations): the strings of the
constants in the order of the initializer; the comment names the constant. -/
def FileIOBuiltIns.builtins : List String :=
  ["__appendtext__", -- AppendText
   "__copyfile__", -- CopyFile
   "__createfile__", -- CreateFile
   "__deletefile__", -- DeleteFile
   "__movefile__", -- MoveFile
   "__readfile__", -- ReadFile
   "__readlines__", -- ReadLines
   "__writetext__", -- WriteText
   "__writeline__", -- WriteLine
   "__fileexists__", -- FileExists
   "__filename__", -- FileName
   "__filesize__", -- FileSize
   "__fileext__", -- GetFileExtension
   "__filepath__", -- GetFilePath
   "__fileattrs__", -- GetFileAttributes
   "__direxists__", -- DirectoryExists
   "__dirname__", -- DirectoryName
   "__listdir__", -- ListDirectory
   "__mkdir__", -- MakeDirectory
   "__mkdirp__", -- MakeDirectoryP
   "__rmdir__", -- RemoveDirectory
   "__isdir__", -- IsDirectory
   "__chdir__", -- ChangeDirectory
   "__cwd__", -- GetCurrentDirectory
   "__fileabspath__", -- GetFileAbsolutePath
   "__glob__"] -- Glob

/-- The method `FileIOBuiltIns.is_builtin`: `builtins.find(arg) != builtins.end()`. -/
def FileIOBuiltIns.is_builtin (arg : String) : Bool := FileIOBuiltIns.builtins.contains arg

/-- The member `builtins` of `ModuleBuiltins` (module operations): the strings of the
constants in the order of the initializer; the comment names the constant. -/
def ModuleBuiltins.builtins : List String :=
  ["__home__"] -- Home

/-- The method `ModuleBuiltins.is_builtin`: `builtins.find(arg) != builtins.end()`. -/
def ModuleBuiltins.is_builtin (arg : String) : Bool := ModuleBuiltins.builtins.contains arg

/-- The member `builtins` of `TimeBuiltins` (time operations): the strings of the
constants in the order of the initializer; the comment names the constant. -/
def TimeBuiltins.builtins : List String :=
  ["__hour__", -- Hour
   "__min__", -- Minute
   "__sec__", -- Second
   "__mday__", -- MonthDay
   "__wday__", -- WeekDay
   "__yday__", -- YearDay
   "__mon__", -- Month
   "__year__", -- Year
   "__epochms__", -- EpochMilliseconds
   "__delay__", -- Delay
   "__isdst__", -- IsDST
   "__ticks__", -- Ticks
   "__ampm__", -- AMPM
   "__ticksms__"] -- TicksToMilliseconds

/-- The method `TimeBuiltins.is_builtin`: `builtins.find(arg) != builtins.end()`. -/
def TimeBuiltins.is_builtin (arg : String) : Bool := TimeBuiltins.builtins.contains arg

/-- The member `builtins` of `MathBuiltins` (math operations): the strings of the
constants in the order of the initializer; the comment names the constant. -/
def MathBuiltins.builtins : List String :=
  ["__sin__", -- Sin
   "__tan__", -- Tan
   "__asin__", -- Asin
   "__acos__", -- Acos
   "__atan__", -- Atan
   "__atan2__", -- Atan2
   "__sinh__", -- Sinh
   "__cosh__", -- Cosh
   "__tanh__", -- Tanh
   "__cos__", -- Cos
   "__log__", -- Log
   "__log2__", -- Log2
   "__log10__", -- Log10
   "__log1p__", -- Log1P
   "__fmod__", -- Fmod
   "__hypot__", -- Hypot
   "__isfinite__", -- IsFinite
   "__isinf__", -- IsInf
   "__isnan__", -- IsNaN
   "__isnormal__", -- IsNormal
   "__sqrt__", -- Sqrt
   "__cbrt__", -- Cbrt
   "__abs__", -- Abs
   "__floor__", -- Floor
   "__ceil__", -- Ceil
   "__round__", -- Round
   "__trunc__", -- Trunc
   "__remainder__", -- Remainder
   "__exp__", -- Exp
   "__expm1__", -- ExpM1
   "__erf__", -- Erf
   "__erfc__", -- ErfC
   "__lgamma__", -- LGamma
   "__tgamma__", -- TGamma
   "__fmax__", -- FMax
   "__fmin__", -- FMin
   "__fdim__", -- FDim
   "__copysign__", -- CopySign
   "__nextafter__", -- NextAfter
   "__pow__", -- Pow
   "__eps__", -- Epsilon
   "__random__"] -- Random

/-- The method `MathBuiltins.is_builtin`: `builtins.find(arg) != builtins.end()`. -/
def MathBuiltins.is_builtin (arg : String) : Bool := MathBuiltins.builtins.contains arg

/-- The member `builtins` of `SpecializedBuiltins` (specialized list methods): the strings of the
constants in the order of the initializer; the comment names the constant. -/
def SpecializedBuiltins.builtins : List String :=
  ["map", -- Map
   "reduce", -- Reduce
   "select", -- Select
   "to_h"] -- ToH

/-- The method `SpecializedBuiltins.is_builtin`: `builtins.find(arg) != builtins.end()`. -/
def SpecializedBuiltins.is_builtin (arg : String) : Bool := SpecializedBuiltins.builtins.contains arg

/-- The member `builtins` of `HttpBuiltins` (HTTP operations, declared under `EXPERIMENTAL_FEATURES`): the strings of the
constants in the order of the initializer; the comment names the constant. -/
def HttpBuiltins.builtins : List String :=
  ["__http_get__", -- Get
   "__http_post__", -- Post
   "__http_put__", -- Put
   "__http_delete__", -- Delete
   "__http_patch__", -- Patch
   "__http_head__", -- Head
   "__http_options__"] -- Options

/-- The method `HttpBuiltins.is_builtin`: `builtins.find(arg) != builtins.end()`. -/
def HttpBuiltins.is_builtin (arg : String) : Bool := HttpBuiltins.builtins.contains arg

/-- The member `builtins` of `OdbcBuiltins` (ODBC operations, declared under `EXPERIMENTAL_FEATURES`): the strings of the
constants in the order of the initializer; the comment names the constant. -/
def OdbcBuiltins.builtins : List String :=
  ["__odbc_connect__", -- Connect
   "__odbc_exec__", -- Exec
   "__odbc_execsp__", -- ExecSp
   "__odbc_isconnected__", -- IsConnected
   "__odbc_begin_tx__", -- BeginTransaction
   "__odbc_commit_tx__", -- CommitTransaction
   "__odbc_rollback_tx__", -- RollbackTransaction
   "__odbc_in_tx__"] -- InTransaction

/-- The method `OdbcBuiltins.is_builtin`: `builtins.find(arg) != builtins.end()`. -/
def OdbcBuiltins.is_builtin (arg : String) : Bool := OdbcBuiltins.builtins.contains arg

/-- The member `builtins` of `EnvBuiltins` (environment operations): the strings of the
constants in the order of the initializer; the comment names the constant. -/
def EnvBuiltins.builtins : List String :=
  ["__getenv__", -- GetEnvironmentVariable
   "__setenv__"] -- SetEnvironmentVariable

/-- The method `EnvBuiltins.is_builtin`: `builtins.find(arg) != builtins.end()`. -/
def EnvBuiltins.is_builtin (arg : String) : Bool := EnvBuiltins.builtins.contains arg

/-- The member `builtins` of `ArgvBuiltins` (command-line argument operations): the strings of the
constants in the order of the initializer; the comment names the constant. -/
def ArgvBuiltins.builtins : List String :=
  ["__argv__", -- GetArgv
   "__xarg__"] -- GetXarg

/-- The method `ArgvBuiltins.is_builtin`: `builtins.find(arg) != builtins.end()`. -/
def ArgvBuiltins.is_builtin (arg : String) : Bool := ArgvBuiltins.builtins.contains arg

/-- The member `builtins` of `SysBuiltins` (system operations): the strings of the
constants in the order of the initializer; the comment names the constant. -/
def SysBuiltins.builtins : List String :=
  ["__exec__", -- Exec
   "__execout__"] -- ExecOut

/-- The method `SysBuiltins.is_builtin`: `builtins.find(arg) != builtins.end()`. -/
def SysBuiltins.is_builtin (arg : String) : Bool := SysBuiltins.builtins.contains arg

/-- The member `builtins` of `ConsoleBuiltins` (console operations): the strings of the
constants in the order of the initializer; the comment names the constant. -/
def ConsoleBuiltins.builtins : List String :=
  ["input"] -- Input

/-- The method `ConsoleBuiltins.is_builtin`: `builtins.find(arg) != builtins.end()`. -/
def ConsoleBuiltins.is_builtin (arg : String) : Bool := ConsoleBuiltins.builtins.contains arg

/-- The member `builtins` of `KiwiBuiltins` (core value methods): the strings of the
constants in the order of the initializer; the comment names the constant. -/
def KiwiBuiltins.builtins : List String :=
  ["chars", -- Chars
   "is_a", -- IsA
   "join", -- Join
   "size", -- Size
   "to_d", -- ToD
   "to_i", -- ToI
   "to_s", -- ToS
   "replace", -- Replace
   "replace", -- Replace
   "contains", -- Contains
   "begins_with", -- BeginsWith
   "ends_with", -- EndsWith
   "index_of", -- IndexOf
   "upcase", -- Upcase
   "downcase", -- Downcase
   "keys", -- Keys
   "split", -- Split
   "ltrim", -- LeftTrim
   "rtrim", -- RightTrim
   "trim", -- Trim
   "type"] -- Type

/-- The method `KiwiBuiltins.is_builtin`: `builtins.find(arg) != builtins.end()`. -/
def KiwiBuiltins.is_builtin (arg : String) : Bool := KiwiBuiltins.builtins.contains arg

/-! ## Builtin dispatch (`interp_builtin.h`) -/

/-- The `execute` functions of the handler classes that
`BuiltinInterpreter::execute` calls (`builtins/*_handler.h`): what the call of
a handler returns or throws is given by the host. -/
structure BuiltinHandlers where
  FileIOBuiltinHandler : String → List Value → Except KError Value
  TimeBuiltinHandler : String → List Value → Except KError Value
  MathBuiltinHandler : String → List Value → Except KError Value
  EnvBuiltinHandler : String → List Value → Except KError Value
  HttpBuiltinHandler : String → List Value → Except KError Value
  OdbcBuiltinHandler : String → List Value → Except KError Value
  CoreBuiltinHandler : String → Value → List Value → Except KError Value

/-- The function `BuiltinInterpreter::execute(tokenTerm, builtin, args)`;
`experimental` tells whether the build defines `EXPERIMENTAL_FEATURES`. -/
def BuiltinInterpreter.execute (experimental : Bool) (h : BuiltinHandlers) (builtin : String)
    (args : List Value) : Except KError Value :=
  if FileIOBuiltIns.is_builtin builtin then h.FileIOBuiltinHandler builtin args
  else if TimeBuiltins.is_builtin builtin then h.TimeBuiltinHandler builtin args
  else if MathBuiltins.is_builtin builtin then h.MathBuiltinHandler builtin args
  else if EnvBuiltins.is_builtin builtin then h.EnvBuiltinHandler builtin args
  else if experimental && HttpBuiltins.is_builtin builtin then
    h.HttpBuiltinHandler builtin args
  else if experimental && OdbcBuiltins.is_builtin builtin then
    h.OdbcBuiltinHandler builtin args
  else .error .UnknownBuiltinError

/-- The overload `BuiltinInterpreter::execute(tokenTerm, builtin, value, args)`
with a receiver value. -/
def BuiltinInterpreter.executeValue (h : BuiltinHandlers) (builtin : String) (value : Value)
    (args : List Value) : Except KError Value :=
  if KiwiBuiltins.is_builtin builtin then h.CoreBuiltinHandler builtin value args
  else .error .UnknownBuiltinError

/-- Handlers that return `null` for every call. -/
def BuiltinHandlers.quiet : BuiltinHandlers where
  FileIOBuiltinHandler := fun _ _ => .ok .null
  TimeBuiltinHandler := fun _ _ => .ok .null
  MathBuiltinHandler := fun _ _ => .ok .null
  EnvBuiltinHandler := fun _ _ => .ok .null
  HttpBuiltinHandler := fun _ _ => .ok .null
  OdbcBuiltinHandler := fun _ _ => .ok .null
  CoreBuiltinHandler := fun _ _ _ => .ok .null

/-- The method `KiwiBuiltins.is_builtin_method`; `experimental` tells whether
the build defines `EXPERIMENTAL_FEATURES`. -/
def KiwiBuiltins.is_builtin_method (experimental : Bool) (arg : String) : Bool :=
  if experimental then
    ConsoleBuiltins.is_builtin arg || EnvBuiltins.is_builtin arg ||
      ArgvBuiltins.is_builtin arg || TimeBuiltins.is_builtin arg ||
      FileIOBuiltIns.is_builtin arg || MathBuiltins.is_builtin arg ||
      ModuleBuiltins.is_builtin arg || SysBuiltins.is_builtin arg ||
      HttpBuiltins.is_builtin arg || OdbcBuiltins.is_builtin arg
  else
    ConsoleBuiltins.is_builtin arg || EnvBuiltins.is_builtin arg ||
      ArgvBuiltins.is_builtin arg || TimeBuiltins.is_builtin arg ||
      FileIOBuiltIns.is_builtin arg || MathBuiltins.is_builtin arg ||
      ModuleBuiltins.is_builtin arg || SysBuiltins.is_builtin arg

/-! ## Token streams -/

/-- The token types (`parsing/tokens.h`) that the sources at hand name. -/
inductive TokenType
  | CLOSE_BRACE | CLOSE_BRACKET | CLOSE_PAREN | COLON | DECLVAR | IDENTIFIER | KEYWORD
  | LITERAL | OPEN_BRACE | OPEN_BRACKET | OPEN_PAREN | OPERATOR | RANGE | STRING
  deriving DecidableEq, Repr

/-- A token, with the answer of its `getType()`. -/
structure Token where
  getType : TokenType
  deriving DecidableEq, Repr

/-- The record `TokenStream`, with the fields the source reads. -/
structure TokenStream where
  tokens : List Token
  position : Nat
  deriving DecidableEq, Repr

/-- Exceptions of the standard library: `std::vector::at` throws
`std::out_of_range` for an index that is not below `size()`. -/
inductive StdException
  | out_of_range
  deriving DecidableEq, Repr

/-- The loop `while (pos < tokens.size())` of `isSliceAssignmentExpression`;
`token` is the local variable of that name. -/
def sliceAssignmentLoop (tokens : List Token) :
    Nat → Nat → Token → Option (Except StdException Bool)
  | 0, _, _ => none
  | fuel + 1, pos, token =>
      if pos < tokens.length then
        if token.getType = .COLON ∨ token.getType = .OPERATOR then some (.ok true)
        else
          match tokens[pos + 1]? with
          | some next => sliceAssignmentLoop tokens fuel (pos + 1) next
          | none => some (.error .out_of_range)
      else some (.ok false)

/-- The function `InterpHelper::isSliceAssignmentExpression`. -/
def isSliceAssignmentExpression (fuel : Nat) (stream : TokenStream) :
    Option (Except StdException Bool) :=
  match stream.tokens[stream.position]? with
  | some token => sliceAssignmentLoop stream.tokens fuel stream.position token
  | none => some (.error .out_of_range)

/-! ## Rotations and divisors (`math/functions.h`) -/

/-- The conversion `static_cast<unsigned long long>(value)` of a `k_int`. -/
def toUnsigned (value : Int) : Nat := (value % 18446744073709551616).toNat

/-- The function `MathImpl.__rotr__`; the result is the `k_int` that the
returned value holds. A shift of an `unsigned long long` is reduced to 64 bits;
the count of a shift is taken as by `shiftCount`. -/
def __rotr__ (value shift : Int) : Int :=
  if shift = 0 then value
  else
    let unsignedValue := toUnsigned value
    let bits : Int := 64
    let shift := Int.tmod shift bits
    let shift := if shift < 0 then shift + bits else shift
    let result := (unsignedValue >>> shiftCount shift) |||
      (unsignedValue <<< shiftCount (bits - shift)) % 18446744073709551616
    wrap64 result

/-- The function `MathImpl.__rotl__`; the result is the `k_int` that the
returned value holds. -/
def __rotl__ (value shift : Int) : Int :=
  if shift = 0 then value
  else
    let unsignedValue := toUnsigned value
    let bits : Int := 64
    let shift := Int.tmod shift bits
    let shift := if shift < 0 then shift + bits else shift
    let result := (unsignedValue <<< shiftCount shift) % 18446744073709551616 |||
      (unsignedValue >>> shiftCount (bits - shift))
    wrap64 result

/-- The test `i <= sqrt(number)` of `__divisors__` for a counter `i ≥ 1`. Both
sides are doubles: an `int` converts exactly, the square root of a negative
number is a NaN, which compares false, and `sqrt` rounds correctly, so that for
`int` operands the test holds exactly when `number ≥ 0` and `i * i ≤ number`. -/
def sqrtBound (i number : Int) : Bool := decide (0 ≤ number ∧ i * i ≤ number)

/-- The loop `for (int i = 1; i <= sqrt(number); ++i)` of `__divisors__`. -/
def divisorsLoop (number : Int) : Nat → Int → List Value → Option (List Value)
  | 0, _, _ => none
  | fuel + 1, i, divisors =>
      if sqrtBound i number then
        if Int.tmod number i = 0 then
          if i ≠ Int.tdiv number i then
            divisorsLoop number fuel (wrap32 (i + 1))
              (divisors ++ [.int i] ++ [.int (Int.tdiv number i)])
          else divisorsLoop number fuel (wrap32 (i + 1)) (divisors ++ [.int i])
        else divisorsLoop number fuel (wrap32 (i + 1)) divisors
      else some divisors

/-- The function `MathImpl.__divisors__(int number)`. -/
def __divisors__ (fuel : Nat) (number : Int) : Option (List Value) :=
  divisorsLoop number fuel 1 []

/-- What the round of the loop with counter `j` appends for the number `N`. -/
def divisorsStep (N j : Nat) : List Value :=
  if N % j = 0 then
    if j ≠ N / j then [.int j, .int (N / j : Nat)] else [.int j]
  else []

/-! ## The handler of the ML builtins (`builtins/ml_handler.h`) -/

/-- The constant `HALF = 0.5`. -/
def HALF : Double := ⟨false, 1022, 0⟩

/-- The constant `ONE_PERCENT = 0.01`. -/
def ONE_PERCENT : Double := ⟨false, 1016, 1261007895663739⟩

/-- The function `MathImpl.__epsilon__`:
`std::numeric_limits<double>::epsilon()`, which is `2^-52`. -/
def __epsilon__ : Double := ⟨false, 971, 0⟩

/-- The literal `0.0`; the double literals of the ML sources are given by
their IEEE-754 fields. -/
def Double.lit_0_0 : Double := ⟨false, 0, 0⟩

/-- The literal `0.001`. -/
def Double.lit_0_001 : Double := ⟨false, 1013, 108086391056892⟩

/-- The literal `0.01`. -/
def Double.lit_0_01 : Double := ⟨false, 1016, 1261007895663739⟩

/-- The literal `0.02`. -/
def Double.lit_0_02 : Double := ⟨false, 1017, 1261007895663739⟩

/-- The literal `0.25`. -/
def Double.lit_0_25 : Double := ⟨false, 1021, 0⟩

/-- The literal `0.9`. -/
def Double.lit_0_9 : Double := ⟨false, 1022, 3602879701896397⟩

/-- The literal `0.95`. -/
def Double.lit_0_95 : Double := ⟨false, 1022, 4053239664633446⟩

/-- The literal `0.999`. -/
def Double.lit_0_999 : Double := ⟨false, 1022, 4494592428115755⟩

/-- The literal `1e-6`. -/
def Double.lit_1em6 : Double := ⟨false, 1003, 218766855499149⟩

/-- The literal `2.0`. -/
def Double.lit_2_0 : Double := ⟨false, 1024, 0⟩

/-- The functions of `MLRegularizationBuiltins`, `MLOptimizerBuiltins` and
`MLLossBuiltins` with the parameter lists that `MLBuiltinHandler` calls them
with (several take a trailing `epsilon` that the functions of
`math/functions.h` at hand do not have). A function acts on the state `σ` of
the host (the storage of the lists, the random device) and returns or throws. -/
structure MLFunctions (σ : Type) where
  __dropout__ : Value → Value → σ → σ × Except KError Value
  __weight_decay__ : Value → Value → σ → σ × Except KError Unit
  __l1_regularization__ : Value → Value → σ → σ × Except KError Value
  __l2_regularization__ : Value → Value → σ → σ × Except KError Value
  __elastic_net__ : Value → Value → Value → σ → σ × Except KError Value
  __rmsprop__ : Value → Value → Value → Value → Value → σ → σ × Except KError Unit
  __adadelta__ : Value → Value → Value → Value → Value → Value → σ → σ × Except KError Unit
  __adagrad__ : Value → Value → Value → Value → Value → σ → σ × Except KError Unit
  __adamax__ :
    Value → Value → Value → Value → Value → Value → Value → Value → σ → σ × Except KError Unit
  __adam__ :
    Value → Value → Value → Value → Value → Value → Value → Value → Value → σ →
      σ × Except KError Unit
  __nadam__ :
    Value → Value → Value → Value → Value → Value → Value → Value → Value → σ →
      σ × Except KError Unit
  __sgd__ : Value → Value → Value → Value → Value → σ → σ × Except KError Unit
  __nesterov_sgd__ : Value → Value → Value → Value → Value → σ → σ × Except KError Unit
  __binary_crossentropy__ : Value → Value → Value → σ → σ × Except KError Value
  __binary_focal_loss__ : Value → Value → Value → Value → Value → σ → σ × Except KError Value
  __categorical_crossentropy__ : Value → Value → Value → σ → σ × Except KError Value
  __cosine_similarity__ : Value → Value → σ → σ × Except KError Value

/-- The access `args.at(i)`. Every access of the handler is behind its test of
`args.size()`, so that `at` does not throw; the model gives `null` outside. -/
def argAt (args : List Value) (i : Nat) : Value := args.getD i .null

/-- The statement `f(...); return weights;` after a `void` function. -/
def returning {σ : Type} (weights : Value) (r : σ × Except KError Unit) :
    σ × Except KError Value :=
  (r.1, r.2.map fun _ => weights)

/-- The function `MLBuiltinHandler::executeLossCosineSimilarity`. -/
def MLBuiltinHandler.executeLossCosineSimilarity {σ : Type} (ml : MLFunctions σ)
    (args : List Value) (st : σ) : σ × Except KError Value :=
  if args.length ≠ 2 then (st, .error (.BuiltinUnexpectedArgumentError .LossCosSimilarity))
  else ml.__cosine_similarity__ (argAt args 0) (argAt args 1) st

/-- The function `MLBuiltinHandler::executeLossCatCrossEntropy`. -/
def MLBuiltinHandler.executeLossCatCrossEntropy {σ : Type} (ml : MLFunctions σ)
    (args : List Value) (st : σ) : σ × Except KError Value :=
  if args.length < 2 ∨ args.length > 3 then
    (st, .error (.BuiltinUnexpectedArgumentError .LossCatCrossEntropy))
  else
    let epsilon : Value := .double __epsilon__
    let epsilon := if args.length > 2 then argAt args 2 else epsilon
    ml.__categorical_crossentropy__ (argAt args 0) (argAt args 1) epsilon st

/-- The function `MLBuiltinHandler::executeLossBinaryFocal`. -/
def MLBuiltinHandler.executeLossBinaryFocal {σ : Type} (ml : MLFunctions σ)
    (args : List Value) (st : σ) : σ × Except KError Value :=
  if args.length < 2 ∨ args.length > 5 then
    (st, .error (.BuiltinUnexpectedArgumentError .LossBinaryCrossEntropy))
  else
    let gamma : Value := .double Double.lit_2_0
    let alpha : Value := .double Double.lit_0_25
    let epsilon : Value := .double __epsilon__
    let gamma := if args.length > 2 then argAt args 2 else gamma
    let alpha := if args.length > 3 then argAt args 3 else alpha
    let epsilon := if args.length > 4 then argAt args 4 else epsilon
    ml.__binary_focal_loss__ (argAt args 0) (argAt args 1) gamma alpha epsilon st

/-- The function `MLBuiltinHandler::executeLossBinaryCrossEntropy`. -/
def MLBuiltinHandler.executeLossBinaryCrossEntropy {σ : Type} (ml : MLFunctions σ)
    (args : List Value) (st : σ) : σ × Except KError Value :=
  if args.length < 2 ∨ args.length > 3 then
    (st, .error (.BuiltinUnexpectedArgumentError .LossBinaryCrossEntropy))
  else
    let epsilon : Value := .double __epsilon__
    let epsilon := if args.length > 2 then argAt args 2 else epsilon
    ml.__binary_crossentropy__ (argAt args 0) (argAt args 1) epsilon st

/-- The function `MLBuiltinHandler::executeOptimSGDNesterov`. -/
def MLBuiltinHandler.executeOptimSGDNesterov {σ : Type} (ml : MLFunctions σ)
    (args : List Value) (st : σ) : σ × Except KError Value :=
  if args.length < 3 ∨ args.length > 5 then
    (st, .error (.BuiltinUnexpectedArgumentError .OptimSGDNesterov))
  else
    let weights := argAt args 0
    let gradients := argAt args 1
    let velocity := argAt args 2
    let learningRate : Value := .double Double.lit_0_01
    let momentum : Value := .double Double.lit_0_0
    let learningRate := if args.length > 3 then argAt args 3 else learningRate
    let momentum := if args.length > 4 then argAt args 4 else momentum
    returning weights (ml.__nesterov_sgd__ weights gradients velocity learningRate momentum st)

/-- The function `MLBuiltinHandler::executeOptimSGD`. -/
def MLBuiltinHandler.executeOptimSGD {σ : Type} (ml : MLFunctions σ)
    (args : List Value) (st : σ) : σ × Except KError Value :=
  if args.length < 3 ∨ args.length > 5 then
    (st, .error (.BuiltinUnexpectedArgumentError .OptimSGD))
  else
    let weights := argAt args 0
    let gradients := argAt args 1
    let velocity := argAt args 2
    let learningRate : Value := .double Double.lit_0_01
    let momentum : Value := .double Double.lit_0_0
    let learningRate := if args.length > 3 then argAt args 3 else learningRate
    let momentum := if args.length > 4 then argAt args 4 else momentum
    returning weights (ml.__sgd__ weights gradients velocity learningRate momentum st)

/-- The function `MLBuiltinHandler::executeOptimNadam`. -/
def MLBuiltinHandler.executeOptimNadam {σ : Type} (ml : MLFunctions σ)
    (args : List Value) (st : σ) : σ × Except KError Value :=
  if args.length < 4 ∨ args.length > 9 then
    (st, .error (.BuiltinUnexpectedArgumentError .OptimNadam))
  else
    let weights := argAt args 0
    let gradients := argAt args 1
    let m := argAt args 2
    let v := argAt args 3
    let learningRate : Value := .double Double.lit_0_02
    let beta1 : Value := .double Double.lit_0_9
    let beta2 : Value := .double Double.lit_0_999
    let t : Value := .int 1
    let epsilon : Value := .double __epsilon__
    let learningRate := if args.length > 4 then argAt args 4 else learningRate
    let beta1 := if args.length > 5 then argAt args 5 else beta1
    let beta2 := if args.length > 6 then argAt args 6 else beta2
    let t := if args.length > 7 then argAt args 7 else t
    let epsilon := if args.length > 8 then argAt args 8 else epsilon
    returning weights (ml.__nadam__ weights gradients m v learningRate beta1 beta2 t epsilon st)

/-- The function `MLBuiltinHandler::executeOptimAdam`. -/
def MLBuiltinHandler.executeOptimAdam {σ : Type} (ml : MLFunctions σ)
    (args : List Value) (st : σ) : σ × Except KError Value :=
  if args.length < 4 ∨ args.length > 9 then
    (st, .error (.BuiltinUnexpectedArgumentError .OptimAdam))
  else
    let weights := argAt args 0
    let gradients := argAt args 1
    let m := argAt args 2
    let v := argAt args 3
    let learningRate : Value := .double Double.lit_0_02
    let beta1 : Value := .double Double.lit_0_9
    let beta2 : Value := .double Double.lit_0_999
    let t : Value := .int 1
    let epsilon : Value := .double __epsilon__
    let learningRate := if args.length > 4 then argAt args 4 else learningRate
    let beta1 := if args.length > 5 then argAt args 5 else beta1
    let beta2 := if args.length > 6 then argAt args 6 else beta2
    let t := if args.length > 7 then argAt args 7 else t
    let epsilon := if args.length > 8 then argAt args 8 else epsilon
    returning weights (ml.__adam__ weights gradients m v learningRate beta1 beta2 t epsilon st)

/-- The function `MLBuiltinHandler::executeOptimAdamax`. -/
def MLBuiltinHandler.executeOptimAdamax {σ : Type} (ml : MLFunctions σ)
    (args : List Value) (st : σ) : σ × Except KError Value :=
  if args.length < 4 ∨ args.length > 8 then
    (st, .error (.BuiltinUnexpectedArgumentError .OptimAdamax))
  else
    let weights := argAt args 0
    let gradients := argAt args 1
    let m := argAt args 2
    let v := argAt args 3
    let learningRate : Value := .double Double.lit_0_02
    let beta1 : Value := .double Double.lit_0_9
    let beta2 : Value := .double Double.lit_0_999
    let epsilon : Value := .double __epsilon__
    let learningRate := if args.length > 4 then argAt args 4 else learningRate
    let beta1 := if args.length > 5 then argAt args 5 else beta1
    let beta2 := if args.length > 6 then argAt args 6 else beta2
    let epsilon := if args.length > 7 then argAt args 7 else epsilon
    returning weights (ml.__adamax__ weights gradients m v learningRate beta1 beta2 epsilon st)

/-- The function `MLBuiltinHandler::executeOptimAdagrad`. -/
def MLBuiltinHandler.executeOptimAdagrad {σ : Type} (ml : MLFunctions σ)
    (args : List Value) (st : σ) : σ × Except KError Value :=
  if args.length < 3 ∨ args.length > 5 then
    (st, .error (.BuiltinUnexpectedArgumentError .OptimAdagrad))
  else
    let weights := argAt args 0
    let gradients := argAt args 1
    let v := argAt args 2
    let learningRate : Value := .double Double.lit_0_01
    let epsilon : Value := .double __epsilon__
    let learningRate := if args.length > 3 then argAt args 3 else learningRate
    let epsilon := if args.length > 4 then argAt args 4 else epsilon
    returning weights (ml.__adagrad__ weights gradients v learningRate epsilon st)

/-- The function `MLBuiltinHandler::executeOptimAdadelta`. -/
def MLBuiltinHandler.executeOptimAdadelta {σ : Type} (ml : MLFunctions σ)
    (args : List Value) (st : σ) : σ × Except KError Value :=
  if args.length < 4 ∨ args.length > 6 then
    (st, .error (.BuiltinUnexpectedArgumentError .OptimAdadelta))
  else
    let weights := argAt args 0
    let gradients := argAt args 1
    let accumGrad := argAt args 2
    let accumUpdate := argAt args 3
    let rho : Value := .double Double.lit_0_95
    let epsilon : Value := .double Double.lit_1em6
    let rho := if args.length > 4 then argAt args 4 else rho
    let epsilon := if args.length > 5 then argAt args 5 else epsilon
    returning weights (ml.__adadelta__ weights gradients accumGrad accumUpdate rho epsilon st)

/-- The function `MLBuiltinHandler::executeOptimRMSProp`. -/
def MLBuiltinHandler.executeOptimRMSProp {σ : Type} (ml : MLFunctions σ)
    (args : List Value) (st : σ) : σ × Except KError Value :=
  if args.length < 3 ∨ args.length > 5 then
    (st, .error (.BuiltinUnexpectedArgumentError .OptimRMSProp))
  else
    let weights := argAt args 0
    let gradients := argAt args 1
    let v := argAt args 2
    let learningRate : Value := .double Double.lit_0_001
    let decayRate : Value := .double Double.lit_0_9
    let learningRate := if args.length > 3 then argAt args 3 else learningRate
    let decayRate := if args.length > 4 then argAt args 4 else decayRate
    returning weights (ml.__rmsprop__ weights gradients v learningRate decayRate st)

/-- The function `MLBuiltinHandler::executeRegDropout`. -/
def MLBuiltinHandler.executeRegDropout {σ : Type} (ml : MLFunctions σ)
    (args : List Value) (st : σ) : σ × Except KError Value :=
  if args.isEmpty ∨ args.length > 2 then
    (st, .error (.BuiltinUnexpectedArgumentError .RegDropout))
  else
    let dropoutRate : Value := if args.length > 1 then argAt args 1 else .double HALF
    ml.__dropout__ (argAt args 0) dropoutRate st

/-- The function `MLBuiltinHandler::executeRegWeightDecay`. -/
def MLBuiltinHandler.executeRegWeightDecay {σ : Type} (ml : MLFunctions σ)
    (args : List Value) (st : σ) : σ × Except KError Value :=
  if args.isEmpty ∨ args.length > 2 then
    (st, .error (.BuiltinUnexpectedArgumentError .RegWeightDecay))
  else
    let decayRate : Value := if args.length > 1 then argAt args 1 else .double ONE_PERCENT
    returning (argAt args 0) (ml.__weight_decay__ (argAt args 0) decayRate st)

/-- The function `MLBuiltinHandler::executeRegL1Lasso`. -/
def MLBuiltinHandler.executeRegL1Lasso {σ : Type} (ml : MLFunctions σ)
    (args : List Value) (st : σ) : σ × Except KError Value :=
  if args.isEmpty ∨ args.length > 2 then
    (st, .error (.BuiltinUnexpectedArgumentError .RegWeightDecay))
  else
    let lambda : Value := if args.length > 1 then argAt args 1 else .double ONE_PERCENT
    ml.__l1_regularization__ (argAt args 0) lambda st

/-- The function `MLBuiltinHandler::executeRegL2Ridge`. -/
def MLBuiltinHandler.executeRegL2Ridge {σ : Type} (ml : MLFunctions σ)
    (args : List Value) (st : σ) : σ × Except KError Value :=
  if args.isEmpty ∨ args.length > 2 then
    (st, .error (.BuiltinUnexpectedArgumentError .RegWeightDecay))
  else
    let lambda : Value := if args.length > 1 then argAt args 1 else .double ONE_PERCENT
    ml.__l2_regularization__ (argAt args 0) lambda st

/-- The function `MLBuiltinHandler::executeRegElasticNet`. -/
def MLBuiltinHandler.executeRegElasticNet {σ : Type} (ml : MLFunctions σ)
    (args : List Value) (st : σ) : σ × Except KError Value :=
  if args.isEmpty ∨ args.length > 3 then
    (st, .error (.BuiltinUnexpectedArgumentError .RegWeightDecay))
  else
    let lambda1 : Value := if args.length > 1 then argAt args 1 else .double ONE_PERCENT
    let lambda2 : Value := if args.length > 2 then argAt args 2 else .double ONE_PERCENT
    ml.__elastic_net__ (argAt args 0) lambda1 lambda2 st

/-- The function `MLBuiltinHandler::execute`: the switch on the builtin. -/
def MLBuiltinHandler.execute {σ : Type} (ml : MLFunctions σ) (builtin : KName)
    (args : List Value) (st : σ) : σ × Except KError Value :=
  match builtin with
  | .Builtin_MLReg_Dropout => MLBuiltinHandler.executeRegDropout ml args st
  | .Builtin_MLReg_WeightDecay => MLBuiltinHandler.executeRegWeightDecay ml args st
  | .Builtin_MLReg_L1Lasso => MLBuiltinHandler.executeRegL1Lasso ml args st
  | .Builtin_MLReg_L2Ridge => MLBuiltinHandler.executeRegL2Ridge ml args st
  | .Builtin_MLReg_ElasticNet => MLBuiltinHandler.executeRegElasticNet ml args st
  | .Builtin_MLOptim_RMSProp => MLBuiltinHandler.executeOptimRMSProp ml args st
  | .Builtin_MLOptim_Adadelta => MLBuiltinHandler.executeOptimAdadelta ml args st
  | .Builtin_MLOptim_Adagrad => MLBuiltinHandler.executeOptimAdagrad ml args st
  | .Builtin_MLOptim_Adamax => MLBuiltinHandler.executeOptimAdamax ml args st
  | .Builtin_MLOptim_Adam => MLBuiltinHandler.executeOptimAdam ml args st
  | .Builtin_MLOptim_Nadam => MLBuiltinHandler.executeOptimNadam ml args st
  | .Builtin_MLOptim_SGD => MLBuiltinHandler.executeOptimSGD ml args st
  | .Builtin_MLOptim_SGDNesterov => MLBuiltinHandler.executeOptimSGDNesterov ml args st
  | .Builtin_MLLoss_BinaryCrossEntropy =>
      MLBuiltinHandler.executeLossBinaryCrossEntropy ml args st
  | .Builtin_MLLoss_BinaryFocal => MLBuiltinHandler.executeLossBinaryFocal ml args st
  | .Builtin_MLLoss_CatCrossEntropy => MLBuiltinHandler.executeLossCatCrossEntropy ml args st
  | .Builtin_MLLoss_CosSimilarity => MLBuiltinHandler.executeLossCatCrossEntropy ml args st
  | _ => (st, .error .UnknownBuiltinError)

/-- Functions that record their arguments: the state is the list of the calls
made, each with the name of the function and its arguments, and every call
returns `null`. -/
def MLFunctions.recording : MLFunctions (List (String × List Value)) where
  __dropout__ := fun a b st => (st ++ [("__dropout__", [a, b])], .ok .null)
  __weight_decay__ := fun a b st => (st ++ [("__weight_decay__", [a, b])], .ok ())
  __l1_regularization__ := fun a b st => (st ++ [("__l1_regularization__", [a, b])], .ok .null)
  __l2_regularization__ := fun a b st => (st ++ [("__l2_regularization__", [a, b])], .ok .null)
  __elastic_net__ := fun a b c st => (st ++ [("__elastic_net__", [a, b, c])], .ok .null)
  __rmsprop__ := fun a b c d e st => (st ++ [("__rmsprop__", [a, b, c, d, e])], .ok ())
  __adadelta__ := fun a b c d e f st =>
    (st ++ [("__adadelta__", [a, b, c, d, e, f])], .ok ())
  __adagrad__ := fun a b c d e st => (st ++ [("__adagrad__", [a, b, c, d, e])], .ok ())
  __adamax__ := fun a b c d e f g h st =>
    (st ++ [("__adamax__", [a, b, c, d, e, f, g, h])], .ok ())
  __adam__ := fun a b c d e f g h i st =>
    (st ++ [("__adam__", [a, b, c, d, e, f, g, h, i])], .ok ())
  __nadam__ := fun a b c d e f g h i st =>
    (st ++ [("__nadam__", [a, b, c, d, e, f, g, h, i])], .ok ())
  __sgd__ := fun a b c d e st => (st ++ [("__sgd__", [a, b, c, d, e])], .ok ())
  __nesterov_sgd__ := fun a b c d e st =>
    (st ++ [("__nesterov_sgd__", [a, b, c, d, e])], .ok ())
  __binary_crossentropy__ := fun a b c st =>
    (st ++ [("__binary_crossentropy__", [a, b, c])], .ok .null)
  __binary_focal_loss__ := fun a b c d e st =>
    (st ++ [("__binary_focal_loss__", [a, b, c, d, e])], .ok .null)
  __categorical_crossentropy__ := fun a b c st =>
    (st ++ [("__categorical_crossentropy__", [a, b, c])], .ok .null)
  __cosine_similarity__ := fun a b st =>
    (st ++ [("__cosine_similarity__", [a, b])], .ok .null)

/-! ## The optimizers of `MLOptimizerBuiltins` (`math/functions.h`) -/

/-- The function `get_double` of `math/functions.h`. -/
def get_double (arg : Value) : Except KError Double :=
  match arg with
  | .int n => .ok (Double.ofInt n)
  | .double d => .ok d
  | _ => .error .ConversionError

/-- The function `get_integer` of `math/functions.h`. -/
def get_integer (arg : Value) : Except KError Int :=
  match arg with
  | .double d => .ok (Double.toInt d)
  | .int n => .ok n
  | _ => .error .ConversionError

/-- The functions `std::sqrt`, `std::abs` and `std::max` on doubles, of the
host. -/
structure DoubleLib where
  sqrt : Double → Double
  abs : Double → Double
  max : Double → Double → Double

/-- A sample host library: every function returns its first argument. -/
def DoubleLib.quiet : DoubleLib where
  sqrt := fun d => d
  abs := fun d => d
  max := fun d _ => d

/-- The literal `1.0`, also the `int` literal `1` where it is converted to a
double. -/
def Double.lit_1_0 : Double := ⟨false, 1023, 0⟩

/-- The literal `0.1`. -/
def Double.lit_0_1 : Double := ⟨false, 1019, 2702159776422298⟩

/-- The literal `1000.0`. -/
def Double.lit_1000_0 : Double := ⟨false, 1032, 4292493394837504⟩

/-- A step of a loop body on the heap: it returns the heap it leaves, also
when it throws or reads outside a vector. -/
def HeapStep (α : Type) : Type := Heap → Heap × Run α

instance : Monad HeapStep where
  pure a := fun heap => (heap, .ok a)
  bind m f := fun heap =>
    match m heap with
    | (heap1, .ok a) => f a heap1
    | (heap1, .error e) => (heap1, .error e)
    | (heap1, .undefined) => (heap1, .undefined)

/-- The read `list[i]` of an element of the storage of a list. -/
def readValue (list i : Nat) : HeapStep Value := fun heap =>
  match (heap.elements list)[i]? with
  | some v => (heap, .ok v)
  | none => (heap, .undefined)

/-- The call `get_double(token, list[i])`. -/
def readDouble (list i : Nat) : HeapStep Double := fun heap =>
  match (heap.elements list)[i]? with
  | some v =>
      match get_double v with
      | .ok d => (heap, .ok d)
      | .error e => (heap, .error e)
  | none => (heap, .undefined)

/-- The assignment `list[i] = value`. -/
def assignAt (list i : Nat) (value : Value) : HeapStep Unit := fun heap =>
  if i < (heap.elements list).length then
    (heap.setElements list ((heap.elements list).set i value), .ok ())
  else (heap, .undefined)

/-- The call `MathImpl.do_addition(token, left, right)` as a step. -/
def additionStep (fp : DoubleArith) (left right : Value) : HeapStep Value := fun heap =>
  match do_addition fp heap left right with
  | .ok (v, heap1) => (heap1, .ok v)
  | .error e => (heap, .error e)

/-- The loop `for (size_t i = 0; i < weightsList.size(); ++i)` of the
optimizers, with the body as a step. -/
def sizeLoop (weightsList : Nat) (body : Nat → HeapStep Unit) :
    Nat → Nat → Heap → Option (Heap × Run Unit)
  | 0, _, _ => none
  | fuel + 1, i, heap =>
      if i < (heap.elements weightsList).length then
        match body i heap with
        | (heap1, .ok _) => sizeLoop weightsList body fuel (i + 1) heap1
        | (heap1, .error e) => some (heap1, .error e)
        | (heap1, .undefined) => some (heap1, .undefined)
      else some (heap, .ok ())

/-- The function `MLOptimizerBuiltins.__rmsprop__`. -/
def __rmsprop__ (fp : DoubleArith) (lib : DoubleLib) (fuel : Nat) (heap : Heap)
    (weights gradients v learning_rate decay_rate : Value) : Option (Heap × Run Unit) :=
  match weights, gradients, v with
  | .list weightsList, .list gradientsList, .list vList =>
      if (heap.elements weightsList).length ≠ (heap.elements gradientsList).length ∨
          (heap.elements weightsList).length ≠ (heap.elements vList).length then
        some (heap, .error .InvalidOperationError)
      else
        match get_double learning_rate, get_double decay_rate with
        | .ok learningRate, .ok decayRate =>
            sizeLoop weightsList
              (fun i => do
                let gradient ← readDouble gradientsList i
                let vi ← readDouble vList i
                assignAt vList i (.double (fp.add (fp.mul decayRate vi)
                  (fp.mul (fp.mul (fp.sub Double.lit_1_0 decayRate) gradient) gradient)))
                let wi ← readDouble weightsList i
                let vi ← readDouble vList i
                assignAt weightsList i (.double (fp.sub wi
                  (fp.div (fp.mul learningRate gradient) (fp.add (lib.sqrt vi) __epsilon__)))))
              fuel 0 heap
        | .error e, _ => some (heap, .error e)
        | _, .error e => some (heap, .error e)
  | _, _, _ => some (heap, .error .ConversionError)

/-- The function `MLOptimizerBuiltins.__adadelta__`. -/
def __adadelta__ (fp : DoubleArith) (lib : DoubleLib) (fuel : Nat) (heap : Heap)
    (weights gradients accum_grad accum_update rho : Value) : Option (Heap × Run Unit) :=
  match weights, gradients, accum_grad, accum_update with
  | .list weightsList, .list gradientsList, .list accumGradList, .list accumUpdateList =>
      let epsilon := __epsilon__
      match get_double rho with
      | .ok rhoValue =>
          if (heap.elements weightsList).length ≠ (heap.elements gradientsList).length ∨
              (heap.elements weightsList).length ≠ (heap.elements accumGradList).length ∨
              (heap.elements weightsList).length ≠ (heap.elements accumUpdateList).length then
            some (heap, .error .InvalidOperationError)
          else
            sizeLoop weightsList
              (fun i => do
                let grad ← readDouble gradientsList i
                let ag ← readDouble accumGradList i
                assignAt accumGradList i (.double (fp.add (fp.mul rhoValue ag)
                  (fp.mul (fp.mul (fp.sub Double.lit_1_0 rhoValue) grad) grad)))
                let accumUpdate ← readDouble accumUpdateList i
                let ag ← readDouble accumGradList i
                let update := fp.mul
                  (lib.sqrt (fp.div (fp.add accumUpdate epsilon) (fp.add ag epsilon))) grad
                assignAt accumUpdateList i (.double (fp.add (fp.mul rhoValue accumUpdate)
                  (fp.mul (fp.mul (fp.sub Double.lit_1_0 rhoValue) update) update)))
                let wi ← readDouble weightsList i
                assignAt weightsList i (.double (fp.sub wi update)))
              fuel 0 heap
      | .error e => some (heap, .error e)
  | _, _, _, _ => some (heap, .error .ConversionError)

/-- The function `MLOptimizerBuiltins.__adagrad__`. -/
def __adagrad__ (fp : DoubleArith) (lib : DoubleLib) (fuel : Nat) (heap : Heap)
    (weights gradients v learning_rate : Value) : Option (Heap × Run Unit) :=
  match weights, gradients, v with
  | .list weightsList, .list gradientsList, .list vList =>
      if (heap.elements weightsList).length ≠ (heap.elements gradientsList).length ∨
          (heap.elements weightsList).length ≠ (heap.elements vList).length then
        some (heap, .error .InvalidOperationError)
      else
        match get_double learning_rate with
        | .ok learningRate =>
            sizeLoop weightsList
              (fun i => do
                let gradient ← readDouble gradientsList i
                let vi ← readDouble vList i
                assignAt vList i (.double (fp.add vi (fp.mul gradient gradient)))
                let wi ← readDouble weightsList i
                let vi ← readDouble vList i
                assignAt weightsList i (.double (fp.sub wi
                  (fp.div (fp.mul learningRate gradient) (fp.add (lib.sqrt vi) __epsilon__)))))
              fuel 0 heap
        | .error e => some (heap, .error e)
  | _, _, _ => some (heap, .error .ConversionError)

/-- The function `MLOptimizerBuiltins.__adamax__`. -/
def __adamax__ (fp : DoubleArith) (lib : DoubleLib) (fuel : Nat) (heap : Heap)
    (weights gradients m v learning_rate beta1 beta2 : Value) : Option (Heap × Run Unit) :=
  match weights, gradients, m, v with
  | .list weightsList, .list gradientsList, .list mList, .list vList =>
      if (heap.elements weightsList).length ≠ (heap.elements gradientsList).length ∨
          (heap.elements weightsList).length ≠ (heap.elements mList).length ∨
          (heap.elements weightsList).length ≠ (heap.elements vList).length then
        some (heap, .error .InvalidOperationError)
      else
        match get_double learning_rate, get_double beta1, get_double beta2 with
        | .ok learningRate, .ok beta1Value, .ok beta2Value =>
            sizeLoop weightsList
              (fun i => do
                let grad ← readDouble gradientsList i
                let mi ← readDouble mList i
                assignAt mList i (.double (fp.add (fp.mul beta1Value mi)
                  (fp.mul (fp.sub Double.lit_1_0 beta1Value) grad)))
                let vi ← readDouble vList i
                assignAt vList i (.double (lib.max (fp.mul beta2Value vi) (lib.abs grad)))
                let wi ← readDouble weightsList i
                let mi ← readDouble mList i
                let vi ← readDouble vList i
                assignAt weightsList i (.double (fp.sub wi
                  (fp.div (fp.mul learningRate mi) (fp.add vi __epsilon__)))))
              fuel 0 heap
        | .error e, _, _ => some (heap, .error e)
        | _, .error e, _ => some (heap, .error e)
        | _, _, .error e => some (heap, .error e)
  | _, _, _, _ => some (heap, .error .ConversionError)

/-- The function `MLOptimizerBuiltins.__adam__`. -/
def __adam__ (fp : DoubleArith) (lib : DoubleLib) (fuel : Nat) (heap : Heap)
    (weights gradients m v learning_rate beta1 beta2 t : Value) : Option (Heap × Run Unit) :=
  match weights, gradients, m, v with
  | .list weightsList, .list gradientsList, .list mList, .list vList =>
      if (heap.elements weightsList).length ≠ (heap.elements gradientsList).length ∨
          (heap.elements weightsList).length ≠ (heap.elements mList).length ∨
          (heap.elements weightsList).length ≠ (heap.elements vList).length then
        some (heap, .error .InvalidOperationError)
      else
        match get_double learning_rate, get_double beta1, get_double beta2, get_integer t with
        | .ok learningRate, .ok beta1Value, .ok beta2Value, .ok tValue =>
            sizeLoop weightsList
              (fun i => do
                let gradient ← readDouble gradientsList i
                let mi ← readDouble mList i
                assignAt mList i (.double (fp.add (fp.mul beta1Value mi)
                  (fp.mul (fp.sub Double.lit_1_0 beta1Value) gradient)))
                let vi ← readDouble vList i
                assignAt vList i (.double (fp.add (fp.mul beta2Value vi)
                  (fp.mul (fp.mul (fp.sub Double.lit_1_0 beta2Value) gradient) gradient)))
                let mi ← readDouble mList i
                let m_hat := fp.div mi
                  (fp.sub Double.lit_1_0 (fp.pow beta1Value (Double.ofInt tValue)))
                let vi ← readDouble vList i
                let v_hat := fp.div vi
                  (fp.sub Double.lit_1_0 (fp.pow beta2Value (Double.ofInt tValue)))
                let wi ← readDouble weightsList i
                assignAt weightsList i (.double (fp.sub wi
                  (fp.div (fp.mul learningRate m_hat) (fp.add (lib.sqrt v_hat) __epsilon__)))))
              fuel 0 heap
        | .error e, _, _, _ => some (heap, .error e)
        | _, .error e, _, _ => some (heap, .error e)
        | _, _, .error e, _ => some (heap, .error e)
        | _, _, _, .error e => some (heap, .error e)
  | _, _, _, _ => some (heap, .error .ConversionError)

/-- The function `MLOptimizerBuiltins.__nadam__`. -/
def __nadam__ (fp : DoubleArith) (lib : DoubleLib) (fuel : Nat) (heap : Heap)
    (weights gradients m v learning_rate beta1 beta2 t : Value) : Option (Heap × Run Unit) :=
  match weights, gradients, m, v with
  | .list weightsList, .list gradientsList, .list mList, .list vList =>
      if (heap.elements weightsList).length ≠ (heap.elements gradientsList).length ∨
          (heap.elements weightsList).length ≠ (heap.elements mList).length ∨
          (heap.elements weightsList).length ≠ (heap.elements vList).length then
        some (heap, .error .InvalidOperationError)
      else
        match get_double learning_rate, get_double beta1, get_double beta2, get_integer t with
        | .ok learningRate, .ok beta1Value, .ok beta2Value, .ok tValue =>
            let beta1_t := fp.mul beta1Value (fp.sub Double.lit_1_0
              (fp.pow Double.lit_0_1 (fp.div (Double.ofInt tValue) Double.lit_1000_0)))
            sizeLoop weightsList
              (fun i => do
                let grad ← readDouble gradientsList i
                let mi ← readDouble mList i
                assignAt mList i (.double (fp.add (fp.mul beta1Value mi)
                  (fp.mul (fp.sub Double.lit_1_0 beta1Value) grad)))
                let vi ← readDouble vList i
                assignAt vList i (.double (fp.add (fp.mul beta2Value vi)
                  (fp.mul (fp.mul (fp.sub Double.lit_1_0 beta2Value) grad) grad)))
                let mi ← readDouble mList i
                let m_hat := fp.div mi (fp.sub Double.lit_1_0 beta1_t)
                let vi ← readDouble vList i
                let v_hat := fp.div vi (fp.sub Double.lit_1_0 beta2Value)
                let wi ← readDouble weightsList i
                assignAt weightsList i (.double (fp.sub wi
                  (fp.div
                    (fp.mul learningRate (fp.add (fp.mul beta1Value m_hat)
                      (fp.mul (fp.sub Double.lit_1_0 beta1Value) grad)))
                    (fp.add (lib.sqrt v_hat) __epsilon__)))))
              fuel 0 heap
        | .error e, _, _, _ => some (heap, .error e)
        | _, .error e, _, _ => some (heap, .error e)
        | _, _, .error e, _ => some (heap, .error e)
        | _, _, _, .error e => some (heap, .error e)
  | _, _, _, _ => some (heap, .error .ConversionError)

/-- The function `MLOptimizerBuiltins.__sgd__`. -/
def __sgd__ (fp : DoubleArith) (fuel : Nat) (heap : Heap)
    (weights gradients velocity learning_rate momentum : Value) : Option (Heap × Run Unit) :=
  match weights, gradients, velocity with
  | .list weightsList, .list gradientsList, .list velocityList =>
      if (heap.elements weightsList).length ≠ (heap.elements gradientsList).length ∨
          (heap.elements weightsList).length ≠ (heap.elements velocityList).length then
        some (heap, .error .InvalidOperationError)
      else
        match get_double momentum, get_double learning_rate with
        | .ok momentumValue, .ok learningRate =>
            sizeLoop weightsList
              (fun i => do
                let vi ← readDouble velocityList i
                let gi ← readDouble gradientsList i
                assignAt velocityList i
                  (.double (fp.sub (fp.mul momentumValue vi) (fp.mul learningRate gi)))
                let w ← readValue weightsList i
                let vel ← readValue velocityList i
                let sum ← additionStep fp w vel
                assignAt weightsList i sum)
              fuel 0 heap
        | .error e, _ => some (heap, .error e)
        | _, .error e => some (heap, .error e)
  | _, _, _ => some (heap, .error .ConversionError)

/-- The function `MLOptimizerBuiltins.__nesterov_sgd__`. -/
def __nesterov_sgd__ (fp : DoubleArith) (fuel : Nat) (heap : Heap)
    (weights gradients velocity learning_rate momentum : Value) : Option (Heap × Run Unit) :=
  match weights, gradients, velocity with
  | .list weightsList, .list gradientsList, .list velocityList =>
      if (heap.elements weightsList).length ≠ (heap.elements gradientsList).length ∨
          (heap.elements weightsList).length ≠ (heap.elements velocityList).length then
        some (heap, .error .InvalidOperationError)
      else
        match get_double momentum, get_double learning_rate with
        | .ok momentumValue, .ok learningRate =>
            sizeLoop weightsList
              (fun i => do
                let wi ← readDouble weightsList i
                let vi ← readDouble velocityList i
                let lookahead_weight := fp.add wi (fp.mul momentumValue vi)
                let vi ← readDouble velocityList i
                let gi ← readDouble gradientsList i
                assignAt velocityList i
                  (.double (fp.sub (fp.mul momentumValue vi) (fp.mul learningRate gi)))
                let vi ← readDouble velocityList i
                assignAt weightsList i (.double (fp.add lookahead_weight vi)))
              fuel 0 heap
        | .error e, _ => some (heap, .error e)
        | _, .error e => some (heap, .error e)
  | _, _, _ => some (heap, .error .ConversionError)

/-! ## Basic facts -/

theorem Double.isZero_ofInt (n : Int) : (Double.ofInt n).isZero = decide (n = 0) := by
  unfold Double.ofInt
  by_cases h : n = 0
  · simp [h, Double.isZero]
  · simp only [h, if_false]
    split_ifs <;> simp [Double.isZero, h]

theorem Heap.elements_setElements_same (heap : Heap) (h : Nat) (xs : List Value)
    (hv : heap.valid h) : (heap.setElements h xs).elements h = xs := by
  unfold Heap.valid at hv
  simp [Heap.elements, Heap.setElements, List.getD_eq_getElem?_getD, hv]

theorem Heap.elements_setElements_other (heap : Heap) (h g : Nat) (xs : List Value)
    (hne : h ≠ g) : (heap.setElements h xs).elements g = heap.elements g := by
  simp [Heap.elements, Heap.setElements, List.getD_eq_getElem?_getD, List.getElem?_set, hne]

theorem Heap.valid_setElements (heap : Heap) (h g : Nat) (xs : List Value) :
    (heap.setElements h xs).valid g ↔ heap.valid g := by
  simp [Heap.valid, Heap.setElements]

theorem Heap.length_setElements (heap : Heap) (h : Nat) (xs : List Value) :
    (heap.setElements h xs).lists.length = heap.lists.length := by
  simp [Heap.setElements]

theorem Heap.elements_make_shared_old (heap : Heap) (xs : List Value) (g : Nat)
    (hv : heap.valid g) : (heap.make_shared xs).2.elements g = heap.elements g := by
  unfold Heap.valid at hv
  simp [Heap.elements, Heap.make_shared, List.getD_eq_getElem?_getD, List.getElem?_append_left, hv]

theorem Heap.elements_make_shared_new (heap : Heap) (xs : List Value) :
    (heap.make_shared xs).2.elements (heap.make_shared xs).1 = xs := by
  simp [Heap.elements, Heap.make_shared, List.getD_eq_getElem?_getD]

/-! ## Numeric operators -/

/-- C1: for numeric operands (each an Integer or a Float), `+`, `-` and `*`
succeed without touching the heap, the result is a Float exactly when at least
one operand is a Float and an Integer otherwise, and for two Integers the value
is the 64-bit wrapping sum, difference or product. -/
theorem numeric_promotion (fp : DoubleArith) (vh : ValueHelpers) (fuel : Nat) (heap : Heap)
    (left right : Value) (hl : left.isNumeric = true) (hr : right.isNumeric = true) :
    (∃ v, do_addition fp heap left right = .ok (v, heap) ∧
        v.isDouble = (left.isDouble || right.isDouble) ∧
        v.isInt = !(left.isDouble || right.isDouble) ∧
        ∀ a b, left = .int a → right = .int b → v = .int (wrap64 (a + b))) ∧
    (∃ v, do_subtraction fp vh heap left right = .ok (v, heap) ∧
        v.isDouble = (left.isDouble || right.isDouble) ∧
        v.isInt = !(left.isDouble || right.isDouble) ∧
        ∀ a b, left = .int a → right = .int b → v = .int (wrap64 (a - b))) ∧
    (∃ v, do_multiplication fp vh fuel heap left right = some (.ok (v, heap)) ∧
        v.isDouble = (left.isDouble || right.isDouble) ∧
        v.isInt = !(left.isDouble || right.isDouble) ∧
        ∀ a b, left = .int a → right = .int b → v = .int (wrap64 (a * b))) := by
  cases left <;> cases right <;>
    simp_all [Value.isNumeric, Value.isInt, Value.isDouble, do_addition, do_subtraction,
      do_multiplication]

theorem numeric_promotion_witness :
    (∃ v, do_addition DoubleArith.quiet ⟨[]⟩ (.int 9223372036854775807) (.int 1)
          = .ok (v, ⟨[]⟩) ∧
        v.isDouble = ((Value.int 9223372036854775807).isDouble || (Value.int 1).isDouble) ∧
        v.isInt = !((Value.int 9223372036854775807).isDouble || (Value.int 1).isDouble) ∧
        ∀ a b, Value.int 9223372036854775807 = .int a → Value.int 1 = .int b →
          v = .int (wrap64 (a + b))) ∧
    wrap64 (9223372036854775807 + 1) = -9223372036854775808 :=
  ⟨(numeric_promotion DoubleArith.quiet ValueHelpers.shallow 0 ⟨[]⟩
      (.int 9223372036854775807) (.int 1) rfl rfl).1, by decide⟩

/-- C2: with a numeric left operand, `do_division` and `do_modulus` throw
`DivideByZeroError` exactly when the numeric right operand is the Integer `0`
or a Float equal to `0.0`, in all four Integer/Float combinations. -/
theorem division_by_zero (fp : DoubleArith) (left right : Value)
    (hl : left.isNumeric = true) (hr : right.isNumeric = true) :
    (do_division fp left right = .error .DivideByZeroError ↔ right.isZeroNumber = true) ∧
    (do_modulus fp left right = .error .DivideByZeroError ↔ right.isZeroNumber = true) := by
  cases left <;> cases right <;>
    simp_all [Value.isNumeric, Value.isInt, Value.isDouble, Value.isZeroNumber, do_division,
      do_modulus, Double.isZero_ofInt]
  refine ⟨⟨fun h => ?_, fun h hn => absurd h hn⟩, ⟨fun h => ?_, fun h hn => absurd h hn⟩⟩
  · by_contra hn
    have h1 := h hn
    split_ifs at h1
    all_goals simp at h1
  · by_contra hn
    have h1 := h hn
    split_ifs at h1
    all_goals simp at h1

theorem division_by_zero_witness :
    (do_division DoubleArith.quiet (.double ⟨false, 1023, 0⟩) (.int 0)
        = .error .DivideByZeroError ↔ (Value.int 0).isZeroNumber = true) ∧
    (do_modulus DoubleArith.quiet (.double ⟨false, 1023, 0⟩) (.int 0)
        = .error .DivideByZeroError ↔ (Value.int 0).isZeroNumber = true) :=
  division_by_zero DoubleArith.quiet (.double ⟨false, 1023, 0⟩) (.int 0) rfl rfl

/-- C3: `do_addition` of a String and an Integer or Boolean is the String
concatenation with the decimal text of the Integer, or with `true`/`false`
for the Boolean, in the order of the operands, and leaves the heap alone;
`"x" + 1 = "x1"`, `1 + "x" = "1x"`, `true + "y" = "truey"`. -/
theorem string_concatenation (fp : DoubleArith) (heap : Heap) (s : String) (n : Int)
    (b : Bool) :
    do_addition fp heap (.string s) (.int n) = .ok (.string (s ++ toString n), heap) ∧
    do_addition fp heap (.int n) (.string s) = .ok (.string (toString n ++ s), heap) ∧
    do_addition fp heap (.string s) (.bool b) = .ok (.string (s ++ boolText b), heap) ∧
    do_addition fp heap (.bool b) (.string s) = .ok (.string (boolText b ++ s), heap) ∧
    boolText true = "true" ∧ boolText false = "false" ∧
    do_addition fp heap (.string "x") (.int 1) = .ok (.string "x1", heap) ∧
    do_addition fp heap (.int 1) (.string "x") = .ok (.string "1x", heap) ∧
    do_addition fp heap (.bool true) (.string "y") = .ok (.string "truey", heap) := by
  refine ⟨rfl, rfl, rfl, rfl, rfl, rfl, ?_, ?_, ?_⟩
  · show Except.ok (Value.string ("x" ++ toString (1 : Int)), heap) = _
    have : ("x" ++ toString (1 : Int)) = "x1" := by decide
    rw [this]
  · show Except.ok (Value.string (toString (1 : Int) ++ "x"), heap) = _
    have : (toString (1 : Int) ++ "x") = "1x" := by decide
    rw [this]
  · show Except.ok (Value.string ("true" ++ "y"), heap) = _
    have : ("true" ++ "y" : String) = "truey" := by decide
    rw [this]

/-! ## List addition -/

theorem Heap.elements_emplace_back_same (heap : Heap) (h : Nat) (v : Value)
    (hv : heap.valid h) : (heap.emplace_back h v).elements h = heap.elements h ++ [v] :=
  Heap.elements_setElements_same heap h _ hv

theorem Heap.elements_emplace_back_other (heap : Heap) (h g : Nat) (v : Value)
    (hne : h ≠ g) : (heap.emplace_back h v).elements g = heap.elements g :=
  Heap.elements_setElements_other heap h g _ hne

theorem Heap.length_emplace_back (heap : Heap) (h : Nat) (v : Value) :
    (heap.emplace_back h v).lists.length = heap.lists.length :=
  Heap.length_setElements heap h _

theorem appendLoop_length (list : Nat) (xs : List Value) (heap : Heap) :
    (appendLoop list xs heap).lists.length = heap.lists.length := by
  induction xs generalizing heap with
  | nil => rfl
  | cons x xs ih => simp [appendLoop, ih, Heap.length_emplace_back]

theorem appendLoop_same (list : Nat) (xs : List Value) (heap : Heap) (hv : heap.valid list) :
    (appendLoop list xs heap).elements list = heap.elements list ++ xs := by
  induction xs generalizing heap with
  | nil => simp [appendLoop]
  | cons x xs ih =>
    have hv1 : (heap.emplace_back list x).valid list := by
      unfold Heap.valid at *
      rw [Heap.length_emplace_back]; exact hv
    simp [appendLoop, ih _ hv1, Heap.elements_emplace_back_same heap list x hv]

theorem appendLoop_other (list g : Nat) (xs : List Value) (heap : Heap) (hne : list ≠ g) :
    (appendLoop list xs heap).elements g = heap.elements g := by
  induction xs generalizing heap with
  | nil => rfl
  | cons x xs ih => simp [appendLoop, ih, Heap.elements_emplace_back_other heap list g x hne]

/-- C4: for two distinct list handles `L` and `R`, `L + R` returns the handle
`L` itself; afterwards the cell of `L`, which every reference to `L` reads,
holds the old elements of `L` followed by the old elements of `R`, the cell of
`R` and every other cell are unchanged and no cell is allocated; the compound
`+=` of `interpretAssignOp` is this same `do_addition`. -/
theorem list_addition_in_place (fp : DoubleArith) (vh : ValueHelpers) (fuel : Nat)
    (heap : Heap) (L R : Nat) (hL : heap.valid L) (hne : L ≠ R) :
    ∃ heap1,
      do_addition fp heap (.list L) (.list R) = .ok (.list L, heap1) ∧
      interpretAssignOp fp vh fuel heap .Ops_AddAssign (.list L) (.list R)
        = some (.ok (.list L, heap1)) ∧
      heap1.elements L = heap.elements L ++ heap.elements R ∧
      heap1.elements R = heap.elements R ∧
      (∀ g, g ≠ L → heap1.elements g = heap.elements g) ∧
      heap1.lists.length = heap.lists.length := by
  have hadd : do_addition fp heap (.list L) (.list R)
      = .ok (.list L, appendLoop L (heap.elements R) heap) := by
    have h : ¬ (L = R ∧ heap.elements L ≠ []) := fun h => hne h.1
    simp only [do_addition, if_neg h]
  have hassign : interpretAssignOp fp vh fuel heap .Ops_AddAssign (.list L) (.list R)
      = some (do_addition fp heap (.list L) (.list R)) := rfl
  refine ⟨appendLoop L (heap.elements R) heap, hadd, by rw [hassign, hadd],
    appendLoop_same L _ heap hL, appendLoop_other L R _ heap hne, ?_,
    appendLoop_length L _ heap⟩
  intro g hg
  exact appendLoop_other L g _ heap (Ne.symm hg)

theorem list_addition_in_place_witness :
    (∃ heap1,
      do_addition DoubleArith.quiet ⟨[[.int 1, .int 2], [.int 3]]⟩ (.list 0) (.list 1)
        = .ok (.list 0, heap1) ∧
      interpretAssignOp DoubleArith.quiet ValueHelpers.shallow 0
          ⟨[[.int 1, .int 2], [.int 3]]⟩ .Ops_AddAssign (.list 0) (.list 1)
        = some (.ok (.list 0, heap1)) ∧
      heap1.elements 0
        = (Heap.mk [[.int 1, .int 2], [.int 3]]).elements 0
          ++ (Heap.mk [[.int 1, .int 2], [.int 3]]).elements 1 ∧
      heap1.elements 1 = (Heap.mk [[.int 1, .int 2], [.int 3]]).elements 1 ∧
      (∀ g, g ≠ 0 → heap1.elements g = (Heap.mk [[.int 1, .int 2], [.int 3]]).elements g) ∧
      heap1.lists.length = (Heap.mk [[.int 1, .int 2], [.int 3]]).lists.length) ∧
    do_addition DoubleArith.quiet ⟨[[.int 1, .int 2], [.int 3]]⟩ (.list 0) (.list 1)
      = .ok (.list 0, ⟨[[.int 1, .int 2, .int 3], [.int 3]]⟩) :=
  ⟨list_addition_in_place DoubleArith.quiet ValueHelpers.shallow 0
    ⟨[[.int 1, .int 2], [.int 3]]⟩ 0 1 (by decide) (by decide), by rfl⟩

/-- C5, as stated, fails when the right operand is a String: the String branch
of `do_addition` is tested before the List branch, so `[1] + "x"` is the
String `"x"` and the list is not extended. -/
theorem list_plus_string_counterexample :
    (Value.string "x").isList = false ∧
    do_addition DoubleArith.quiet ⟨[[.int 1]]⟩ (.list 0) (.string "x")
      = .ok (.string "x", ⟨[[.int 1]]⟩) ∧
    ¬ ∃ heap1,
      do_addition DoubleArith.quiet ⟨[[.int 1]]⟩ (.list 0) (.string "x")
        = .ok (.list 0, heap1) ∧
      heap1.elements 0 = (Heap.mk [[.int 1]]).elements 0 ++ [.string "x"] := by
  refine ⟨rfl, rfl, ?_⟩
  rintro ⟨heap1, h, -⟩
  have h2 : do_addition DoubleArith.quiet ⟨[[.int 1]]⟩ (.list 0) (.string "x")
      = .ok (.string "x", ⟨[[.int 1]]⟩) := rfl
  rw [h2] at h
  simp at h

/-- C5, amended: for a List `L` and a right operand `v` that is neither a List
nor a String, `L + v` returns the handle `L` itself with `v` appended as one
new last element: the length of `L` grows by exactly one, and every other cell
is unchanged. -/
theorem list_plus_element (fp : DoubleArith) (heap : Heap) (L : Nat) (v : Value)
    (hL : heap.valid L) (hlist : v.isList = false) (hstr : v.isString = false) :
    ∃ heap1,
      do_addition fp heap (.list L) v = .ok (.list L, heap1) ∧
      heap1.elements L = heap.elements L ++ [v] ∧
      (heap1.elements L).length = (heap.elements L).length + 1 ∧
      (∀ g, g ≠ L → heap1.elements g = heap.elements g) ∧
      heap1.lists.length = heap.lists.length := by
  refine ⟨heap.emplace_back L v, ?_, Heap.elements_emplace_back_same heap L v hL, ?_, ?_,
    Heap.length_emplace_back heap L v⟩
  · cases v <;> simp_all [Value.isList, Value.isString, do_addition]
  · simp [Heap.elements_emplace_back_same heap L v hL]
  · intro g hg
    exact Heap.elements_emplace_back_other heap L g v (Ne.symm hg)

theorem list_plus_element_witness :
    ∃ heap1,
      do_addition DoubleArith.quiet ⟨[[.int 1]]⟩ (.list 0) (.bool true)
        = .ok (.list 0, heap1) ∧
      heap1.elements 0 = (Heap.mk [[.int 1]]).elements 0 ++ [.bool true] ∧
      (heap1.elements 0).length = ((Heap.mk [[.int 1]]).elements 0).length + 1 ∧
      (∀ g, g ≠ 0 → heap1.elements g = (Heap.mk [[.int 1]]).elements g) ∧
      heap1.lists.length = (Heap.mk [[.int 1]]).lists.length :=
  list_plus_element DoubleArith.quiet ⟨[[.int 1]]⟩ 0 (.bool true) (by decide) rfl rfl

/-- C6: when neither operand is a String and the left operand is not a List,
`do_addition` succeeds exactly when both operands are numeric, and every
failure is a `ConversionError`; `Boolean + Boolean`, `Null + Null`,
`Integer + Boolean` and `Null + Integer` fail with `ConversionError`. -/
theorem addition_conversion_error (fp : DoubleArith) (heap : Heap) (left right : Value)
    (hls : left.isString = false) (hrs : right.isString = false)
    (hll : left.isList = false) :
    ((∃ r, do_addition fp heap left right = .ok r) ↔
        (left.isNumeric = true ∧ right.isNumeric = true)) ∧
    (¬ (left.isNumeric = true ∧ right.isNumeric = true) →
        do_addition fp heap left right = .error .ConversionError) ∧
    (∀ a b, do_addition fp heap (.bool a) (.bool b) = .error .ConversionError) ∧
    do_addition fp heap .null .null = .error .ConversionError ∧
    (∀ n b, do_addition fp heap (.int n) (.bool b) = .error .ConversionError) ∧
    (∀ n, do_addition fp heap .null (.int n) = .error .ConversionError) := by
  refine ⟨?_, ?_, fun _ _ => rfl, rfl, fun _ _ => rfl, fun _ => rfl⟩
  · cases left <;> cases right <;>
      simp_all [Value.isNumeric, Value.isInt, Value.isDouble, Value.isString, Value.isList,
        do_addition]
  · cases left <;> cases right <;>
      simp_all [Value.isNumeric, Value.isInt, Value.isDouble, Value.isString, Value.isList,
        do_addition]

theorem addition_conversion_error_witness :
    ((∃ r, do_addition DoubleArith.quiet ⟨[]⟩ (.int 1) .null = .ok r) ↔
        ((Value.int 1).isNumeric = true ∧ Value.null.isNumeric = true)) ∧
    do_addition DoubleArith.quiet ⟨[]⟩ (.int 1) .null = .error .ConversionError :=
  ⟨(addition_conversion_error DoubleArith.quiet ⟨[]⟩ (.int 1) .null rfl rfl rfl).1,
    (addition_conversion_error DoubleArith.quiet ⟨[]⟩ (.int 1) .null rfl rfl rfl).2.1
      (by decide)⟩

/-! ## List subtraction -/

theorem removeFirstLoop_found (same : Value → Value → Bool) (right : Value)
    (xs acc : List Value) : removeFirstLoop same right xs true acc = acc ++ xs := by
  induction xs generalizing acc with
  | nil => simp [removeFirstLoop]
  | cons x xs ih => simp [removeFirstLoop, ih]

theorem removeFirstLoop_eq (same : Value → Value → Bool) (right : Value)
    (xs acc : List Value) :
    removeFirstLoop same right xs false acc
      = acc ++ xs.eraseP (fun item => same item right) := by
  induction xs generalizing acc with
  | nil => simp [removeFirstLoop]
  | cons x xs ih =>
    by_cases h : same x right = true
    · simp [removeFirstLoop, h, removeFirstLoop_found]
    · simp [removeFirstLoop, h, ih, List.eraseP_cons]

theorem foundInRight_eq (same : Value → Value → Bool) (item : Value) (rs : List Value) :
    foundInRight same item rs = rs.any (fun ritem => same item ritem) := by
  induction rs with
  | nil => rfl
  | cons r rs ih =>
    by_cases h : same item r = true <;> simp [foundInRight, h, ih]

theorem differenceLoop_eq (same : Value → Value → Bool) (rs xs acc : List Value) :
    differenceLoop same rs xs acc
      = acc ++ xs.filter (fun item => !rs.any (fun ritem => same item ritem)) := by
  induction xs generalizing acc with
  | nil => simp [differenceLoop]
  | cons x xs ih =>
    by_cases h : rs.any (fun ritem => same x ritem) = true
    · simp only [differenceLoop, foundInRight_eq, h, Bool.not_true, ih]
      simp [List.filter_cons, h]
    · simp only [Bool.not_eq_true] at h
      simp only [differenceLoop, foundInRight_eq, h, Bool.not_false, ih]
      simp [List.filter_cons, h]

/-- C7: for a List `L` and a non-List value `v`, `L - v` returns a freshly
allocated list whose elements are those of `L` with only the first element
that `same_value` equates with `v` removed (all of `L` when there is none),
the others kept in order; the cell of `L` and every other existing cell are
unchanged; `[1,2,3] - 2 = [1,3]` and `[2,2,3] - 2 = [2,3]`. -/
theorem list_minus_element (fp : DoubleArith) (vh : ValueHelpers) (heap : Heap) (L : Nat)
    (v : Value) (hL : heap.valid L) (hv : v.isList = false) :
    ∃ N heap1,
      do_subtraction fp vh heap (.list L) v = .ok (.list N, heap1) ∧
      ¬ heap.valid N ∧ heap1.valid N ∧
      heap1.elements N
        = (heap.elements L).eraseP (fun item => vh.same_value heap item v) ∧
      heap1.elements L = heap.elements L ∧
      (∀ g, heap.valid g → heap1.elements g = heap.elements g) := by
  refine ⟨heap.lists.length,
    (heap.make_shared
      ((heap.elements L).eraseP (fun item => vh.same_value heap item v))).2, ?_, ?_, ?_, ?_,
    Heap.elements_make_shared_old heap _ L hL,
    fun g hg => Heap.elements_make_shared_old heap _ g hg⟩
  · cases v <;>
      simp_all [Value.isList, do_subtraction, removeFirstLoop_eq, Heap.make_shared]
  · simp [Heap.valid]
  · simp [Heap.valid, Heap.make_shared]
  · exact Heap.elements_make_shared_new heap _

theorem list_minus_element_witness :
    (∃ N heap1,
      do_subtraction DoubleArith.quiet ValueHelpers.shallow
          ⟨[[.int 2, .int 2, .int 3]]⟩ (.list 0) (.int 2) = .ok (.list N, heap1) ∧
      ¬ (Heap.mk [[.int 2, .int 2, .int 3]]).valid N ∧ heap1.valid N ∧
      heap1.elements N
        = ((Heap.mk [[.int 2, .int 2, .int 3]]).elements 0).eraseP
            (fun item => ValueHelpers.shallow.same_value ⟨[[.int 2, .int 2, .int 3]]⟩
              item (.int 2)) ∧
      heap1.elements 0 = (Heap.mk [[.int 2, .int 2, .int 3]]).elements 0 ∧
      (∀ g, (Heap.mk [[.int 2, .int 2, .int 3]]).valid g →
        heap1.elements g = (Heap.mk [[.int 2, .int 2, .int 3]]).elements g)) ∧
    do_subtraction DoubleArith.quiet ValueHelpers.shallow
        ⟨[[.int 2, .int 2, .int 3]]⟩ (.list 0) (.int 2)
      = .ok (.list 1, ⟨[[.int 2, .int 2, .int 3], [.int 2, .int 3]]⟩) ∧
    do_subtraction DoubleArith.quiet ValueHelpers.shallow
        ⟨[[.int 1, .int 2, .int 3]]⟩ (.list 0) (.int 2)
      = .ok (.list 1, ⟨[[.int 1, .int 2, .int 3], [.int 1, .int 3]]⟩) :=
  ⟨list_minus_element DoubleArith.quiet ValueHelpers.shallow ⟨[[.int 2, .int 2, .int 3]]⟩ 0
      (.int 2) (by decide) rfl, by rfl, by rfl⟩

/-- C8: for Lists `L` and `R`, `L - R` returns a freshly allocated list that
is exactly the subsequence of `L`, in the order of `L` and with its
duplicates, of the elements that `same_value` equates with no element of `R`;
the cells of `L` and `R` and every other existing cell are unchanged;
`[1,2,3] - [2,3] = [1]`. -/
theorem list_minus_list (fp : DoubleArith) (vh : ValueHelpers) (heap : Heap) (L R : Nat)
    (hL : heap.valid L) (hR : heap.valid R) :
    ∃ N heap1,
      do_subtraction fp vh heap (.list L) (.list R) = .ok (.list N, heap1) ∧
      ¬ heap.valid N ∧ heap1.valid N ∧
      heap1.elements N
        = (heap.elements L).filter
            (fun item => !(heap.elements R).any (fun ritem => vh.same_value heap item ritem)) ∧
      heap1.elements L = heap.elements L ∧
      heap1.elements R = heap.elements R ∧
      (∀ g, heap.valid g → heap1.elements g = heap.elements g) := by
  refine ⟨heap.lists.length,
    (heap.make_shared
      ((heap.elements L).filter
        (fun item =>
          !(heap.elements R).any (fun ritem => vh.same_value heap item ritem)))).2,
    ?_, ?_, ?_, ?_, Heap.elements_make_shared_old heap _ L hL,
    Heap.elements_make_shared_old heap _ R hR,
    fun g hg => Heap.elements_make_shared_old heap _ g hg⟩
  · simp [do_subtraction, differenceLoop_eq, Heap.make_shared]
  · simp [Heap.valid]
  · simp [Heap.valid, Heap.make_shared]
  · exact Heap.elements_make_shared_new heap _

theorem list_minus_list_witness :
    (∃ N heap1,
      do_subtraction DoubleArith.quiet ValueHelpers.shallow
          ⟨[[.int 1, .int 2, .int 3], [.int 2, .int 3]]⟩ (.list 0) (.list 1)
        = .ok (.list N, heap1) ∧
      ¬ (Heap.mk [[.int 1, .int 2, .int 3], [.int 2, .int 3]]).valid N ∧ heap1.valid N ∧
      heap1.elements N
        = ((Heap.mk [[.int 1, .int 2, .int 3], [.int 2, .int 3]]).elements 0).filter
            (fun item =>
              !((Heap.mk [[.int 1, .int 2, .int 3], [.int 2, .int 3]]).elements 1).any
                (fun ritem =>
                  ValueHelpers.shallow.same_value
                    ⟨[[.int 1, .int 2, .int 3], [.int 2, .int 3]]⟩ item ritem)) ∧
      heap1.elements 0 = (Heap.mk [[.int 1, .int 2, .int 3], [.int 2, .int 3]]).elements 0 ∧
      heap1.elements 1 = (Heap.mk [[.int 1, .int 2, .int 3], [.int 2, .int 3]]).elements 1 ∧
      (∀ g, (Heap.mk [[.int 1, .int 2, .int 3], [.int 2, .int 3]]).valid g →
        heap1.elements g
          = (Heap.mk [[.int 1, .int 2, .int 3], [.int 2, .int 3]]).elements g)) ∧
    do_subtraction DoubleArith.quiet ValueHelpers.shallow
        ⟨[[.int 1, .int 2, .int 3], [.int 2, .int 3]]⟩ (.list 0) (.list 1)
      = .ok (.list 2, ⟨[[.int 1, .int 2, .int 3], [.int 2, .int 3], [.int 1]]⟩) :=
  ⟨list_minus_list DoubleArith.quiet ValueHelpers.shallow
      ⟨[[.int 1, .int 2, .int 3], [.int 2, .int 3]]⟩ 0 1 (by decide) (by decide), by rfl⟩

/-! ## Multiplication of strings and lists -/

theorem wrap32_succ_of_lt (i : Int) (h0 : -2147483648 ≤ i) (h1 : i < 2147483647) :
    wrap32 (i + 1) = i + 1 := by
  unfold wrap32; omega

theorem wrap32_range (x : Int) : -2147483648 ≤ wrap32 x ∧ wrap32 x < 2147483648 := by
  unfold wrap32; omega

/-- The `int` counter never reaches a multiplier of `2^31` or more: the loop of
`do_string_multiplication` does not end, whatever the fuel. -/
theorem stringLoop_diverges (string : String) (multiplier : Int)
    (hk : 2147483648 ≤ multiplier) (fuel : Nat) :
    ∀ (i : Int) (build : String), i < 2147483648 →
      stringLoop string multiplier fuel i build = none := by
  induction fuel with
  | zero => intro i build _; rfl
  | succ fuel ih =>
    intro i build hi
    have hlt : i < multiplier := by omega
    simp only [stringLoop, hlt, if_true]
    exact ih _ _ (wrap32_range _).2

theorem foldl_append_start (a : String) (l : List String) :
    List.foldl (fun r s => r ++ s) a l = a ++ List.foldl (fun r s => r ++ s) "" l := by
  induction l generalizing a with
  | nil => simp
  | cons x xs ih =>
    simp only [List.foldl_cons]
    rw [ih (a ++ x), ih ("" ++ x)]
    simp [String.append_assoc]

/-- Below `2^31` the loop of `do_string_multiplication` ends after
`multiplier - i` appends. -/
theorem stringLoop_terminates (string : String) (multiplier : Int)
    (hk : multiplier ≤ 2147483647) (n : Nat) :
    ∀ (fuel : Nat) (i : Int) (build : String), 0 ≤ i → i + n = multiplier → n < fuel →
      stringLoop string multiplier fuel i build
        = some (build ++ String.join (List.replicate n string)) := by
  induction n with
  | zero =>
    intro fuel i build _ hin hf
    obtain ⟨fuel, rfl⟩ : ∃ f, fuel = f + 1 := ⟨fuel - 1, by omega⟩
    have : ¬ i < multiplier := by omega
    simp [stringLoop, this, String.join]
  | succ n ih =>
    intro fuel i build hi hin hf
    obtain ⟨fuel, rfl⟩ : ∃ f, fuel = f + 1 := ⟨fuel - 1, by omega⟩
    have hlt : i < multiplier := by omega
    have hw : wrap32 (i + 1) = i + 1 := wrap32_succ_of_lt i (by omega) (by omega)
    simp only [stringLoop, hlt, if_true, hw]
    rw [ih fuel (i + 1) (build ++ string) (by omega) (by omega) (by omega)]
    simp only [List.replicate_succ, String.join, List.foldl_cons, String.append_assoc]
    rw [foldl_append_start ("" ++ string)]
    simp

/-- The `int` counter never reaches a multiplier of `2^31` or more: the outer
loop of `do_list_multiplication` does not end, whatever the fuel. -/
theorem repeatLoop_diverges (vh : ValueHelpers) (list newList : Nat) (multiplier : Int)
    (hk : 2147483648 ≤ multiplier) (fuel : Nat) :
    ∀ (i : Int) (heap : Heap), i < 2147483648 →
      repeatLoop vh list newList multiplier fuel i heap = none := by
  induction fuel with
  | zero => intro i heap _; rfl
  | succ fuel ih =>
    intro i heap hi
    have hlt : i < multiplier := by omega
    simp only [repeatLoop, hlt, if_true]
    exact ih _ _ (wrap32_range _).2

theorem length_join_replicate (string : String) (n : Nat) :
    (String.join (List.replicate n string)).length = string.length * n := by
  induction n with
  | zero => simp [String.join]
  | succ n ih =>
    simp only [List.replicate_succ, String.join, List.foldl_cons] at ih ⊢
    rw [foldl_append_start ("" ++ string), String.length_append, ih]
    simp [Nat.mul_succ, Nat.add_comm]

/-- The part of C10 that holds: a multiplier `k ≤ 0` gives the empty String
for every fuel, and a multiplier `0 < k < 2^31` gives, with fuel above `k`, the
String of `k` consecutive copies, of length `|s|·k`. -/
theorem string_multiplication_bounded (fuel : Nat) (s : String) (k : Int) :
    (k ≤ 0 → do_string_multiplication fuel s k = some (.string "")) ∧
    (0 < k → k ≤ 2147483647 → k.toNat < fuel →
      do_string_multiplication fuel s k
        = some (.string (String.join (List.replicate k.toNat s))) ∧
      (String.join (List.replicate k.toNat s)).length = s.length * k.toNat) := by
  constructor
  · intro hk
    simp [do_string_multiplication, hk]
  · intro h0 h1 hf
    refine ⟨?_, length_join_replicate s _⟩
    have hnot : ¬ k ≤ 0 := by omega
    simp only [do_string_multiplication, hnot, if_false]
    rw [stringLoop_terminates s k h1 k.toNat fuel 0 "" (by omega) (by omega) hf]
    simp

/-- C10 at the failing input `"" * 2147483648`: the multiplier is positive, so
the loop is entered, and the `int` counter stays below the `k_int` bound for
ever: with no amount of fuel does `do_string_multiplication`, or
`do_multiplication` that calls it, return a value. -/
theorem string_multiplication_counter_overflow (fp : DoubleArith) (vh : ValueHelpers)
    (heap : Heap) (fuel : Nat) :
    do_string_multiplication fuel "" 2147483648 = none ∧
    do_multiplication fp vh fuel heap (.string "") (.int 2147483648) = none := by
  have h : stringLoop "" 2147483648 fuel 0 "" = none :=
    stringLoop_diverges "" 2147483648 (by omega) fuel 0 "" (by omega)
  have h1 : do_string_multiplication fuel "" 2147483648 = none := by
    simp [do_string_multiplication, h]
  exact ⟨h1, by simp [do_multiplication, h1]⟩

/-- The product `[1] * 2147483648`: on a host that cannot reserve `2^31`
values the call `reserve` throws before the loop; on a host that can, the loop
is entered and the `int` counter stays below the `k_int` bound for ever, so
that with no amount of fuel does `do_list_multiplication`, or
`do_multiplication` that calls it, return. -/
theorem list_multiplication_counter_overflow (fp : DoubleArith) (vh : ValueHelpers)
    (fuel : Nat) :
    (vh.can_reserve 2147483648 = false →
      do_list_multiplication vh fuel ⟨[[.int 1]]⟩ 0 2147483648
        = some (.error .bad_alloc)) ∧
    (vh.can_reserve 2147483648 = true →
      do_list_multiplication vh fuel ⟨[[.int 1]]⟩ 0 2147483648 = none ∧
      do_multiplication fp vh fuel ⟨[[.int 1]]⟩ (.list 0) (.int 2147483648) = none) := by
  have h : ∀ heap, repeatLoop vh 0 1 2147483648 fuel 0 heap = none := fun heap =>
    repeatLoop_diverges vh 0 1 2147483648 (by omega) fuel 0 heap (by omega)
  constructor
  · intro hres
    simp [do_list_multiplication, Heap.elements, Heap.make_shared, hres]
  · intro hres
    have h1 : do_list_multiplication vh fuel ⟨[[.int 1]]⟩ 0 2147483648 = none := by
      simp [do_list_multiplication, Heap.elements, Heap.make_shared, h, hres]
    exact ⟨h1, by simp [do_multiplication, h1]⟩

/-- Two runs of the multiplication on concrete inputs: `[1, 2] * 2` allocates
the list `[1, 2, 1, 2]`, and `"ab" * 3` is `"ababab"`. -/
theorem multiplication_examples :
    do_multiplication DoubleArith.quiet ValueHelpers.shallow 3 ⟨[[.int 1, .int 2]]⟩
        (.list 0) (.int 2)
      = some (.ok (.list 1, ⟨[[.int 1, .int 2], [.int 1, .int 2, .int 1, .int 2]]⟩)) ∧
    do_multiplication DoubleArith.quiet ValueHelpers.shallow 4 ⟨[]⟩ (.string "ab") (.int 3)
      = some (.ok (.string "ababab", ⟨[]⟩)) := by
  constructor
  · rfl
  · have h : do_string_multiplication 4 "ab" 3 = some (.string "ababab") := by
      have := (string_multiplication_bounded 4 "ab" 3).2 (by decide) (by decide) (by decide)
      rw [this.1]
      have e : String.join (List.replicate (3 : Int).toNat "ab") = "ababab" := by decide
      rw [e]
    simp [do_multiplication, h]

/-- The cast `static_cast<k_int>(d)` truncates toward zero: for a double of
magnitude `(2^52 + fraction) · 2^(exponent - 1023) / 2^52` below `2^63`, the
magnitude of the result is the integer part of that quotient and its sign is
the sign of the double; a double of magnitude below `1` gives `0`. -/
theorem Double.toInt_truncates (d : Double) (hmax : d.exponent < 1086) :
    (d.exponent < 1023 → Double.toInt d = 0) ∧
    (1023 ≤ d.exponent →
      (Double.toInt d).natAbs
        = (2 ^ 52 + d.fraction) * 2 ^ (d.exponent - 1023) / 2 ^ 52 ∧
      (d.sign = true → Double.toInt d ≤ 0) ∧ (d.sign = false → 0 ≤ Double.toInt d)) := by
  have h1 : ¬ d.exponent ≥ 1086 := by omega
  constructor
  · intro h
    simp only [Double.toInt, h1, h, if_false, if_true]
  · intro h
    have h2 : ¬ d.exponent < 1023 := by omega
    have hmag : (if d.exponent - 1023 ≥ 52
          then (2 ^ 52 + d.fraction) * 2 ^ (d.exponent - 1023 - 52)
          else (2 ^ 52 + d.fraction) / 2 ^ (52 - (d.exponent - 1023)))
        = (2 ^ 52 + d.fraction) * 2 ^ (d.exponent - 1023) / 2 ^ 52 := by
      split_ifs with hge
      · have hx : d.exponent - 1023 - 52 + 52 = d.exponent - 1023 := by omega
        have e : 2 ^ (d.exponent - 1023) = 2 ^ (d.exponent - 1023 - 52) * 2 ^ 52 := by
          rw [← pow_add, hx]
        rw [e, ← Nat.mul_assoc, Nat.mul_div_cancel _ (Nat.two_pow_pos 52)]
      · have hx : 52 - (d.exponent - 1023) + (d.exponent - 1023) = 52 := by omega
        have e : (2 : Nat) ^ 52 = 2 ^ (52 - (d.exponent - 1023)) * 2 ^ (d.exponent - 1023) := by
          rw [← pow_add, hx]
        have e2 : (2 ^ 52 + d.fraction) * 2 ^ (d.exponent - 1023) / 2 ^ 52
            = (2 ^ 52 + d.fraction) * 2 ^ (d.exponent - 1023)
              / (2 ^ (52 - (d.exponent - 1023)) * 2 ^ (d.exponent - 1023)) := by
          rw [← e]
        rw [e2, Nat.mul_div_mul_right _ _ (Nat.two_pow_pos _)]
    have hto : Double.toInt d
        = if d.sign = true then
            -(((2 ^ 52 + d.fraction) * 2 ^ (d.exponent - 1023) / 2 ^ 52 : Nat) : Int)
          else (((2 ^ 52 + d.fraction) * 2 ^ (d.exponent - 1023) / 2 ^ 52 : Nat) : Int) := by
      rw [← hmag]
      simp only [Double.toInt, h1, h2, if_false]
    generalize (2 ^ 52 + d.fraction) * 2 ^ (d.exponent - 1023) / 2 ^ 52 = Q at hto ⊢
    refine ⟨?_, ?_, ?_⟩
    · rw [hto]
      split_ifs
      · rw [Int.natAbs_neg, Int.natAbs_ofNat]
      · rw [Int.natAbs_ofNat]
    · intro hs
      rw [hto, if_pos hs]
      omega
    · intro hs
      rw [hto, if_neg (by simp [hs])]
      omega

/-! ## Bitwise and logical operators -/

/-- C11: for `&`, `|` and `^`, an Integer left operand with an Integer, Float
or Boolean right operand gives the Integer obtained from the left operand and
the coerced right operand (a Boolean as `1` or `0`, a Float cast to `k_int`,
which truncates toward zero); every other combination of alternatives fails
with `ConversionError`. `3.5` and `-3.5` truncate to `3` and `-3`;
`6 & 3 = 2`, `6 | 3.5 = 7`, `6 ^ true = 7`. -/
theorem bitwise_coercion (left right : Value) :
    (do_bitwise_and left right =
      match left, bitwiseOperand right with
      | .int a, some b => .ok (.int (Int.land a b))
      | _, _ => .error .ConversionError) ∧
    (do_bitwise_or left right =
      match left, bitwiseOperand right with
      | .int a, some b => .ok (.int (Int.lor a b))
      | _, _ => .error .ConversionError) ∧
    (do_bitwise_xor left right =
      match left, bitwiseOperand right with
      | .int a, some b => .ok (.int (Int.xor a b))
      | _, _ => .error .ConversionError) ∧
    Double.toInt ⟨false, 1024, 3377699720527872⟩ = 3 ∧
    Double.toInt ⟨true, 1024, 3377699720527872⟩ = -3 ∧
    do_bitwise_and (.int 6) (.int 3) = .ok (.int 2) ∧
    do_bitwise_or (.int 6) (.double ⟨false, 1024, 3377699720527872⟩) = .ok (.int 7) ∧
    do_bitwise_xor (.int 6) (.bool true) = .ok (.int 7) := by
  refine ⟨?_, ?_, ?_, by decide, by decide, by rfl, by rfl, by rfl⟩ <;>
    cases left <;> cases right <;> rfl

/-- C12 at the failing inputs: the shift operators accept an Integer right
operand only. `4 << true` and `4 >> 1.0`, and every shift of an Integer by a
Boolean or a Float, fail with `ConversionError`, while `&` coerces the same
right operands (`4 & true = 0`, `4 & 1.0 = 0`) and the Integer shifts
`4 << 1 = 8` and `4 >> 1 = 2` are computed. -/
theorem shift_rejects_coercion (a : Int) (b : Bool) (d : Double) :
    do_bitwise_lshift (.int 4) (.bool true) = .error .ConversionError ∧
    do_bitwise_rshift (.int 4) (.double ⟨false, 1023, 0⟩) = .error .ConversionError ∧
    do_bitwise_lshift (.int a) (.bool b) = .error .ConversionError ∧
    do_bitwise_lshift (.int a) (.double d) = .error .ConversionError ∧
    do_bitwise_rshift (.int a) (.bool b) = .error .ConversionError ∧
    do_bitwise_rshift (.int a) (.double d) = .error .ConversionError ∧
    do_bitwise_and (.int 4) (.bool true) = .ok (.int 0) ∧
    do_bitwise_and (.int 4) (.double ⟨false, 1023, 0⟩) = .ok (.int 0) ∧
    do_bitwise_lshift (.int 4) (.int 1) = .ok (.int 8) ∧
    do_bitwise_rshift (.int 4) (.int 1) = .ok (.int 2) :=
  ⟨rfl, rfl, rfl, rfl, rfl, rfl, by rfl, by rfl, by rfl, by rfl⟩

theorem isEmpty_iff_eq_empty (s : String) : s.isEmpty = true ↔ s = "" := by
  constructor
  · intro h
    have h1 : s.endPos = 0 := by simpa [String.isEmpty] using h
    have h2 : s.utf8ByteSize = 0 := by
      have := congrArg String.Pos.byteIdx h1
      simpa [String.endPos] using this
    cases s with
    | mk data =>
      cases data with
      | nil => rfl
      | cons c cs =>
        exfalso
        simp only [String.utf8ByteSize, String.utf8ByteSize.go] at h2
        have := Char.utf8Size_pos c
        omega
  · rintro rfl
    rfl

theorem list_isEmpty_eq_false_iff (xs : List Value) : xs.isEmpty = false ↔ xs ≠ [] := by
  cases xs <;> simp

theorem list_isEmpty_eq_not_pos (xs : List Value) :
    xs.isEmpty = !decide (0 < xs.length) := by
  cases xs <;> simp

/-- C13: for all values `l` and `r`, `do_binary_op` returns for `&&` the Boolean
`is_truthy l && is_truthy r` and for `||` the Boolean
`is_truthy l || is_truthy r`, for every fuel and without touching the heap, so
neither fails for any pair of alternatives; `is_truthy` is `≠ 0` for an
Integer, `≠ 0.0` for a Float, the value of a Boolean, non-emptiness for a
String, a List and a Map, false for Null and true for every Object and
Callable. -/
theorem logical_and_or (fp : DoubleArith) (vh : ValueHelpers) (vo : ValueOrder) (fuel : Nat)
    (heap : Heap) (hh : HashHeap) (l r : Value) :
    do_binary_op fp vh vo fuel heap hh .Ops_And l r
      = some (.ok (.bool (is_truthy heap hh l && is_truthy heap hh r), heap)) ∧
    do_binary_op fp vh vo fuel heap hh .Ops_Or l r
      = some (.ok (.bool (is_truthy heap hh l || is_truthy heap hh r), heap)) ∧
    (∀ n, is_truthy heap hh (.int n) = true ↔ n ≠ 0) ∧
    (∀ d, is_truthy heap hh (.double d) = true ↔ d.isZero = false) ∧
    (∀ b, is_truthy heap hh (.bool b) = b) ∧
    (∀ s, is_truthy heap hh (.string s) = true ↔ s ≠ "") ∧
    (∀ h, is_truthy heap hh (.list h) = true ↔ heap.elements h ≠ []) ∧
    (∀ h, is_truthy heap hh (.hash h) = true ↔ hh.keysOf h ≠ []) ∧
    is_truthy heap hh .null = false ∧
    (∀ h, is_truthy heap hh (.object h) = true) ∧
    (∀ h, is_truthy heap hh (.lambda h) = true) := by
  refine ⟨rfl, rfl, ?_, ?_, fun _ => rfl, ?_, ?_, ?_, rfl, fun _ => rfl, fun _ => rfl⟩
  · intro n; simp [is_truthy]
  · intro d; simp [is_truthy]
  · intro s
    rw [← not_iff_not]
    simp only [is_truthy, Bool.not_eq_true', Bool.not_eq_false', ne_eq, not_not]
    simp [isEmpty_iff_eq_empty]
  · intro h
    simp [is_truthy, list_isEmpty_eq_false_iff]
  · intro h
    simp [is_truthy, HashHeap.size, List.length_pos]

/-- C14, as stated, fails for an Integer operand: `!0` is the Integer `1`, not
the Boolean `true`. -/
theorem logical_not_integer_counterexample :
    do_unary_op ⟨[]⟩ ⟨[]⟩ .Ops_Not (.int 0) = .ok (.int 1) ∧
    is_truthy ⟨[]⟩ ⟨[]⟩ (.int 0) = false ∧
    do_unary_op ⟨[]⟩ ⟨[]⟩ .Ops_Not (.int 0)
      ≠ .ok (.bool (!is_truthy ⟨[]⟩ ⟨[]⟩ (.int 0))) ∧
    ¬ ∃ b, do_unary_op ⟨[]⟩ ⟨[]⟩ .Ops_Not (.int 0) = .ok (.bool b) := by
  have h : do_unary_op ⟨[]⟩ ⟨[]⟩ .Ops_Not (.int 0) = .ok (.int 1) := rfl
  refine ⟨h, rfl, ?_, ?_⟩
  · rw [h]; simp
  · rintro ⟨b, hb⟩
    rw [h] at hb
    simp at hb

/-- C14, amended: unary `!v`, reached through `do_unary_op` with `Ops_Not`,
never fails; for every value `v` that is not an Integer it returns the Boolean
negation of `is_truthy v`, and for an Integer `n` it returns the Integer `1`
when `n = 0` and the Integer `0` otherwise; in every case the truthiness of
the result is the negation of `is_truthy v`. -/
theorem logical_not_truthiness (heap : Heap) (hh : HashHeap) (v : Value) :
    do_unary_op heap hh .Ops_Not v = .ok (do_logical_not heap hh v) ∧
    (do_logical_not heap hh v =
      match v with
      | .int n => .int (if n = 0 then 1 else 0)
      | _ => .bool (!is_truthy heap hh v)) ∧
    is_truthy heap hh (do_logical_not heap hh v) = !is_truthy heap hh v := by
  refine ⟨rfl, ?_, ?_⟩
  · cases v <;> simp [do_logical_not, is_truthy, HashHeap.size, list_isEmpty_eq_not_pos]
  · cases v with
    | int n => by_cases h : n = 0 <;> simp [do_logical_not, is_truthy, h]
    | _ => simp [do_logical_not, is_truthy, HashHeap.size, list_isEmpty_eq_not_pos]

/-! ## Slice read -/

theorem wrap32_of_range (x : Int) (h0 : -2147483648 ≤ x) (h1 : x < 2147483648) :
    wrap32 x = x := by
  unfold wrap32; omega

theorem vectorAt_natCast (elements : List Value) (k : Nat) (hk : k < elements.length) :
    vectorAt elements (k : Int) = some elements[k] := by
  have h : ¬ ((k : Int) < 0) := by omega
  simp [vectorAt, h, hk]

/-- The reverse loop with step `-1` and the sentinel stop `-1`, started at
index `k - 1`, collects the first `k` elements in reverse order. -/
theorem reverseLoop_all (elements : List Value) (hn : elements.length < 2147483648)
    (k : Nat) :
    ∀ (fuel : Nat) (sliced : List Value), k ≤ elements.length → k < fuel →
      reverseLoop elements elements.length (-1) (-1) fuel ((k : Int) - 1) sliced
        = some (.ok (sliced ++ (elements.take k).reverse)) := by
  induction k with
  | zero =>
    intro fuel sliced _ hf
    obtain ⟨fuel, rfl⟩ : ∃ f, fuel = f + 1 := ⟨fuel - 1, by omega⟩
    have hi : ((0 : Nat) : Int) - 1 = -1 := by omega
    have h1 : (-1 : Int) ≥ -1 := le_refl _
    have h2 : ((-1 : Int) < 0 ∨ (-1 : Int) ≥ (elements.length : Int)) := Or.inl (by omega)
    rw [hi, reverseLoop, if_pos h1, if_pos h2, List.take_zero, List.reverse_nil,
      List.append_nil]
  | succ k ih =>
    intro fuel sliced hk hf
    obtain ⟨fuel, rfl⟩ : ∃ f, fuel = f + 1 := ⟨fuel - 1, by omega⟩
    have hi : ((k + 1 : Nat) : Int) - 1 = (k : Int) := by omega
    have h1 : (k : Int) ≥ -1 := by omega
    have h2 : ¬ ((k : Int) < 0 ∨ (k : Int) ≥ (elements.length : Int)) := by omega
    have hw : wrap32 ((k : Int) + -1) = (k : Int) - 1 :=
      wrap32_of_range _ (by omega) (by omega)
    have hlt : k < elements.length := by omega
    rw [hi, reverseLoop, if_pos h1, if_neg h2, vectorAt_natCast elements k hlt]
    simp only [hw]
    rw [ih fuel (sliced ++ [elements[k]]) (by omega) (by omega), List.take_succ,
      List.getElem?_eq_getElem hlt, Option.toList_some, List.reverse_append,
      List.reverse_singleton, List.append_assoc]

/-- C16: for every list (of a size that fits the `int` the source stores it
in), the slice read with start `0`, stop equal to the length and step `-1`
returns, with fuel above the length plus one, a freshly allocated list holding
the reversal of the list, the empty list included; the existing cells are
unchanged; `[0,1,2,3,4]` gives `[4,3,2,1,0]`. -/
theorem slice_read_reverse_all (heap : Heap) (list fuel : Nat)
    (hn : (heap.elements list).length < 2147483648)
    (hf : (heap.elements list).length + 1 < fuel) :
    ∃ N heap1,
      interpretListSlice fuel heap
          ⟨.int 0, .int (heap.elements list).length, .int (-1), true⟩ list
        = some (.ok (.list N, heap1)) ∧
      ¬ heap.valid N ∧ heap1.valid N ∧
      heap1.elements N = (heap.elements list).reverse ∧
      (∀ g, heap.valid g → heap1.elements g = heap.elements g) := by
  refine ⟨heap.lists.length, (heap.make_shared (heap.elements list).reverse).2, ?_,
    by simp [Heap.valid], by simp [Heap.valid, Heap.make_shared],
    Heap.elements_make_shared_new heap _,
    fun g hg => Heap.elements_make_shared_old heap _ g hg⟩
  have hw0 : wrap32 0 = 0 := by decide
  have hwm : wrap32 (-1) = -1 := by decide
  have hwn : wrap32 ((heap.elements list).length : Int) = (heap.elements list).length :=
    wrap32_of_range _ (by omega) (by omega)
  have hwp : wrap32 (((heap.elements list).length : Int) - 1)
      = ((heap.elements list).length : Int) - 1 :=
    wrap32_of_range _ (by omega) (by omega)
  have hnn : ¬ (((heap.elements list).length : Int) < 0) := by omega
  have hloop := reverseLoop_all (heap.elements list) hn (heap.elements list).length fuel []
    (le_refl _) (by omega)
  simp only [interpretListSlice, if_true, hw0, hwm, hwn, hwp, hnn, if_false, lt_irrefl,
    min_self, true_and, Int.reduceNeg, Int.reduceLT, hloop]
  simp [Run.map, Heap.make_shared]

theorem slice_read_reverse_all_witness :
    (∃ N heap1,
      interpretListSlice 7 ⟨[[.int 0, .int 1, .int 2, .int 3, .int 4]]⟩
          ⟨.int 0,
            .int ((Heap.mk [[.int 0, .int 1, .int 2, .int 3, .int 4]]).elements 0).length,
            .int (-1), true⟩ 0
        = some (.ok (.list N, heap1)) ∧
      ¬ (Heap.mk [[.int 0, .int 1, .int 2, .int 3, .int 4]]).valid N ∧ heap1.valid N ∧
      heap1.elements N
        = ((Heap.mk [[.int 0, .int 1, .int 2, .int 3, .int 4]]).elements 0).reverse ∧
      (∀ g, (Heap.mk [[.int 0, .int 1, .int 2, .int 3, .int 4]]).valid g →
        heap1.elements g
          = (Heap.mk [[.int 0, .int 1, .int 2, .int 3, .int 4]]).elements g)) ∧
    interpretListSlice 7 ⟨[[.int 0, .int 1, .int 2, .int 3, .int 4]]⟩
        ⟨.int 0, .int 5, .int (-1), true⟩ 0
      = some (.ok (.list 1,
          ⟨[[.int 0, .int 1, .int 2, .int 3, .int 4],
            [.int 4, .int 3, .int 2, .int 1, .int 0]]⟩)) ∧
    interpretListSlice 2 ⟨[[]]⟩ ⟨.int 0, .int 0, .int (-1), true⟩ 0
      = some (.ok (.list 1, ⟨[[], []]⟩)) :=
  ⟨slice_read_reverse_all ⟨[[.int 0, .int 1, .int 2, .int 3, .int 4]]⟩ 0 7
      (by decide) (by decide), by rfl, by rfl⟩

theorem strideCount_of_le (s e step : Int) (hstep : 1 ≤ step) (h : e ≤ s) :
    strideCount s e step = 0 := by
  unfold strideCount
  have h1 : (e - s + step - 1) / step < 1 :=
    Int.ediv_lt_of_lt_mul (by omega) (by omega)
  omega

theorem strideCount_of_lt (s e step : Int) (hstep : 1 ≤ step) (h : s < e) :
    strideCount s e step = strideCount (s + step) e step + 1 := by
  unfold strideCount
  have e1 : e - s + step - 1 = (e - s - 1) + 1 * step := by ring
  have e2 : e - (s + step) + step - 1 = e - s - 1 := by ring
  have h0 : 0 ≤ (e - s - 1) / step := Int.ediv_nonneg (by omega) (by omega)
  rw [e1, Int.add_mul_ediv_right _ _ (by omega : step ≠ 0), e2]
  omega

/-- The forward loop, away from the limits of `int`, collects exactly the
elements at the indices `i, i + step, …` below `stop`. -/
theorem forwardLoop_stride (elements : List Value) (stop step : Int) (hstep : 1 ≤ step)
    (hstop : stop ≤ elements.length) (hov : stop + step ≤ 2147483648) (m : Nat) :
    ∀ (fuel : Nat) (i : Int) (sliced : List Value), 0 ≤ i → m = strideCount i stop step →
      m < fuel →
      forwardLoop elements elements.length stop step fuel i sliced
          = some (.ok (sliced ++
              (List.range' i.toNat m step.toNat).filterMap (fun j => elements[j]?))) ∧
        ((List.range' i.toNat m step.toNat).filterMap (fun j => elements[j]?)).length = m := by
  induction m with
  | zero =>
    intro fuel i sliced _ hm hf
    obtain ⟨fuel, rfl⟩ : ∃ f, fuel = f + 1 := ⟨fuel - 1, by omega⟩
    have hge : ¬ i < stop := by
      intro hlt
      rw [strideCount_of_lt i stop step hstep hlt] at hm
      omega
    rw [forwardLoop, if_neg hge]
    simp
  | succ m ih =>
    intro fuel i sliced hi hm hf
    obtain ⟨fuel, rfl⟩ : ∃ f, fuel = f + 1 := ⟨fuel - 1, by omega⟩
    have hlt : i < stop := by
      by_contra hge
      rw [strideCount_of_le i stop step hstep (by omega)] at hm
      omega
    have hm1 : m = strideCount (i + step) stop step := by
      rw [strideCount_of_lt i stop step hstep hlt] at hm
      omega
    have hnb : ¬ i ≥ (elements.length : Int) := by omega
    have hin : i.toNat < elements.length := by omega
    have hv : vectorAt elements i = some elements[i.toNat] := by
      have h0 : ¬ i < 0 := by omega
      simp [vectorAt, h0, hin]
    have hw : wrap32 (i + step) = i + step := wrap32_of_range _ (by omega) (by omega)
    have hnat : (i + step).toNat = i.toNat + step.toNat := by omega
    obtain ⟨hrun, hlen⟩ :=
      ih fuel (i + step) (sliced ++ [elements[i.toNat]]) (by omega) hm1 (by omega)
    rw [forwardLoop, if_pos hlt, if_neg hnb, hv]
    simp only [hw]
    rw [hrun, List.range'_succ, hnat]
    constructor
    · simp [List.filterMap_cons, List.getElem?_eq_getElem hin]
    · rw [hnat] at hlen
      simp [List.filterMap_cons, List.getElem?_eq_getElem hin, hlen]

/-- The part of C15 that holds: when start, stop and step fit an `int`, the
list holds fewer than `2^31` elements and `n + step` does not exceed the
largest `int`, a slice read with `step ≥ 1` returns, with enough fuel, a
freshly allocated list holding exactly the elements at the indices
`s, s + step, s + 2·step, …` below `e`, in that order, where `s` and `e` are
the normalized start and stop. -/
theorem slice_read_forward_bounded (heap : Heap) (list fuel : Nat) (start stop step : Int)
    (hn : ((heap.elements list).length : Int) + step ≤ 2147483647)
    (hs0 : -2147483648 ≤ start) (hs1 : start < 2147483648)
    (he0 : -2147483648 ≤ stop) (he1 : stop < 2147483648)
    (hstep : 1 ≤ step)
    (hf : strideCount (normStart start (heap.elements list).length)
      (normStop stop (heap.elements list).length) step < fuel) :
    interpretListSlice fuel heap ⟨.int start, .int stop, .int step, true⟩ list
      = some (.ok (.list heap.lists.length,
          (heap.make_shared
            ((List.range' (normStart start (heap.elements list).length).toNat
                (strideCount (normStart start (heap.elements list).length)
                  (normStop stop (heap.elements list).length) step) step.toNat).filterMap
              (fun j => (heap.elements list)[j]?))).2)) ∧
    ((List.range' (normStart start (heap.elements list).length).toNat
        (strideCount (normStart start (heap.elements list).length)
          (normStop stop (heap.elements list).length) step) step.toNat).filterMap
      (fun j => (heap.elements list)[j]?)).length
      = strideCount (normStart start (heap.elements list).length)
          (normStop stop (heap.elements list).length) step := by
  have hwn : wrap32 ((heap.elements list).length : Int) = (heap.elements list).length :=
    wrap32_of_range _ (by omega) (by omega)
  have hws : wrap32 start = start := wrap32_of_range _ hs0 hs1
  have hwe : wrap32 stop = stop := wrap32_of_range _ he0 he1
  have hwp : wrap32 step = step := wrap32_of_range _ (by omega) (by omega)
  have hnneg : ¬ step < 0 := by omega
  have hS : (if start < 0 then max (wrap32 (start + (heap.elements list).length)) 0 else start)
      = normStart start (heap.elements list).length := by
    unfold normStart
    split_ifs with h
    · rw [wrap32_of_range _ (by omega) (by omega)]
    · rfl
  have hE : (if stop < 0 then wrap32 (stop + (heap.elements list).length)
        else min stop (heap.elements list).length)
      = normStop stop (heap.elements list).length := by
    unfold normStop
    split_ifs with h
    · rw [wrap32_of_range _ (by omega) (by omega)]
    · rfl
  have hS0 : 0 ≤ normStart start (heap.elements list).length := by
    unfold normStart
    split_ifs <;> omega
  have hEn : normStop stop (heap.elements list).length ≤ (heap.elements list).length := by
    unfold normStop
    split_ifs <;> omega
  obtain ⟨hrun, hlen⟩ :=
    forwardLoop_stride (heap.elements list) (normStop stop (heap.elements list).length) step
      hstep hEn (by omega) _ fuel (normStart start (heap.elements list).length) []
      hS0 rfl hf
  refine ⟨?_, hlen⟩
  simp only [interpretListSlice, if_true, hwn, hws, hwe, hwp, hS, hE, hnneg, false_and,
    if_false, hrun]
  simp [Run.map, Heap.make_shared]

/-- C15 at the failing input: on `[0,1,2,3,4]` the slice read with start
`4294967296`, stop `3` and step `1` stores the start in an `int`, where it is
`0`, and returns `[0,1,2]`; the indices `4294967296, 4294967297, …` below `3`
are none. With start `1`, stop `5` and step `2147483647` the `int` index
overflows after the first element and the next read is outside the vector. -/
theorem slice_read_start_narrowed (fuel : Nat) :
    wrap32 4294967296 = 0 ∧
    interpretListSlice (fuel + 4) ⟨[[.int 0, .int 1, .int 2, .int 3, .int 4]]⟩
        ⟨.int 4294967296, .int 3, .int 1, true⟩ 0
      = some (.ok (.list 1,
          ⟨[[.int 0, .int 1, .int 2, .int 3, .int 4], [.int 0, .int 1, .int 2]]⟩)) ∧
    strideCount (normStart 4294967296 5) (normStop 3 5) 1 = 0 ∧
    interpretListSlice (fuel + 2) ⟨[[.int 0, .int 1, .int 2, .int 3, .int 4]]⟩
        ⟨.int 1, .int 5, .int 2147483647, true⟩ 0
      = some .undefined :=
  ⟨by decide, by rfl, by decide, by rfl⟩

/-- C17 at the failing input: on `[0,1,2,3,4]` the slice read `[3:1:-1]`
returns `[3,2,1]`: the reverse loop runs while `i >= stop`, so the element at
the normalized stop index `1` is collected. The forward loop runs while
`i < stop`: `[1:3:1]` returns `[1,2]`, without the element at index `3`. -/
theorem slice_read_reverse_stop_included (fuel : Nat) :
    interpretListSlice (fuel + 4) ⟨[[.int 0, .int 1, .int 2, .int 3, .int 4]]⟩
        ⟨.int 3, .int 1, .int (-1), true⟩ 0
      = some (.ok (.list 1,
          ⟨[[.int 0, .int 1, .int 2, .int 3, .int 4], [.int 3, .int 2, .int 1]]⟩)) ∧
    interpretListSlice (fuel + 3) ⟨[[.int 0, .int 1, .int 2, .int 3, .int 4]]⟩
        ⟨.int 1, .int 3, .int 1, true⟩ 0
      = some (.ok (.list 1,
          ⟨[[.int 0, .int 1, .int 2, .int 3, .int 4], [.int 1, .int 2]]⟩)) :=
  ⟨by rfl, by rfl⟩

/-- C18 at the failing input: on the one-element list `[7]` the single-index
read with index `4294967296` stores the index in an `int`, where it is `0`,
and returns the element `7`, although the index is not in `-1 ≤ i < 1`. -/
theorem index_read_narrowed (fuel : Nat) (stop step : Value) :
    wrap32 4294967296 = 0 ∧
    ¬ ((-1 : Int) ≤ 4294967296 ∧ (4294967296 : Int) < 1) ∧
    interpretListSlice fuel ⟨[[.int 7]]⟩ ⟨.int 4294967296, stop, step, false⟩ 0
      = some (.ok (.int 7, ⟨[[.int 7]]⟩)) :=
  ⟨by decide, by decide, by rfl⟩

/-- The part of C18 that holds: when the index fits an `int` and the list holds
fewer than `2^31` elements, a single-index read with `-n ≤ i < n` returns the
element of the list at index `i` (for `i ≥ 0`) or `i + n` (for `i < 0`) and
leaves the heap alone, every other Integer index fails with `RangeError`, and
a non-Integer index fails with `IndexError`. -/
theorem index_read_bounded (heap : Heap) (list fuel : Nat) (i : Int) (stop step : Value)
    (hn : (heap.elements list).length < 2147483648)
    (hi0 : -2147483648 ≤ i) (hi1 : i < 2147483648) :
    (-((heap.elements list).length : Int) ≤ i ∧ i < (heap.elements list).length →
      ∃ v, (heap.elements list)[(if i < 0 then i + (heap.elements list).length else i).toNat]?
          = some v ∧
        interpretListSlice fuel heap ⟨.int i, stop, step, false⟩ list = some (.ok (v, heap))) ∧
    (¬ (-((heap.elements list).length : Int) ≤ i ∧ i < (heap.elements list).length) →
      interpretListSlice fuel heap ⟨.int i, stop, step, false⟩ list
        = some (.error .RangeError)) ∧
    (∀ index : Value, index.isInt = false →
      interpretListSlice fuel heap ⟨index, stop, step, false⟩ list
        = some (.error .IndexError)) := by
  have hwn : wrap32 ((heap.elements list).length : Int) = (heap.elements list).length :=
    wrap32_of_range _ (by omega) (by omega)
  have hwi : wrap32 i = i := wrap32_of_range _ hi0 hi1
  refine ⟨?_, ?_, ?_⟩
  · rintro ⟨h0, h1⟩
    by_cases hneg : i < 0
    · have hw : wrap32 (i + (heap.elements list).length) = i + (heap.elements list).length :=
        wrap32_of_range _ (by omega) (by omega)
      have hlt : (i + (heap.elements list).length).toNat < (heap.elements list).length := by
        omega
      have hb : ¬ (i + ((heap.elements list).length : Int) < 0 ∨
          i + ((heap.elements list).length : Int) ≥ (heap.elements list).length) := by omega
      have h00 : ¬ (i + ((heap.elements list).length : Int) < 0) := by omega
      refine ⟨(heap.elements list)[(i + (heap.elements list).length).toNat], ?_, ?_⟩
      · simp [hneg, List.getElem?_eq_getElem hlt]
      · simp only [interpretListSlice, hwn, hwi, hneg, if_true, hw, hb, if_false]
        simp [vectorAt, h00, List.getElem?_eq_getElem hlt]
    · have hlt : i.toNat < (heap.elements list).length := by omega
      have hb : ¬ (i < 0 ∨ i ≥ ((heap.elements list).length : Int)) := by omega
      refine ⟨(heap.elements list)[i.toNat], ?_, ?_⟩
      · simp [hneg, List.getElem?_eq_getElem hlt]
      · have hnge : ¬ ((heap.elements list).length : Int) ≤ i := by omega
        simp only [interpretListSlice, hwn, hwi, hneg, if_false, false_or, ge_iff_le, hnge]
        simp [vectorAt, hneg, List.getElem?_eq_getElem hlt]
  · intro hout
    by_cases hneg : i < 0
    · have hw : wrap32 (i + (heap.elements list).length) = i + (heap.elements list).length :=
        wrap32_of_range _ (by omega) (by omega)
      have hb : (i + ((heap.elements list).length : Int) < 0 ∨
          i + ((heap.elements list).length : Int) ≥ (heap.elements list).length) := by omega
      simp only [interpretListSlice, hwn, hwi, hneg, if_true, hw, hb]
      simp
    · have hge : ((heap.elements list).length : Int) ≤ i := by omega
      simp only [interpretListSlice, hwn, hwi, hneg, if_false, false_or, ge_iff_le, hge,
        if_true]
      simp
  · intro index hidx
    cases index <;> simp_all [Value.isInt, interpretListSlice]

/-! ## Slice write -/

/-- A step-1 slice write that fits: assigning `[9]` to `[1:3]` of
`[0,1,2,3,4]` takes the branch for `start < stop`, which copies the right-hand
elements over the list from `start` on: the result is `[0,9,2,3,4]`, of
length `5`, and not `[0,9,3,4]`. -/
theorem slice_write_overwrite_counterexample :
    updateListSlice ⟨[[.int 0, .int 1, .int 2, .int 3, .int 4], [.int 9]]⟩ false 0
        ⟨.int 1, .int 3, .int 1, true⟩ 1
      = .ok ⟨[[.int 0, .int 9, .int 2, .int 3, .int 4], [.int 9]]⟩ ∧
    ¬ ∃ heap1,
      updateListSlice ⟨[[.int 0, .int 1, .int 2, .int 3, .int 4], [.int 9]]⟩ false 0
          ⟨.int 1, .int 3, .int 1, true⟩ 1 = .ok heap1 ∧
      heap1.elements 0 = [.int 0, .int 9, .int 3, .int 4] := by
  have h : updateListSlice ⟨[[.int 0, .int 1, .int 2, .int 3, .int 4], [.int 9]]⟩ false 0
        ⟨.int 1, .int 3, .int 1, true⟩ 1
      = .ok ⟨[[.int 0, .int 9, .int 2, .int 3, .int 4], [.int 9]]⟩ := by rfl
  refine ⟨h, ?_⟩
  rintro ⟨heap1, h1, h2⟩
  rw [h] at h1
  injection h1 with h1
  subst h1
  revert h2
  decide

/-- The step-1 slice write that fits: for a list of length `n` (below `2^31`),
`0 ≤ start < stop ≤ n` and a right-hand list, other than the target, with
`start + |rhs| ≤ n`, the write overwrites in place: the list becomes
`old[0..start)` followed by `rhs` followed by `old[start + |rhs|..n)`, its
length stays `n`, and every other cell is unchanged; assigning `[9]` to `[1:3]`
of `[0,1,2,3,4]` yields `[0,9,2,3,4]`. -/
theorem slice_write_overwrite (heap : Heap) (insertOp : Bool) (target rhsValues : Nat)
    (start stop : Nat) (hT : heap.valid target) (hne : target ≠ rhsValues)
    (hn : (heap.elements target).length < 2147483648)
    (h1 : start < stop) (h2 : stop ≤ (heap.elements target).length)
    (hfit : start + (heap.elements rhsValues).length ≤ (heap.elements target).length) :
    ∃ heap1,
      updateListSlice heap insertOp target ⟨.int start, .int stop, .int 1, true⟩ rhsValues
        = .ok heap1 ∧
      heap1.elements target
        = (heap.elements target).take start ++ heap.elements rhsValues ++
            (heap.elements target).drop (start + (heap.elements rhsValues).length) ∧
      (heap1.elements target).length = (heap.elements target).length ∧
      heap1.elements rhsValues = heap.elements rhsValues ∧
      (∀ g, g ≠ target → heap1.elements g = heap.elements g) := by
  have hwn : wrap32 ((heap.elements target).length : Int) = (heap.elements target).length :=
    wrap32_of_range _ (by omega) (by omega)
  have hws : wrap32 (start : Int) = start := wrap32_of_range _ (by omega) (by omega)
  have hwe : wrap32 (stop : Int) = stop := wrap32_of_range _ (by omega) (by omega)
  have hw1 : wrap32 1 = 1 := by decide
  have c1 : ¬ ((start : Int) < 0) := by omega
  have c2 : ¬ ((stop : Int) < 0) := by omega
  have c3 : ¬ ((stop : Int) > ((heap.elements target).length : Int)) := by omega
  have c4 : ¬ ((start : Int) ≥ (stop : Int)) := by omega
  have c5 : (0 : Int) ≤ (start : Int) ∧
      (start : Int).toNat + (heap.elements rhsValues).length
        ≤ (heap.elements target).length := by
    constructor <;> omega
  have c6 : ¬ ((1 : Int) < 0) := by omega
  refine ⟨heap.setElements target
      ((heap.elements target).take start ++ heap.elements rhsValues ++
        (heap.elements target).drop (start + (heap.elements rhsValues).length)), ?_,
    Heap.elements_setElements_same heap target _ hT, ?_,
    Heap.elements_setElements_other heap target rhsValues _ hne,
    fun g hg => Heap.elements_setElements_other heap target g _ (Ne.symm hg)⟩
  · simp only [updateListSlice, hwn, hws, hwe, hw1, Bool.not_true, Bool.false_and,
      Bool.false_eq_true, if_false, c1, c2, c3, c4, c5, c6, false_and, if_true, and_self,
      Int.toNat_ofNat]
    simp [hfit]
  · rw [Heap.elements_setElements_same heap target _ hT]
    simp only [List.length_append, List.length_take, List.length_drop]
    omega

theorem slice_write_overwrite_witness :
    ∃ heap1,
      updateListSlice ⟨[[.int 0, .int 1, .int 2, .int 3, .int 4], [.int 9]]⟩ false 0
          ⟨.int (1 : Nat), .int (3 : Nat), .int 1, true⟩ 1
        = .ok heap1 ∧
      heap1.elements 0
        = ((Heap.mk [[.int 0, .int 1, .int 2, .int 3, .int 4], [.int 9]]).elements 0).take 1
          ++ (Heap.mk [[.int 0, .int 1, .int 2, .int 3, .int 4], [.int 9]]).elements 1
          ++ ((Heap.mk [[.int 0, .int 1, .int 2, .int 3, .int 4], [.int 9]]).elements 0).drop
              (1 + ((Heap.mk [[.int 0, .int 1, .int 2, .int 3, .int 4],
                [.int 9]]).elements 1).length) ∧
      (heap1.elements 0).length
        = ((Heap.mk [[.int 0, .int 1, .int 2, .int 3, .int 4], [.int 9]]).elements 0).length ∧
      heap1.elements 1
        = (Heap.mk [[.int 0, .int 1, .int 2, .int 3, .int 4], [.int 9]]).elements 1 ∧
      (∀ g, g ≠ 0 → heap1.elements g
        = (Heap.mk [[.int 0, .int 1, .int 2, .int 3, .int 4], [.int 9]]).elements g) :=
  slice_write_overwrite ⟨[[.int 0, .int 1, .int 2, .int 3, .int 4], [.int 9]]⟩ false 0 1 1 3
    (by decide) (by decide) (by decide) (by decide) (by decide) (by decide)

/-- C20, as stated, fails: with `insertOp` true and `isSlice` false the stop is
set to the start, the branch for `start >= stop` erases the empty range and
inserts the right-hand element: assigning `9` to index `0` of `[0,1,2,3,4]`
yields `[9,0,1,2,3,4]`, of length `6`, and not `[9,1,2,3,4]`. -/
theorem single_assignment_counterexample :
    updateListSlice ⟨[[.int 0, .int 1, .int 2, .int 3, .int 4], [.int 9]]⟩ true 0
        ⟨.int 0, .int 1, .int 1, false⟩ 1
      = .ok ⟨[[.int 9, .int 0, .int 1, .int 2, .int 3, .int 4], [.int 9]]⟩ ∧
    ¬ ∃ heap1,
      updateListSlice ⟨[[.int 0, .int 1, .int 2, .int 3, .int 4], [.int 9]]⟩ true 0
          ⟨.int 0, .int 1, .int 1, false⟩ 1 = .ok heap1 ∧
      (heap1.elements 0).length = 5 := by
  have h : updateListSlice ⟨[[.int 0, .int 1, .int 2, .int 3, .int 4], [.int 9]]⟩ true 0
        ⟨.int 0, .int 1, .int 1, false⟩ 1
      = .ok ⟨[[.int 9, .int 0, .int 1, .int 2, .int 3, .int 4], [.int 9]]⟩ := by rfl
  refine ⟨h, ?_⟩
  rintro ⟨heap1, h1, h2⟩
  rw [h] at h1
  injection h1 with h1
  subst h1
  revert h2
  decide

/-- C20, amended: for a list of length `n` (below `2^31`), an index
`0 ≤ i < n` and a value `v`, `updateListSlice` with `insertOp` true, `isSlice`
false, step `1` and the right-hand list `[v]`, other than the target, inserts
`v` at index `i`: the list becomes `old[0..i)` followed by `v` followed by
`old[i..n)`, so the length is `n + 1`, element `i` equals `v`, the elements
before `i` are unchanged and each element from `i` on moves up by one index;
every other cell is unchanged. Assigning `9` to index `0` of `[0,1,2,3,4]`
yields `[9,0,1,2,3,4]`. -/
theorem single_assignment_inserts (heap : Heap) (target rhsValues i : Nat) (stop : Int)
    (v : Value) (hT : heap.valid target) (hne : target ≠ rhsValues)
    (hrhs : heap.elements rhsValues = [v])
    (hn : (heap.elements target).length < 2147483648)
    (hi : i < (heap.elements target).length) :
    ∃ heap1,
      updateListSlice heap true target ⟨.int i, .int stop, .int 1, false⟩ rhsValues
        = .ok heap1 ∧
      heap1.elements target
        = (heap.elements target).take i ++ [v] ++ (heap.elements target).drop i ∧
      (heap1.elements target).length = (heap.elements target).length + 1 ∧
      (heap1.elements target)[i]? = some v ∧
      (∀ j, j < i → (heap1.elements target)[j]? = (heap.elements target)[j]?) ∧
      (∀ j, i ≤ j → (heap1.elements target)[j + 1]? = (heap.elements target)[j]?) ∧
      heap1.elements rhsValues = heap.elements rhsValues ∧
      (∀ g, g ≠ target → heap1.elements g = heap.elements g) := by
  have hwn : wrap32 ((heap.elements target).length : Int) = (heap.elements target).length :=
    wrap32_of_range _ (by omega) (by omega)
  have hws : wrap32 (i : Int) = i := wrap32_of_range _ (by omega) (by omega)
  have hw1 : wrap32 1 = 1 := by decide
  have c1 : ¬ ((i : Int) < 0) := by omega
  have c3 : ¬ ((i : Int) > ((heap.elements target).length : Int)) := by omega
  have c6 : ¬ ((1 : Int) < 0) := by omega
  have c7 : i ≤ (heap.elements target).length := by omega
  have hlen_take : ((heap.elements target).take i).length = i := by
    rw [List.length_take]; omega
  have hnew : (heap.setElements target
      ((heap.elements target).take i ++ [v] ++ (heap.elements target).drop i)).elements target
      = (heap.elements target).take i ++ [v] ++ (heap.elements target).drop i :=
    Heap.elements_setElements_same heap target _ hT
  refine ⟨heap.setElements target
      ((heap.elements target).take i ++ [v] ++ (heap.elements target).drop i), ?_, hnew,
    ?_, ?_, ?_, ?_, Heap.elements_setElements_other heap target rhsValues _ hne,
    fun g hg => Heap.elements_setElements_other heap target g _ (Ne.symm hg)⟩
  · simp only [updateListSlice, hwn, hws, hw1, hrhs, Bool.not_false, Bool.true_and,
      if_true, c1, c3, c6, if_false, false_and, ge_iff_le, le_refl, true_and,
      Int.toNat_ofNat]
    simp [c7]
  · rw [hnew]
    simp only [List.length_append, List.length_take, List.length_drop, List.length_singleton]
    omega
  · rw [hnew, List.append_assoc, List.getElem?_append_right (by omega), hlen_take]
    simp
  · intro j hj
    rw [hnew, List.append_assoc, List.getElem?_append_left (by omega), List.getElem?_take]
    simp [hj]
  · intro j hj
    rw [hnew, List.getElem?_append_right (by simp [hlen_take]; omega)]
    simp only [List.length_append, hlen_take, List.length_singleton, List.getElem?_drop]
    have e : i + (j + 1 - (i + 1)) = j := by omega
    rw [e]

theorem single_assignment_inserts_witness :
    ∃ heap1,
      updateListSlice ⟨[[.int 0, .int 1, .int 2, .int 3, .int 4], [.int 9]]⟩ true 0
          ⟨.int (0 : Nat), .int 1, .int 1, false⟩ 1
        = .ok heap1 ∧
      heap1.elements 0
        = ((Heap.mk [[.int 0, .int 1, .int 2, .int 3, .int 4], [.int 9]]).elements 0).take 0
          ++ [.int 9]
          ++ ((Heap.mk [[.int 0, .int 1, .int 2, .int 3, .int 4], [.int 9]]).elements 0).drop
              0 ∧
      (heap1.elements 0).length
        = ((Heap.mk [[.int 0, .int 1, .int 2, .int 3, .int 4], [.int 9]]).elements 0).length
          + 1 ∧
      (heap1.elements 0)[0]? = some (.int 9) ∧
      (∀ j, j < 0 → (heap1.elements 0)[j]?
        = ((Heap.mk [[.int 0, .int 1, .int 2, .int 3, .int 4], [.int 9]]).elements 0)[j]?) ∧
      (∀ j, 0 ≤ j → (heap1.elements 0)[j + 1]?
        = ((Heap.mk [[.int 0, .int 1, .int 2, .int 3, .int 4], [.int 9]]).elements 0)[j]?) ∧
      heap1.elements 1
        = (Heap.mk [[.int 0, .int 1, .int 2, .int 3, .int 4], [.int 9]]).elements 1 ∧
      (∀ g, g ≠ 0 → heap1.elements g
        = (Heap.mk [[.int 0, .int 1, .int 2, .int 3, .int 4], [.int 9]]).elements g) :=
  single_assignment_inserts ⟨[[.int 0, .int 1, .int 2, .int 3, .int 4], [.int 9]]⟩ 0 1 0 1
    (.int 9) (by decide) (by decide) (by rfl) (by decide) (by decide)

/-! ## Slice write: errors and normalization -/

/-- On Integer components `updateListSlice` is the write on the bounds that
`writeBounds` computes. -/
theorem updateListSlice_int (heap : Heap) (insertOp isSlice : Bool) (targetList rhsValues : Nat)
    (x y z : Int) :
    updateListSlice heap insertOp targetList ⟨.int x, .int y, .int z, isSlice⟩ rhsValues
      = sliceWrite heap targetList rhsValues
          (writeBounds insertOp isSlice (heap.elements targetList).length x y z).1
          (writeBounds insertOp isSlice (heap.elements targetList).length x y z).2
          (wrap32 z) := rfl

/-- On Integer components a slice read is the collection on the bounds that
`readBounds` computes. -/
theorem interpretListSlice_int (fuel : Nat) (heap : Heap) (list : Nat) (x y z : Int) :
    interpretListSlice fuel heap ⟨.int x, .int y, .int z, true⟩ list
      = sliceRead fuel heap list
          (readBounds (heap.elements list).length x y z).1
          (readBounds (heap.elements list).length x y z).2
          (wrap32 z) := rfl

theorem stridedWriteLoop_ne_error (listSize stop step : Int) (rhs : List Value) :
    ∀ (i : Int) (elements : List Value) (e : KError),
      stridedWriteLoop listSize stop step rhs i elements ≠ .error e := by
  induction rhs with
  | nil => intro i elements e h; cases h
  | cons v rest ih =>
    intro i elements e
    simp only [stridedWriteLoop]
    split_ifs
    · exact ih _ _ e
    · exact fun h => by cases h
    · exact fun h => by cases h
    · exact fun h => by cases h

theorem sliceWrite_ne_error (heap : Heap) (targetList rhsValues : Nat) (start stop step : Int)
    (e : KError) : sliceWrite heap targetList rhsValues start stop step ≠ .error e := by
  simp only [sliceWrite]
  split_ifs
  · exact fun h => by cases h
  · exact fun h => by cases h
  · exact fun h => by cases h
  · exact fun h => by cases h
  · intro h
    cases hl : stridedWriteLoop (wrap32 (heap.elements targetList).length) stop step
        (List.take (wrap32 (heap.elements rhsValues).length).toNat (heap.elements rhsValues))
        start (heap.elements targetList) with
    | ok a => rw [hl] at h; cases h
    | error e1 => exact stridedWriteLoop_ne_error _ _ _ _ _ _ _ hl
    | undefined => rw [hl] at h; cases h

/-- C21: `updateListSlice` ends with `IndexError` exactly when the start, the
stop or the step component of the slice does not hold an Integer, and it throws
no other error. The three tests are the first statements of the function, so
nothing has been written when it throws: the run ends in `Run.error`, which
carries no new heap, and the target list and the right-hand list are the ones
of the heap before the call. -/
theorem slice_write_index_error (heap : Heap) (insertOp : Bool) (targetList : Nat)
    (slice : SliceIndex) (rhsValues : Nat) :
    (updateListSlice heap insertOp targetList slice rhsValues = .error .IndexError ↔
      (slice.indexOrStart.isInt = false ∨ slice.stopIndex.isInt = false ∨
        slice.stepValue.isInt = false)) ∧
    (∀ e, updateListSlice heap insertOp targetList slice rhsValues = .error e →
      e = .IndexError) ∧
    (∀ heap1, updateListSlice heap insertOp targetList slice rhsValues = .ok heap1 →
      slice.indexOrStart.isInt = true ∧ slice.stopIndex.isInt = true ∧
        slice.stepValue.isInt = true) := by
  obtain ⟨a, b, c, isSlice⟩ := slice
  have hint : ∀ (x y z : Int) (e : KError),
      updateListSlice heap insertOp targetList ⟨.int x, .int y, .int z, isSlice⟩ rhsValues
        ≠ .error e := by
    intro x y z e
    rw [updateListSlice_int]
    exact sliceWrite_ne_error _ _ _ _ _ _ e
  have hnot : ∀ (a b c : Value), (a.isInt = false ∨ b.isInt = false ∨ c.isInt = false) →
      updateListSlice heap insertOp targetList ⟨a, b, c, isSlice⟩ rhsValues
        = .error .IndexError := by
    intro a b c h
    cases a <;> cases b <;> cases c <;> first | rfl | simp [Value.isInt] at h
  by_cases hall : a.isInt = false ∨ b.isInt = false ∨ c.isInt = false
  · have hres := hnot a b c hall
    refine ⟨⟨fun _ => hall, fun _ => hres⟩, ?_, ?_⟩
    · intro e he
      rw [hres] at he
      cases he
      rfl
    · intro heap1 h1
      rw [hres] at h1
      cases h1
  · have ha : a.isInt = true := by
      cases h : a.isInt
      · exact absurd (Or.inl h) hall
      · rfl
    have hb : b.isInt = true := by
      cases h : b.isInt
      · exact absurd (Or.inr (Or.inl h)) hall
      · rfl
    have hc : c.isInt = true := by
      cases h : c.isInt
      · exact absurd (Or.inr (Or.inr h)) hall
      · rfl
    cases a <;> simp only [Value.isInt] at ha <;> try (exact absurd ha (by decide))
    cases b <;> simp only [Value.isInt] at hb <;> try (exact absurd hb (by decide))
    cases c <;> simp only [Value.isInt] at hc <;> try (exact absurd hc (by decide))
    refine ⟨⟨fun h => absurd h (hint _ _ _ _), fun h => absurd h hall⟩, ?_, ?_⟩
    · intro e he
      exact absurd he (hint _ _ _ _)
    · intro _ _
      exact ⟨rfl, rfl, rfl⟩

theorem wrap32_add_size (a : Int) (n : Nat) (hn : n < 2147483648) (h0 : -2147483648 ≤ a)
    (h1 : a < 0) : wrap32 (a + n) = a + n :=
  wrap32_of_range _ (by omega) (by omega)

theorem bounds_agree_core (n : Nat) (hn : n < 2147483648) (a b c : Int)
    (ha : -2147483648 ≤ a) (hb : -2147483648 ≤ b) :
    ((if a < 0 then max (wrap32 (a + n)) 0 else a),
      (if c < 0 ∧ (if b < 0 then wrap32 (b + n) else min b n) = n then -1
        else (if b < 0 then wrap32 (b + n) else min b n)))
    = ((if (if a < 0 then wrap32 (a + n) else a) < 0 then 0
          else (if a < 0 then wrap32 (a + n) else a)),
      (if c < 0 ∧
          (if (if b < 0 then wrap32 (b + n) else b) > n then (n : Int)
            else (if b < 0 then wrap32 (b + n) else b)) = n then -1
        else (if (if b < 0 then wrap32 (b + n) else b) > n then (n : Int)
            else (if b < 0 then wrap32 (b + n) else b)))) := by
  have hstart : (if a < 0 then max (wrap32 (a + n)) 0 else a)
      = (if (if a < 0 then wrap32 (a + n) else a) < 0 then 0
          else (if a < 0 then wrap32 (a + n) else a)) := by
    by_cases h : a < 0
    · rw [if_pos h, if_pos h, wrap32_add_size a n hn ha h]
      split_ifs <;> omega
    · rw [if_neg h, if_neg h, if_neg h]
  have hstop : (if b < 0 then wrap32 (b + n) else min b n)
      = (if (if b < 0 then wrap32 (b + n) else b) > n then (n : Int)
            else (if b < 0 then wrap32 (b + n) else b)) := by
    by_cases h : b < 0
    · rw [if_pos h, if_pos h, wrap32_add_size b n hn hb h]
      split_ifs <;> omega
    · rw [if_neg h, if_neg h]
      split_ifs <;> omega
  rw [hstart, hstop]

/-- C22: for every list length `n` (below `2^31`, the sizes an `int` holds) and
all Integer start, stop and step, the normalized `(start, stop)` pair of the
slice read is equal to the pair of the slice write with `isSlice` true; when
start and stop fit an `int` this pair is: start offset by `n` when negative
and clamped to `≥ 0`, stop offset by `n` when negative and otherwise clamped to
`≤ n`, and stop reset to `-1` when `step < 0` and stop equals `n`. -/
theorem slice_bounds_agree (n : Nat) (insertOp : Bool) (start stop step : Int)
    (hn : n < 2147483648) :
    readBounds n start stop step = writeBounds insertOp true n start stop step ∧
    (-2147483648 ≤ start → start < 2147483648 → -2147483648 ≤ stop → stop < 2147483648 →
      readBounds n start stop step
        = (normStart start n,
            if wrap32 step < 0 ∧ normStop stop n = n then -1 else normStop stop n)) := by
  have hwn : wrap32 (n : Int) = n := wrap32_of_range _ (by omega) (by omega)
  constructor
  · simp only [readBounds, writeBounds, hwn, Bool.not_true, Bool.false_and,
      Bool.false_eq_true, if_false]
    exact bounds_agree_core n hn (wrap32 start) (wrap32 stop) (wrap32 step)
      (wrap32_range start).1 (wrap32_range stop).1
  · intro hs0 hs1 he0 he1
    have hws : wrap32 start = start := wrap32_of_range _ hs0 hs1
    have hwe : wrap32 stop = stop := wrap32_of_range _ he0 he1
    simp only [readBounds, hwn, hws, hwe, normStart, normStop]
    by_cases h1 : start < 0 <;> by_cases h2 : stop < 0 <;>
      simp only [h1, h2, if_true, if_false, wrap32_add_size _ n hn hs0, wrap32_add_size _ n hn he0]

theorem slice_bounds_agree_witness :
    (readBounds 5 (-2) 7 (-1) = writeBounds false true 5 (-2) 7 (-1) ∧
      (-2147483648 ≤ (-2 : Int) → (-2 : Int) < 2147483648 → -2147483648 ≤ (7 : Int) →
        (7 : Int) < 2147483648 →
        readBounds 5 (-2) 7 (-1)
          = (normStart (-2) (5 : Nat),
              if wrap32 (-1) < 0 ∧ normStop 7 (5 : Nat) = (5 : Nat) then -1
              else normStop 7 (5 : Nat)))) ∧
    readBounds 5 (-2) 7 (-1) = (3, -1) :=
  ⟨slice_bounds_agree 5 false (-2) 7 (-1) (by decide), by decide⟩

/-- C23: on the list `[0, 1, 2, 3, 4]` with the right-hand list
`[10, 11, 12, 13, 14]` the slice `[0:5:-1]` (the components of `[::-1]`) is
read at the indices 4, 3, 2, 1, 0 but written at index 0 only; the slice
`[3:1:-1]` is read at the indices 3, 2, 1 but written at 3 and 2 only; and the
slice `[3:1:2]` is read at no index but written at index 3. -/
theorem slice_write_walk_differs_from_read (fuel : Nat) :
    interpretListSlice (fuel + 6)
        ⟨[[.int 0, .int 1, .int 2, .int 3, .int 4],
          [.int 10, .int 11, .int 12, .int 13, .int 14]]⟩
        ⟨.int 0, .int 5, .int (-1), true⟩ 0
      = some (.ok (.list 2,
          ⟨[[.int 0, .int 1, .int 2, .int 3, .int 4],
            [.int 10, .int 11, .int 12, .int 13, .int 14],
            [.int 4, .int 3, .int 2, .int 1, .int 0]]⟩)) ∧
    updateListSlice
        ⟨[[.int 0, .int 1, .int 2, .int 3, .int 4],
          [.int 10, .int 11, .int 12, .int 13, .int 14]]⟩
        false 0 ⟨.int 0, .int 5, .int (-1), true⟩ 1
      = .ok ⟨[[.int 10, .int 1, .int 2, .int 3, .int 4],
          [.int 10, .int 11, .int 12, .int 13, .int 14]]⟩ ∧
    interpretListSlice (fuel + 6)
        ⟨[[.int 0, .int 1, .int 2, .int 3, .int 4],
          [.int 10, .int 11, .int 12, .int 13, .int 14]]⟩
        ⟨.int 3, .int 1, .int (-1), true⟩ 0
      = some (.ok (.list 2,
          ⟨[[.int 0, .int 1, .int 2, .int 3, .int 4],
            [.int 10, .int 11, .int 12, .int 13, .int 14],
            [.int 3, .int 2, .int 1]]⟩)) ∧
    updateListSlice
        ⟨[[.int 0, .int 1, .int 2, .int 3, .int 4],
          [.int 10, .int 11, .int 12, .int 13, .int 14]]⟩
        false 0 ⟨.int 3, .int 1, .int (-1), true⟩ 1
      = .ok ⟨[[.int 0, .int 1, .int 11, .int 10, .int 4],
          [.int 10, .int 11, .int 12, .int 13, .int 14]]⟩ ∧
    interpretListSlice (fuel + 6)
        ⟨[[.int 0, .int 1, .int 2, .int 3, .int 4],
          [.int 10, .int 11, .int 12, .int 13, .int 14]]⟩
        ⟨.int 3, .int 1, .int 2, true⟩ 0
      = some (.ok (.list 2,
          ⟨[[.int 0, .int 1, .int 2, .int 3, .int 4],
            [.int 10, .int 11, .int 12, .int 13, .int 14],
            []]⟩)) ∧
    updateListSlice
        ⟨[[.int 0, .int 1, .int 2, .int 3, .int 4],
          [.int 10, .int 11, .int 12, .int 13, .int 14]]⟩
        false 0 ⟨.int 3, .int 1, .int 2, true⟩ 1
      = .ok ⟨[[.int 0, .int 1, .int 2, .int 10, .int 4],
          [.int 10, .int 11, .int 12, .int 13, .int 14]]⟩ :=
  ⟨rfl, rfl, rfl, rfl, rfl, rfl⟩

/-- C26: on the list `[0, 1, 2, 3, 4]` the write of `[9]` to the slice
`[7:0:-1]` assigns at index 7, outside the list: for a negative step the loop
tests `i >= 0` only, so the run is undefined behaviour; the read of the same
slice tests both bounds and collects nothing. -/
theorem slice_write_reverse_out_of_bounds (fuel : Nat) :
    updateListSlice ⟨[[.int 0, .int 1, .int 2, .int 3, .int 4], [.int 9]]⟩
        false 0 ⟨.int 7, .int 0, .int (-1), true⟩ 1 = .undefined ∧
    stridedWriteLoop 5 0 (-1) [.int 9] 7 [.int 0, .int 1, .int 2, .int 3, .int 4]
      = .undefined ∧
    interpretListSlice (fuel + 1) ⟨[[.int 0, .int 1, .int 2, .int 3, .int 4], [.int 9]]⟩
        ⟨.int 7, .int 0, .int (-1), true⟩ 0
      = some (.ok (.list 2,
          ⟨[[.int 0, .int 1, .int 2, .int 3, .int 4], [.int 9], []]⟩)) :=
  ⟨rfl, rfl, rfl⟩

/-- C25: on the list `[0, 1, 2, 3, 4]` with the right-hand list `[8, 9]` and
start 1, the step `2147483647` writes index 1 and then wraps the `int` index to
`-2147483648`, which passes the test `i < listSize` and is assigned outside the
list; the step `4294967298` is narrowed to the `int` 2, so the positions
written are 1 and 3, not `1 + k * 4294967298`. -/
theorem strided_write_step_narrowed :
    updateListSlice ⟨[[.int 0, .int 1, .int 2, .int 3, .int 4], [.int 8, .int 9]]⟩
        false 0 ⟨.int 1, .int 5, .int 2147483647, true⟩ 1 = .undefined ∧
    updateListSlice ⟨[[.int 0, .int 1, .int 2, .int 3, .int 4], [.int 8, .int 9]]⟩
        false 0 ⟨.int 1, .int 5, .int 4294967298, true⟩ 1
      = .ok ⟨[[.int 0, .int 8, .int 2, .int 9, .int 4], [.int 8, .int 9]]⟩ :=
  ⟨rfl, rfl⟩

/-- The strided write loop on a step that is not zero, from an index on the
side of the list the step walks away from: it performs some number `w` of
writes, at most one per right-hand element, at the positions `i + k * step`
for `k < w`, all inside the list and none equal to `stop`; position
`i + k * step` receives the `k`-th right-hand element, every other position
keeps its element, and the loop stops before the right-hand side is exhausted
only at `stop` or outside the list. -/
theorem stridedWriteLoop_spec (n : Nat) (stop c : Int) (hn : n < 2147483648) (hc : c ≠ 0)
    (hc0 : -2147483648 ≤ c) (hov : 0 < c → (n : Int) + c ≤ 2147483647) :
    ∀ (rhs : List Value) (i : Int) (elems : List Value), elems.length = n →
      (0 < c → 0 ≤ i) → (c < 0 → i < n) →
      ∃ (w : Nat) (elems1 : List Value), w ≤ rhs.length ∧
        stridedWriteLoop n stop c rhs i elems = .ok elems1 ∧
        elems1.length = n ∧
        (∀ k, k < w → i + k * c ≠ stop ∧ 0 ≤ i + k * c ∧ i + k * c < n ∧
          elems1[(i + k * c).toNat]? = rhs[k]?) ∧
        (∀ j, (∀ k, k < w → (i + k * c).toNat ≠ j) → elems1[j]? = elems[j]?) ∧
        (w < rhs.length → i + w * c = stop ∨ i + w * c < 0 ∨ (n : Int) ≤ i + w * c) := by
  intro rhs
  induction rhs with
  | nil =>
    intro i elems hlen _ _
    refine ⟨0, elems, Nat.le_refl _, rfl, hlen, ?_, ?_, ?_⟩
    · intro k hk; omega
    · intro j _; rfl
    · intro h; simp at h
  | cons v rest ih =>
    intro i elems hlen hpos hneg
    by_cases hgo : i ≠ stop ∧ ((c > 0 ∧ i < (n : Int)) ∨ (c < 0 ∧ i ≥ 0))
    · obtain ⟨h1, h2⟩ := hgo
      have hi0 : 0 ≤ i := by
        rcases h2 with ⟨hc1, _⟩ | ⟨_, h⟩
        · exact hpos hc1
        · exact h
      have hin : i < (n : Int) := by
        rcases h2 with ⟨_, h⟩ | ⟨hc1, _⟩
        · exact h
        · exact hneg hc1
      have hb : 0 ≤ i ∧ i.toNat < elems.length := ⟨hi0, by omega⟩
      have hw : wrap32 (i + c) = i + c := by
        apply wrap32_of_range
        · omega
        · rcases h2 with ⟨hc1, _⟩ | ⟨hc1, _⟩
          · have := hov hc1; omega
          · omega
      have hstep : stridedWriteLoop n stop c (v :: rest) i elems
          = stridedWriteLoop n stop c rest (i + c) (elems.set i.toNat v) := by
        rw [stridedWriteLoop, if_pos h1, if_pos h2, if_pos hb, hw]
      obtain ⟨w, elems1, hwle, hrun, hlen1, hwr, hfr, hend⟩ :=
        ih (i + c) (elems.set i.toNat v) (by rw [List.length_set]; exact hlen)
          (fun h => by omega) (fun h => by omega)
      have hshift : ∀ k : Nat, i + c + (k : Int) * c = i + ((k + 1 : Nat) : Int) * c := by
        intro k; push_cast; ring
      have hne : ∀ k : Nat, i + ((k + 1 : Nat) : Int) * c ≠ i := by
        intro k h
        have hz : ((k + 1 : Nat) : Int) * c = 0 := by omega
        rcases Int.mul_eq_zero.mp hz with h0 | h0
        · omega
        · exact hc h0
      refine ⟨w + 1, elems1, by simp only [List.length_cons]; omega, by rw [hstep, hrun],
        hlen1, ?_, ?_, ?_⟩
      · intro k hk
        cases k with
        | zero =>
          simp only [Nat.cast_zero, zero_mul, add_zero, List.getElem?_cons_zero]
          refine ⟨h1, hi0, hin, ?_⟩
          rw [hfr i.toNat ?_, List.getElem?_set_self hb.2]
          intro k hk1 heq
          have hk2 := hwr k hk1
          rw [hshift k] at hk2 heq
          exact hne k (by omega)
        | succ k =>
          have hk2 := hwr k (by omega)
          rw [hshift k] at hk2
          rw [List.getElem?_cons_succ]
          exact hk2
      · intro j hj
        rw [hfr j ?_, List.getElem?_set_ne ?_]
        · have := hj 0 (by omega)
          simpa using this
        · intro k hk
          have := hj (k + 1) (by omega)
          rw [hshift k]
          exact this
      · intro hlt
        have := hend (by simp only [List.length_cons] at hlt; omega)
        rw [hshift w] at this
        exact this
    · have hstay : stridedWriteLoop n stop c (v :: rest) i elems = .ok elems := by
        rw [stridedWriteLoop]
        by_cases h1 : i ≠ stop
        · have h2 : ¬ ((c > 0 ∧ i < (n : Int)) ∨ (c < 0 ∧ i ≥ 0)) := fun h => hgo ⟨h1, h⟩
          rw [if_pos h1, if_neg h2]
        · rw [if_neg h1]
      refine ⟨0, elems, Nat.zero_le _, hstay, hlen, ?_, ?_, ?_⟩
      · intro k hk; omega
      · intro j _; rfl
      · intro _
        simp only [Nat.cast_zero, zero_mul, add_zero]
        by_cases h1 : i = stop
        · exact Or.inl h1
        · right
          have h2 : ¬ ((c > 0 ∧ i < (n : Int)) ∨ (c < 0 ∧ i ≥ 0)) := fun h => hgo ⟨h1, h⟩
          rcases lt_or_gt_of_ne hc with hc1 | hc1
          · left
            by_contra h3
            exact h2 (Or.inr ⟨hc1, by omega⟩)
          · right
            by_contra h3
            exact h2 (Or.inl ⟨hc1, by omega⟩)

theorem writeBounds_start_nonneg (insertOp isSlice : Bool) (n : Nat) (x y z : Int) :
    0 ≤ (writeBounds insertOp isSlice n x y z).1 := by
  simp only [writeBounds]
  split_ifs <;> omega

/-- A strided slice write on Integer components whose step fits an `int`, is
neither 0 nor 1 and cannot carry the index past `INT_MAX`: the run is defined,
it performs `w` writes at the positions `start + k * step` (`k < w`), one per
right-hand element, and changes nothing else. -/
theorem updateListSlice_strided (heap : Heap) (insertOp isSlice : Bool) (target rhsValues : Nat)
    (x y z : Int) (hT : heap.valid target) (hne : target ≠ rhsValues)
    (hn : (heap.elements target).length < 2147483648)
    (hr : (heap.elements rhsValues).length < 2147483648)
    (hz0 : -2147483648 ≤ z) (hz1 : z < 2147483648) (hz : z ≠ 0) (hz2 : z ≠ 1)
    (hov : 0 < z → ((heap.elements target).length : Int) + z ≤ 2147483647)
    (hs : z < 0 → (writeBounds insertOp isSlice (heap.elements target).length x y z).1
      < (heap.elements target).length) :
    ∃ (w : Nat) (heap1 : Heap), w ≤ (heap.elements rhsValues).length ∧
      updateListSlice heap insertOp target ⟨.int x, .int y, .int z, isSlice⟩ rhsValues
        = .ok heap1 ∧
      (heap1.elements target).length = (heap.elements target).length ∧
      (∀ k, k < w →
        (writeBounds insertOp isSlice (heap.elements target).length x y z).1 + (k : Int) * z
          ≠ (writeBounds insertOp isSlice (heap.elements target).length x y z).2 ∧
        0 ≤ (writeBounds insertOp isSlice (heap.elements target).length x y z).1
          + (k : Int) * z ∧
        (writeBounds insertOp isSlice (heap.elements target).length x y z).1 + (k : Int) * z
          < (heap.elements target).length ∧
        (heap1.elements target)[((writeBounds insertOp isSlice
            (heap.elements target).length x y z).1 + (k : Int) * z).toNat]?
          = (heap.elements rhsValues)[k]?) ∧
      (∀ j, (∀ k, k < w → ((writeBounds insertOp isSlice
            (heap.elements target).length x y z).1 + (k : Int) * z).toNat ≠ j) →
        (heap1.elements target)[j]? = (heap.elements target)[j]?) ∧
      (w < (heap.elements rhsValues).length →
        (writeBounds insertOp isSlice (heap.elements target).length x y z).1 + (w : Int) * z
          = (writeBounds insertOp isSlice (heap.elements target).length x y z).2 ∨
        (writeBounds insertOp isSlice (heap.elements target).length x y z).1 + (w : Int) * z
          < 0 ∨
        ((heap.elements target).length : Int)
          ≤ (writeBounds insertOp isSlice (heap.elements target).length x y z).1
            + (w : Int) * z) ∧
      heap1.elements rhsValues = heap.elements rhsValues ∧
      (∀ g, g ≠ target → heap1.elements g = heap.elements g) := by
  have hwz : wrap32 z = z := wrap32_of_range _ hz0 hz1
  have hwn : wrap32 ((heap.elements target).length : Int) = (heap.elements target).length :=
    wrap32_of_range _ (by omega) (by omega)
  have hwr : wrap32 ((heap.elements rhsValues).length : Int) = (heap.elements rhsValues).length :=
    wrap32_of_range _ (by omega) (by omega)
  have hs0 := writeBounds_start_nonneg insertOp isSlice (heap.elements target).length x y z
  obtain ⟨w, elems1, hwle, hrun, hlen1, hwrite, hframe, hend⟩ :=
    stridedWriteLoop_spec (heap.elements target).length
      (writeBounds insertOp isSlice (heap.elements target).length x y z).2 z hn hz hz0 hov
      (heap.elements rhsValues)
      (writeBounds insertOp isSlice (heap.elements target).length x y z).1
      (heap.elements target) rfl (fun _ => hs0) hs
  refine ⟨w, heap.setElements target elems1, hwle, ?_, ?_, ?_, ?_, hend,
    Heap.elements_setElements_other _ _ _ _ hne, ?_⟩
  · rw [updateListSlice_int, sliceWrite, if_neg (by rw [hwz]; exact hz2), hwz, hwn, hwr,
      Int.toNat_ofNat, List.take_length, hrun]
    rfl
  · rw [Heap.elements_setElements_same _ _ _ hT, hlen1]
  · intro k hk
    rw [Heap.elements_setElements_same _ _ _ hT]
    exact hwrite k hk
  · intro j hj
    rw [Heap.elements_setElements_same _ _ _ hT]
    exact hframe j hj
  · intro g hg
    exact Heap.elements_setElements_other _ _ _ _ (fun h => hg h.symm)

/-- C24: on the list `[0, 1, 2, 3, 4]` the stride of the slice `[0:5:2]` is
the positions 0, 2, 4; with the right-hand list `[9]` the write changes the
leading position 0 and leaves the trailing positions 2 and 4 as they were. -/
theorem strided_write_short_rhs_counterexample :
    updateListSlice ⟨[[.int 0, .int 1, .int 2, .int 3, .int 4], [.int 9]]⟩ false 0
        ⟨.int 0, .int 5, .int 2, true⟩ 1
      = .ok ⟨[[.int 9, .int 1, .int 2, .int 3, .int 4], [.int 9]]⟩ ∧
    onWriteStride 5 (writeBounds false true 5 0 5 2).2 (writeBounds false true 5 0 5 2).1 2 3 :=
  ⟨rfl, by decide⟩

/-- C24 (amended): for a slice write with a step that is neither 0 nor 1
whose right-hand list is shorter than the number of positions on the stride
(the stride has at least `m` positions and `|rhs| < m`), the positions that are
modified are the leading `|rhs|` positions of the stride in visiting order,
position `k` receiving `rhs[k]`, and the positions that stay unmodified are the
trailing ones, from position `|rhs|` on. -/
theorem strided_write_short_rhs (heap : Heap) (insertOp : Bool) (target rhsValues : Nat)
    (x y z : Int) (m : Nat) (hT : heap.valid target) (hne : target ≠ rhsValues)
    (hn : (heap.elements target).length < 2147483648)
    (hz0 : -2147483648 ≤ z) (hz1 : z < 2147483648) (hz : z ≠ 0) (hz2 : z ≠ 1)
    (hov : 0 < z → ((heap.elements target).length : Int) + z ≤ 2147483647)
    (hon : onWriteStride (heap.elements target).length
      (writeBounds insertOp true (heap.elements target).length x y z).2
      (writeBounds insertOp true (heap.elements target).length x y z).1 z m)
    (hshort : (heap.elements rhsValues).length < m) :
    ∃ heap1,
      updateListSlice heap insertOp target ⟨.int x, .int y, .int z, true⟩ rhsValues
        = .ok heap1 ∧
      (heap1.elements target).length = (heap.elements target).length ∧
      (∀ k, k < (heap.elements rhsValues).length →
        (heap1.elements target)[((writeBounds insertOp true
            (heap.elements target).length x y z).1 + (k : Int) * z).toNat]?
          = (heap.elements rhsValues)[k]?) ∧
      (∀ k, (heap.elements rhsValues).length ≤ k → k < m →
        (heap1.elements target)[((writeBounds insertOp true
            (heap.elements target).length x y z).1 + (k : Int) * z).toNat]?
          = (heap.elements target)[((writeBounds insertOp true
            (heap.elements target).length x y z).1 + (k : Int) * z).toNat]?) ∧
      heap1.elements rhsValues = heap.elements rhsValues := by
  have hs0 := writeBounds_start_nonneg insertOp true (heap.elements target).length x y z
  have hlast := hon (heap.elements rhsValues).length hshort
  have hfirst := hon 0 (by omega)
  simp only [Nat.cast_zero, zero_mul, add_zero] at hfirst
  have hr : (heap.elements rhsValues).length < 2147483648 := by
    rcases lt_or_gt_of_ne hz with hneg | hpos
    · have : ((heap.elements rhsValues).length : Int) * z
          ≤ -((heap.elements rhsValues).length : Int) := by nlinarith
      omega
    · have : ((heap.elements rhsValues).length : Int)
          ≤ ((heap.elements rhsValues).length : Int) * z := by nlinarith
      omega
  obtain ⟨w, heap1, hwle, hrun, hlen1, hwrite, hframe, hend, hrhs, _⟩ :=
    updateListSlice_strided heap insertOp true target rhsValues x y z hT hne hn hr hz0 hz1 hz hz2
      hov (fun _ => hfirst.2.2)
  have hw : w = (heap.elements rhsValues).length := by
    by_contra hcon
    have hlt : w < (heap.elements rhsValues).length := by omega
    have h1 := hend hlt
    have h2 := hon w (by omega)
    omega
  subst hw
  refine ⟨heap1, hrun, hlen1, fun k hk => (hwrite k hk).2.2.2, ?_, hrhs⟩
  intro k hk1 hk2
  apply hframe
  intro k1 hk3 heq
  have h1 := hwrite k1 hk3
  have h2 := hon k hk2
  have h3 : (writeBounds insertOp true (heap.elements target).length x y z).1 + (k1 : Int) * z
      = (writeBounds insertOp true (heap.elements target).length x y z).1 + (k : Int) * z := by
    omega
  have h4 : ((k : Int) - (k1 : Int)) * z = 0 := by linarith
  rcases Int.mul_eq_zero.mp h4 with h5 | h5
  · omega
  · exact hz h5

theorem strided_write_short_rhs_witness :
    ∃ heap1,
      updateListSlice ⟨[[.int 0, .int 1, .int 2, .int 3, .int 4], [.int 9]]⟩ false 0
          ⟨.int 0, .int 5, .int 2, true⟩ 1
        = .ok heap1 ∧
      (heap1.elements 0).length
        = ((Heap.mk [[.int 0, .int 1, .int 2, .int 3, .int 4], [.int 9]]).elements 0).length ∧
      (∀ k, k < ((Heap.mk [[.int 0, .int 1, .int 2, .int 3, .int 4], [.int 9]]).elements 1).length →
        (heap1.elements 0)[((writeBounds false true
            ((Heap.mk [[.int 0, .int 1, .int 2, .int 3, .int 4], [.int 9]]).elements 0).length
            0 5 2).1 + (k : Int) * 2).toNat]?
          = ((Heap.mk [[.int 0, .int 1, .int 2, .int 3, .int 4], [.int 9]]).elements 1)[k]?) ∧
      (∀ k, ((Heap.mk [[.int 0, .int 1, .int 2, .int 3, .int 4], [.int 9]]).elements 1).length ≤ k →
        k < 3 →
        (heap1.elements 0)[((writeBounds false true
            ((Heap.mk [[.int 0, .int 1, .int 2, .int 3, .int 4], [.int 9]]).elements 0).length
            0 5 2).1 + (k : Int) * 2).toNat]?
          = ((Heap.mk [[.int 0, .int 1, .int 2, .int 3, .int 4], [.int 9]]).elements 0)[((writeBounds
            false true
            ((Heap.mk [[.int 0, .int 1, .int 2, .int 3, .int 4], [.int 9]]).elements 0).length
            0 5 2).1 + (k : Int) * 2).toNat]?) ∧
      heap1.elements 1
        = (Heap.mk [[.int 0, .int 1, .int 2, .int 3, .int 4], [.int 9]]).elements 1 :=
  strided_write_short_rhs ⟨[[.int 0, .int 1, .int 2, .int 3, .int 4], [.int 9]]⟩ false 0 1
    0 5 2 3 (by decide) (by decide) (by decide) (by decide) (by decide) (by decide) (by decide)
    (by decide) (by decide) (by decide)

/-- A strided slice write with a step of at least 2 that cannot carry the
index past `INT_MAX`: the length of the list stays the same, the `k`-th
position `start + k * step` receives `rhs[k]` for each `k` below the number
`w` of writes, `w` is at most `|rhs|`, and every other position keeps its
element. -/
theorem strided_write_bounded (heap : Heap) (insertOp : Bool) (target rhsValues : Nat)
    (x y z : Int) (hT : heap.valid target) (hne : target ≠ rhsValues)
    (hn : (heap.elements target).length < 2147483648)
    (hr : (heap.elements rhsValues).length < 2147483648)
    (hz : 2 ≤ z) (hov : ((heap.elements target).length : Int) + z ≤ 2147483647) :
    ∃ (w : Nat) (heap1 : Heap), w ≤ (heap.elements rhsValues).length ∧
      updateListSlice heap insertOp target ⟨.int x, .int y, .int z, true⟩ rhsValues
        = .ok heap1 ∧
      (heap1.elements target).length = (heap.elements target).length ∧
      (∀ k, k < w →
        (writeBounds insertOp true (heap.elements target).length x y z).1 + (k : Int) * z
          < (heap.elements target).length ∧
        (heap1.elements target)[((writeBounds insertOp true
            (heap.elements target).length x y z).1 + (k : Int) * z).toNat]?
          = (heap.elements rhsValues)[k]?) ∧
      (∀ j, (∀ k, k < w → ((writeBounds insertOp true
            (heap.elements target).length x y z).1 + (k : Int) * z).toNat ≠ j) →
        (heap1.elements target)[j]? = (heap.elements target)[j]?) ∧
      heap1.elements rhsValues = heap.elements rhsValues := by
  obtain ⟨w, heap1, hwle, hrun, hlen1, hwrite, hframe, _, hrhs, _⟩ :=
    updateListSlice_strided heap insertOp true target rhsValues x y z hT hne hn hr
      (by omega) (by omega) (by omega) (by omega) (fun _ => hov) (fun h => by omega)
  exact ⟨w, heap1, hwle, hrun, hlen1, fun k hk => ⟨(hwrite k hk).2.2.1, (hwrite k hk).2.2.2⟩,
    hframe, hrhs⟩

theorem Variables.find_assign (m : Variables) (name : String) (value : Value) (x : String) :
    (m.assign name value).find x = if name = x then some value else m.find x := by
  induction m with
  | nil => simp [Variables.assign, Variables.find]
  | cons b rest ih =>
    obtain ⟨k, v⟩ := b
    by_cases hk : k = name
    · subst hk
      by_cases hx : k = x
      · simp [Variables.assign, Variables.find, hx]
      · simp [Variables.assign, Variables.find, hx]
    · by_cases hx : k = x
      · subst hx
        have hnx : name ≠ k := fun h => hk h.symm
        simp [Variables.assign, Variables.find, hk, hnx]
      · simp [Variables.assign, Variables.find, hk, hx, ih]

theorem Variables.names_assign (m : Variables) (name : String) (value : Value)
    (h : (m.find name).isSome = true) : (m.assign name value).names = m.names := by
  induction m with
  | nil => simp [Variables.find] at h
  | cons b rest ih =>
    obtain ⟨k, v⟩ := b
    by_cases hk : k = name
    · simp [Variables.assign, Variables.names, hk]
    · simp only [Variables.find, if_neg hk] at h
      have := ih h
      simp only [Variables.names] at this
      simp [Variables.assign, Variables.names, hk, this]

theorem Variables.find_eq_none (m : Variables) (x : String) (h : x ∉ m.names) :
    m.find x = none := by
  induction m with
  | nil => rfl
  | cons b rest ih =>
    obtain ⟨k, v⟩ := b
    simp only [Variables.names, List.map_cons, List.mem_cons, not_or] at h
    have hk : k ≠ x := fun e => h.1 e.symm
    simp only [Variables.find, if_neg hk]
    exact ih h.2

/-- C27: for every callee mapping `V` (a map, so each name is bound once) and
caller frame `C`, the caller mapping after `updateVariablesInCallerFrame(V, C)`
binds every name `x` to `V(x)` when `x` is bound in both `C` and `V` and to
`C(x)` otherwise, and the names bound in the caller are the same as before: a
name bound only in the callee is not added, and a name the caller does not
bind stays unbound. -/
theorem caller_frame_update (calleeVariables : Variables) (callerFrame : CallStackFrame)
    (hV : calleeVariables.names.Nodup) :
    (∀ x, (updateVariablesInCallerFrame calleeVariables callerFrame).frameVariables.find x
      = if (callerFrame.frameVariables.find x).isSome ∧ (calleeVariables.find x).isSome
          then calleeVariables.find x else callerFrame.frameVariables.find x) ∧
    (updateVariablesInCallerFrame calleeVariables callerFrame).frameVariables.names
      = callerFrame.frameVariables.names ∧
    (∀ x, callerFrame.frameVariables.find x = none →
      (updateVariablesInCallerFrame calleeVariables callerFrame).frameVariables.find x = none) := by
  have key : ∀ (V : Variables) (C : CallStackFrame), V.names.Nodup →
      (∀ x, (updateVariablesInCallerFrame V C).frameVariables.find x
        = if (C.frameVariables.find x).isSome ∧ (V.find x).isSome
            then V.find x else C.frameVariables.find x) ∧
      (updateVariablesInCallerFrame V C).frameVariables.names = C.frameVariables.names := by
    intro V
    induction V with
    | nil =>
      intro C _
      refine ⟨fun x => ?_, rfl⟩
      simp [updateVariablesInCallerFrame, Variables.find]
    | cons b rest ih =>
      intro C hnd
      obtain ⟨k, v⟩ := b
      simp only [Variables.names, List.map_cons, List.nodup_cons] at hnd
      have hrest : Variables.find rest k = none := Variables.find_eq_none rest k hnd.1
      have hunf : updateVariablesInCallerFrame ((k, v) :: rest) C
          = updateVariablesInCallerFrame rest
              (if shouldUpdateFrameVariables k C then
                { C with frameVariables := C.frameVariables.assign k v } else C) := rfl
      rw [hunf]
      by_cases hb : shouldUpdateFrameVariables k C = true
      · rw [if_pos hb]
        obtain ⟨h1, h2⟩ := ih { C with frameVariables := C.frameVariables.assign k v } hnd.2
        refine ⟨fun x => ?_, ?_⟩
        · rw [h1 x]
          simp only [Variables.find_assign]
          by_cases hx : k = x
          · subst hx
            simp only [shouldUpdateFrameVariables] at hb
            simp [Variables.find, hrest, hb]
          · simp [Variables.find, hx]
        · rw [h2]
          exact Variables.names_assign _ _ _ hb
      · rw [if_neg hb]
        obtain ⟨h1, h2⟩ := ih C hnd.2
        refine ⟨fun x => ?_, h2⟩
        rw [h1 x]
        by_cases hx : k = x
        · subst hx
          simp only [shouldUpdateFrameVariables] at hb
          simp [Variables.find, hrest, hb]
        · simp [Variables.find, hx]
  obtain ⟨h1, h2⟩ := key calleeVariables callerFrame hV
  refine ⟨h1, h2, fun x hx => ?_⟩
  rw [h1 x, hx]
  simp

theorem caller_frame_update_witness :
    ((∀ x, (updateVariablesInCallerFrame [("x", .int 2), ("y", .int 3)]
          ⟨[("x", .int 1), ("z", .int 0)]⟩).frameVariables.find x
        = if ((CallStackFrame.mk [("x", .int 1), ("z", .int 0)]).frameVariables.find x).isSome ∧
              (Variables.find [("x", .int 2), ("y", .int 3)] x).isSome
            then Variables.find [("x", .int 2), ("y", .int 3)] x
            else (CallStackFrame.mk [("x", .int 1), ("z", .int 0)]).frameVariables.find x) ∧
      (updateVariablesInCallerFrame [("x", .int 2), ("y", .int 3)]
          ⟨[("x", .int 1), ("z", .int 0)]⟩).frameVariables.names
        = (CallStackFrame.mk [("x", .int 1), ("z", .int 0)]).frameVariables.names ∧
      (∀ x, (CallStackFrame.mk [("x", .int 1), ("z", .int 0)]).frameVariables.find x = none →
        (updateVariablesInCallerFrame [("x", .int 2), ("y", .int 3)]
          ⟨[("x", .int 1), ("z", .int 0)]⟩).frameVariables.find x = none)) ∧
    (updateVariablesInCallerFrame [("x", .int 2), ("y", .int 3)]
        ⟨[("x", .int 1), ("z", .int 0)]⟩).frameVariables = [("x", .int 2), ("z", .int 0)] :=
  ⟨caller_frame_update [("x", .int 2), ("y", .int 3)] ⟨[("x", .int 1), ("z", .int 0)]⟩
    (by decide), by decide⟩

/-- C28: with the current value `"abc"` and the right-hand value `0` the
operator `/=` fails with `DivideByZeroError` (the zero test of `DivideVisitor`
comes first), while `do_binary_op` on `/` and on `/=` fails with
`ConversionError`. -/
theorem divide_assign_counterexample :
    interpretAssignOp DoubleArith.quiet ValueHelpers.shallow 0 ⟨[]⟩ .Ops_DivideAssign
        (.string "abc") (.int 0)
      = some (.error .DivideByZeroError) ∧
    do_binary_op DoubleArith.quiet ValueHelpers.shallow ValueOrder.integers 0 ⟨[]⟩ ⟨[]⟩
        .Ops_DivideAssign (.string "abc") (.int 0)
      = some (.error .ConversionError) ∧
    do_binary_op DoubleArith.quiet ValueHelpers.shallow ValueOrder.integers 0 ⟨[]⟩ ⟨[]⟩
        .Ops_Divide (.string "abc") (.int 0)
      = some (.error .ConversionError) :=
  ⟨rfl, rfl, rfl⟩

/-- The zero test of `DivideVisitor` changes the outcome of `do_division` only
when the right operand is a zero and the left operand is not a number. -/
theorem DivideVisitor_eq (fp : DoubleArith) (left right : Value) :
    DivideVisitor fp left right
      = if right.isZeroNumber && !left.isNumeric then .error .DivideByZeroError
        else do_division fp left right := by
  cases left <;> cases right <;>
    simp [DivideVisitor, is_zero, do_division, Value.isZeroNumber, Value.isNumeric,
      Value.isInt, Value.isDouble, Double.isZero_ofInt] <;>
    split <;> simp_all

/-- C28 (amended): for the ten compound-assignment operators
`+= -= *= **= %= &= |= ^= <<= >>=` and all values `cur` and `v`,
`interpretAssignOp(op, cur, v)` gives the outcome of `do_binary_op` on the
compound operator and on its plain operator: the same value and heap, or the
same error kind. For `/=` the outcome is that of `do_binary_op` on `/` unless
`v` is a zero (Integer `0` or Float `0.0`) and `cur` is not a number; then
`interpretAssignOp` fails with `DivideByZeroError`. -/
theorem assign_op_matches_engine (fp : DoubleArith) (vh : ValueHelpers) (vo : ValueOrder)
    (fuel : Nat) (heap : Heap) (hh : HashHeap) (cur v : Value) :
    (∀ p ∈ [(SubTokenType.Ops_AddAssign, SubTokenType.Ops_Add),
          (.Ops_SubtractAssign, .Ops_Subtract),
          (.Ops_MultiplyAssign, .Ops_Multiply),
          (.Ops_ExponentAssign, .Ops_Exponent),
          (.Ops_ModuloAssign, .Ops_Modulus),
          (.Ops_BitwiseAndAssign, .Ops_BitwiseAnd),
          (.Ops_BitwiseOrAssign, .Ops_BitwiseOr),
          (.Ops_BitwiseXorAssign, .Ops_BitwiseXor),
          (.Ops_BitwiseLeftShiftAssign, .Ops_BitwiseLeftShift),
          (.Ops_BitwiseRightShiftAssign, .Ops_BitwiseRightShift)],
      interpretAssignOp fp vh fuel heap p.1 cur v
          = do_binary_op fp vh vo fuel heap hh p.1 cur v ∧
        interpretAssignOp fp vh fuel heap p.1 cur v
          = do_binary_op fp vh vo fuel heap hh p.2 cur v) ∧
    interpretAssignOp fp vh fuel heap .Ops_DivideAssign cur v
      = (if v.isZeroNumber && !cur.isNumeric then some (.error .DivideByZeroError)
          else do_binary_op fp vh vo fuel heap hh .Ops_DivideAssign cur v) ∧
    do_binary_op fp vh vo fuel heap hh .Ops_DivideAssign cur v
      = do_binary_op fp vh vo fuel heap hh .Ops_Divide cur v ∧
    (v.isZeroNumber = true → cur.isNumeric = false →
      do_binary_op fp vh vo fuel heap hh .Ops_Divide cur v = some (.error .ConversionError)) := by
  refine ⟨?_, ?_, rfl, ?_⟩
  · intro p hp
    simp only [List.mem_cons, List.mem_singleton, List.not_mem_nil, or_false] at hp
    rcases hp with h | h | h | h | h | h | h | h | h | h <;> subst h <;> exact ⟨rfl, rfl⟩
  · have h1 : interpretAssignOp fp vh fuel heap .Ops_DivideAssign cur v
        = some (withHeap heap (DivideVisitor fp cur v)) := rfl
    have h2 : do_binary_op fp vh vo fuel heap hh .Ops_DivideAssign cur v
        = some (withHeap heap (do_division fp cur v)) := rfl
    rw [h1, h2, DivideVisitor_eq]
    by_cases h : (v.isZeroNumber && !cur.isNumeric) = true
    · rw [if_pos h, if_pos h]; rfl
    · rw [if_neg h, if_neg h]
  · intro hv hc
    have h2 : do_binary_op fp vh vo fuel heap hh .Ops_Divide cur v
        = some (withHeap heap (do_division fp cur v)) := rfl
    rw [h2]
    cases cur <;> cases v <;>
      simp_all [do_division, Value.isZeroNumber, Value.isNumeric, Value.isInt, Value.isDouble,
        withHeap, Except.map]

theorem fileio_is_builtin_iff (arg : String) :
    FileIOBuiltIns.is_builtin arg = true ↔ arg ∈ FileIOBuiltIns.builtins := by
  simp only [FileIOBuiltIns.is_builtin, List.contains, List.elem_eq_mem, decide_eq_true_eq]

theorem time_is_builtin_iff (arg : String) :
    TimeBuiltins.is_builtin arg = true ↔ arg ∈ TimeBuiltins.builtins := by
  simp only [TimeBuiltins.is_builtin, List.contains, List.elem_eq_mem, decide_eq_true_eq]

theorem math_is_builtin_iff (arg : String) :
    MathBuiltins.is_builtin arg = true ↔ arg ∈ MathBuiltins.builtins := by
  simp only [MathBuiltins.is_builtin, List.contains, List.elem_eq_mem, decide_eq_true_eq]

theorem env_is_builtin_iff (arg : String) :
    EnvBuiltins.is_builtin arg = true ↔ arg ∈ EnvBuiltins.builtins := by
  simp only [EnvBuiltins.is_builtin, List.contains, List.elem_eq_mem, decide_eq_true_eq]

theorem core_is_builtin_iff (arg : String) :
    KiwiBuiltins.is_builtin arg = true ↔ arg ∈ KiwiBuiltins.builtins := by
  simp only [KiwiBuiltins.is_builtin, List.contains, List.elem_eq_mem, decide_eq_true_eq]

/-- C29: in a build without the experimental families,
`BuiltinInterpreter::execute(token, name, args)` throws `UnknownBuiltinError`
whatever the handlers do exactly when `name` is in none of the FileIO, Time,
Math and Env name sets, and otherwise its outcome is the outcome of the handler
of the first family, in the order FileIO, Time, Math, Env, whose set contains
`name`; the receiver form throws `UnknownBuiltinError` whatever the core
handler does exactly when `name` is not in `KiwiBuiltins.builtins`, and
otherwise its outcome is the outcome of the core handler. -/
theorem builtin_dispatch (name : String) (value : Value) (args : List Value) :
    ((∀ h, BuiltinInterpreter.execute false h name args = .error .UnknownBuiltinError) ↔
      (name ∉ FileIOBuiltIns.builtins ∧ name ∉ TimeBuiltins.builtins ∧
        name ∉ MathBuiltins.builtins ∧ name ∉ EnvBuiltins.builtins)) ∧
    (∀ h, name ∈ FileIOBuiltIns.builtins →
      BuiltinInterpreter.execute false h name args = h.FileIOBuiltinHandler name args) ∧
    (∀ h, name ∉ FileIOBuiltIns.builtins → name ∈ TimeBuiltins.builtins →
      BuiltinInterpreter.execute false h name args = h.TimeBuiltinHandler name args) ∧
    (∀ h, name ∉ FileIOBuiltIns.builtins → name ∉ TimeBuiltins.builtins →
      name ∈ MathBuiltins.builtins →
      BuiltinInterpreter.execute false h name args = h.MathBuiltinHandler name args) ∧
    (∀ h, name ∉ FileIOBuiltIns.builtins → name ∉ TimeBuiltins.builtins →
      name ∉ MathBuiltins.builtins → name ∈ EnvBuiltins.builtins →
      BuiltinInterpreter.execute false h name args = h.EnvBuiltinHandler name args) ∧
    ((∀ h, BuiltinInterpreter.executeValue h name value args = .error .UnknownBuiltinError) ↔
      name ∉ KiwiBuiltins.builtins) ∧
    (∀ h, name ∈ KiwiBuiltins.builtins →
      BuiltinInterpreter.executeValue h name value args
        = h.CoreBuiltinHandler name value args) := by
  have hF := fileio_is_builtin_iff name
  have hT := time_is_builtin_iff name
  have hM := math_is_builtin_iff name
  have hE := env_is_builtin_iff name
  have hK := core_is_builtin_iff name
  have hquiet : BuiltinInterpreter.execute false BuiltinHandlers.quiet name args
      = .error .UnknownBuiltinError →
      name ∉ FileIOBuiltIns.builtins ∧ name ∉ TimeBuiltins.builtins ∧
        name ∉ MathBuiltins.builtins ∧ name ∉ EnvBuiltins.builtins := by
    intro h
    simp only [BuiltinInterpreter.execute, BuiltinHandlers.quiet, Bool.false_and,
      Bool.false_eq_true, if_false] at h
    split_ifs at h with h1 h2 h3 h4
    exact ⟨fun m => h1 (hF.mpr m), fun m => h2 (hT.mpr m), fun m => h3 (hM.mpr m),
      fun m => h4 (hE.mpr m)⟩
  refine ⟨⟨fun h => hquiet (h _), ?_⟩, ?_, ?_, ?_, ?_, ⟨?_, ?_⟩, ?_⟩
  · rintro ⟨h1, h2, h3, h4⟩ h
    simp only [BuiltinInterpreter.execute, Bool.false_and, Bool.false_eq_true, if_false,
      if_neg (fun m => h1 (hF.mp m)), if_neg (fun m => h2 (hT.mp m)),
      if_neg (fun m => h3 (hM.mp m)), if_neg (fun m => h4 (hE.mp m))]
  · intro h h1
    simp only [BuiltinInterpreter.execute, if_pos (hF.mpr h1)]
  · intro h h1 h2
    simp only [BuiltinInterpreter.execute, if_neg (fun m => h1 (hF.mp m)), if_pos (hT.mpr h2)]
  · intro h h1 h2 h3
    simp only [BuiltinInterpreter.execute, if_neg (fun m => h1 (hF.mp m)),
      if_neg (fun m => h2 (hT.mp m)), if_pos (hM.mpr h3)]
  · intro h h1 h2 h3 h4
    simp only [BuiltinInterpreter.execute, if_neg (fun m => h1 (hF.mp m)),
      if_neg (fun m => h2 (hT.mp m)), if_neg (fun m => h3 (hM.mp m)), if_pos (hE.mpr h4)]
  · intro h m
    have h1 := h BuiltinHandlers.quiet
    simp only [BuiltinInterpreter.executeValue, BuiltinHandlers.quiet, if_pos (hK.mpr m)] at h1
    cases h1
  · intro h1 h
    simp only [BuiltinInterpreter.executeValue, if_neg (fun m => h1 (hK.mp m))]
  · intro h h1
    simp only [BuiltinInterpreter.executeValue, if_pos (hK.mpr h1)]

theorem http_is_builtin_iff (arg : String) :
    HttpBuiltins.is_builtin arg = true ↔ arg ∈ HttpBuiltins.builtins := by
  simp only [HttpBuiltins.is_builtin, List.contains, List.elem_eq_mem, decide_eq_true_eq]

theorem odbc_is_builtin_iff (arg : String) :
    OdbcBuiltins.is_builtin arg = true ↔ arg ∈ OdbcBuiltins.builtins := by
  simp only [OdbcBuiltins.is_builtin, List.contains, List.elem_eq_mem, decide_eq_true_eq]

/-- No string is in two of the twelve name sets of `parsing/builtins.h`. -/
theorem builtin_sets_pairwise :
    List.Pairwise (fun a b : List String => ∀ x ∈ a, x ∉ b)
      [FileIOBuiltIns.builtins, TimeBuiltins.builtins, MathBuiltins.builtins,
        EnvBuiltins.builtins, HttpBuiltins.builtins, OdbcBuiltins.builtins,
        ModuleBuiltins.builtins, SpecializedBuiltins.builtins, ArgvBuiltins.builtins,
        SysBuiltins.builtins, ConsoleBuiltins.builtins, KiwiBuiltins.builtins] := by
  decide

/-- C30: the twelve name sets of `builtins.h` (FileIO, Time, Math, Env, Http,
Odbc, Module, Specialized, Argv, Sys, Console and the core value methods of
`KiwiBuiltins`) are pairwise disjoint: no string is in two of them. So a name
of a routed family is handled by the handler of that family, whatever the
order of the tests of `BuiltinInterpreter::execute` (Http and Odbc are routed
in an experimental build only). -/
theorem builtin_families_disjoint :
    List.Pairwise (fun a b : List String => ∀ x ∈ a, x ∉ b)
      [FileIOBuiltIns.builtins, TimeBuiltins.builtins, MathBuiltins.builtins,
        EnvBuiltins.builtins, HttpBuiltins.builtins, OdbcBuiltins.builtins,
        ModuleBuiltins.builtins, SpecializedBuiltins.builtins, ArgvBuiltins.builtins,
        SysBuiltins.builtins, ConsoleBuiltins.builtins, KiwiBuiltins.builtins] ∧
    (∀ (experimental : Bool) (h : BuiltinHandlers) (name : String) (args : List Value),
      (name ∈ FileIOBuiltIns.builtins →
        BuiltinInterpreter.execute experimental h name args
          = h.FileIOBuiltinHandler name args) ∧
      (name ∈ TimeBuiltins.builtins →
        BuiltinInterpreter.execute experimental h name args
          = h.TimeBuiltinHandler name args) ∧
      (name ∈ MathBuiltins.builtins →
        BuiltinInterpreter.execute experimental h name args
          = h.MathBuiltinHandler name args) ∧
      (name ∈ EnvBuiltins.builtins →
        BuiltinInterpreter.execute experimental h name args
          = h.EnvBuiltinHandler name args) ∧
      (name ∈ HttpBuiltins.builtins →
        BuiltinInterpreter.execute true h name args = h.HttpBuiltinHandler name args) ∧
      (name ∈ OdbcBuiltins.builtins →
        BuiltinInterpreter.execute true h name args = h.OdbcBuiltinHandler name args)) := by
  refine ⟨builtin_sets_pairwise, ?_⟩
  intro experimental h name args
  have hp := List.pairwise_iff_getElem.mp builtin_sets_pairwise
  have hFT : ∀ x ∈ FileIOBuiltIns.builtins, x ∉ TimeBuiltins.builtins :=
    hp 0 1 (by decide) (by decide) (by decide)
  have hFM : ∀ x ∈ FileIOBuiltIns.builtins, x ∉ MathBuiltins.builtins :=
    hp 0 2 (by decide) (by decide) (by decide)
  have hFE : ∀ x ∈ FileIOBuiltIns.builtins, x ∉ EnvBuiltins.builtins :=
    hp 0 3 (by decide) (by decide) (by decide)
  have hFH : ∀ x ∈ FileIOBuiltIns.builtins, x ∉ HttpBuiltins.builtins :=
    hp 0 4 (by decide) (by decide) (by decide)
  have hFO : ∀ x ∈ FileIOBuiltIns.builtins, x ∉ OdbcBuiltins.builtins :=
    hp 0 5 (by decide) (by decide) (by decide)
  have hTM : ∀ x ∈ TimeBuiltins.builtins, x ∉ MathBuiltins.builtins :=
    hp 1 2 (by decide) (by decide) (by decide)
  have hTE : ∀ x ∈ TimeBuiltins.builtins, x ∉ EnvBuiltins.builtins :=
    hp 1 3 (by decide) (by decide) (by decide)
  have hTH : ∀ x ∈ TimeBuiltins.builtins, x ∉ HttpBuiltins.builtins :=
    hp 1 4 (by decide) (by decide) (by decide)
  have hTO : ∀ x ∈ TimeBuiltins.builtins, x ∉ OdbcBuiltins.builtins :=
    hp 1 5 (by decide) (by decide) (by decide)
  have hME : ∀ x ∈ MathBuiltins.builtins, x ∉ EnvBuiltins.builtins :=
    hp 2 3 (by decide) (by decide) (by decide)
  have hMH : ∀ x ∈ MathBuiltins.builtins, x ∉ HttpBuiltins.builtins :=
    hp 2 4 (by decide) (by decide) (by decide)
  have hMO : ∀ x ∈ MathBuiltins.builtins, x ∉ OdbcBuiltins.builtins :=
    hp 2 5 (by decide) (by decide) (by decide)
  have hEH : ∀ x ∈ EnvBuiltins.builtins, x ∉ HttpBuiltins.builtins :=
    hp 3 4 (by decide) (by decide) (by decide)
  have hEO : ∀ x ∈ EnvBuiltins.builtins, x ∉ OdbcBuiltins.builtins :=
    hp 3 5 (by decide) (by decide) (by decide)
  have hHO : ∀ x ∈ HttpBuiltins.builtins, x ∉ OdbcBuiltins.builtins :=
    hp 4 5 (by decide) (by decide) (by decide)
  have hF := fileio_is_builtin_iff name
  have hT := time_is_builtin_iff name
  have hM := math_is_builtin_iff name
  have hE := env_is_builtin_iff name
  have hH := http_is_builtin_iff name
  have hO := odbc_is_builtin_iff name
  refine ⟨?_, ?_, ?_, ?_, ?_, ?_⟩
  · intro m
    simp only [BuiltinInterpreter.execute, if_pos (hF.mpr m)]
  · intro m
    simp only [BuiltinInterpreter.execute, if_neg (fun k => hFT name (hF.mp k) m),
      if_pos (hT.mpr m)]
  · intro m
    simp only [BuiltinInterpreter.execute, if_neg (fun k => hFM name (hF.mp k) m),
      if_neg (fun k => hTM name (hT.mp k) m), if_pos (hM.mpr m)]
  · intro m
    simp only [BuiltinInterpreter.execute, if_neg (fun k => hFE name (hF.mp k) m),
      if_neg (fun k => hTE name (hT.mp k) m), if_neg (fun k => hME name (hM.mp k) m),
      if_pos (hE.mpr m)]
  · intro m
    simp only [BuiltinInterpreter.execute, if_neg (fun k => hFH name (hF.mp k) m),
      if_neg (fun k => hTH name (hT.mp k) m), if_neg (fun k => hMH name (hM.mp k) m),
      if_neg (fun k => hEH name (hE.mp k) m), Bool.true_and, if_pos (hH.mpr m)]
  · intro m
    simp only [BuiltinInterpreter.execute, if_neg (fun k => hFO name (hF.mp k) m),
      if_neg (fun k => hTO name (hT.mp k) m), if_neg (fun k => hMO name (hM.mp k) m),
      if_neg (fun k => hEO name (hE.mp k) m), Bool.true_and,
      if_neg (fun k => hHO name (hH.mp k) m), if_pos (hO.mpr m)]

/-- C34: for every String `s` and every value `v` that is not an Integer, a
Float, a Boolean or a String, `s + v` and `v + s` succeed with the String `s`
as result, and the heap, so the storage of every list, is the one before the
call. -/
theorem string_plus_other (fp : DoubleArith) (heap : Heap) (s : String) (v : Value)
    (hi : v.isInt = false) (hd : v.isDouble = false) (hb : v.isBool = false)
    (hs : v.isString = false) :
    do_addition fp heap (.string s) v = .ok (.string s, heap) ∧
    do_addition fp heap v (.string s) = .ok (.string s, heap) := by
  cases v <;>
    simp_all [Value.isInt, Value.isDouble, Value.isBool, Value.isString, do_addition,
      streamText]

theorem string_plus_other_witness :
    do_addition DoubleArith.quiet ⟨[[.int 1, .int 2]]⟩ (.string "ab") (.list 0)
      = .ok (.string "ab", ⟨[[.int 1, .int 2]]⟩) ∧
    do_addition DoubleArith.quiet ⟨[[.int 1, .int 2]]⟩ (.list 0) (.string "ab")
      = .ok (.string "ab", ⟨[[.int 1, .int 2]]⟩) :=
  string_plus_other DoubleArith.quiet ⟨[[.int 1, .int 2]]⟩ "ab" (.list 0) rfl rfl rfl rfl

/-- The forward loop of the slice read with step 0 stays at its index: from an
index inside the list and below `stop` no amount of fuel lets it end. -/
theorem forwardLoop_step_zero (elements : List Value) (listSize stop i : Int)
    (h0 : 0 ≤ i) (h1 : i < stop) (h2 : i < listSize) (h3 : i.toNat < elements.length)
    (h4 : i < 2147483648) (fuel : Nat) :
    ∀ sliced, forwardLoop elements listSize stop 0 fuel i sliced = none := by
  have hw : wrap32 (i + 0) = i := by
    rw [Int.add_zero]
    exact wrap32_of_range _ (by omega) h4
  have hat : vectorAt elements i = some (elements.get ⟨i.toNat, h3⟩) := by
    simp only [vectorAt, if_neg (not_lt.mpr h0)]
    exact List.getElem?_eq_getElem h3
  induction fuel with
  | zero => intro sliced; rfl
  | succ fuel ih =>
    intro sliced
    rw [forwardLoop, if_pos h1, if_neg (not_le.mpr h2)]
    simp only [hat, hw]
    exact ih _

/-- C35: on the list `[0, 1, 2]` the slice read with start 0, stop 3 and step 0
does not return, whatever the fuel: the loop `for (int i = start; i < stop;
i += step)` stays at index 0 and appends the element there in every round. -/
theorem slice_read_step_zero_diverges (fuel : Nat) :
    interpretListSlice fuel ⟨[[.int 0, .int 1, .int 2]]⟩ ⟨.int 0, .int 3, .int 0, true⟩ 0
      = none := by
  rw [interpretListSlice_int]
  have h : forwardLoop [.int 0, .int 1, .int 2] 3 3 0 fuel 0 [] = none :=
    forwardLoop_step_zero _ 3 3 0 (by decide) (by decide) (by decide) (by decide) (by decide)
      fuel []
  have e : sliceRead fuel ⟨[[.int 0, .int 1, .int 2]]⟩ 0
      (readBounds (Heap.elements ⟨[[.int 0, .int 1, .int 2]]⟩ 0).length 0 3 0).1
      (readBounds (Heap.elements ⟨[[.int 0, .int 1, .int 2]]⟩ 0).length 0 3 0).2 (wrap32 0)
      = (forwardLoop [.int 0, .int 1, .int 2] 3 3 0 fuel 0 []).map
          fun r => r.map fun xs =>
            (.list ((Heap.mk [[.int 0, .int 1, .int 2]]).make_shared xs).1,
              ((Heap.mk [[.int 0, .int 1, .int 2]]).make_shared xs).2) := rfl
  rw [e, h]
  rfl

/-- C36: on the list `[0, 1, 2, 3, 4]` the write of `[9]` to the slice `[3:1]`
with step 1 takes the splice branch (`start >= stop`) with start 3 above stop
1: `erase(begin + 3, begin + 1)` is given an inverted range, which is
undefined behaviour. With start 7 and stop 7 the stop is clamped to 5 and the
start is not: the range starts past the end of the list. -/
theorem splice_range_inverted :
    updateListSlice ⟨[[.int 0, .int 1, .int 2, .int 3, .int 4], [.int 9]]⟩ false 0
        ⟨.int 3, .int 1, .int 1, true⟩ 1 = .undefined ∧
    writeBounds false true 5 3 1 1 = (3, 1) ∧
    updateListSlice ⟨[[.int 0, .int 1, .int 2, .int 3, .int 4], [.int 9]]⟩ false 0
        ⟨.int 7, .int 7, .int 1, true⟩ 1 = .undefined ∧
    writeBounds false true 5 7 7 1 = (7, 5) :=
  ⟨rfl, by decide, rfl, by decide⟩

/-- C37: the name `input` is a builtin method, and in a build without the
experimental families `BuiltinInterpreter::execute` fails with
`UnknownBuiltinError` on it; so it does on `__argv__`, `__home__` and
`__exec__`. -/
theorem builtin_method_not_routed_counterexample :
    KiwiBuiltins.is_builtin_method false "input" = true ∧
    BuiltinInterpreter.execute false BuiltinHandlers.quiet "input" []
      = .error .UnknownBuiltinError ∧
    KiwiBuiltins.is_builtin_method false "__argv__" = true ∧
    BuiltinInterpreter.execute false BuiltinHandlers.quiet "__argv__" []
      = .error .UnknownBuiltinError ∧
    KiwiBuiltins.is_builtin_method false "__home__" = true ∧
    BuiltinInterpreter.execute false BuiltinHandlers.quiet "__home__" []
      = .error .UnknownBuiltinError ∧
    KiwiBuiltins.is_builtin_method false "__exec__" = true ∧
    BuiltinInterpreter.execute false BuiltinHandlers.quiet "__exec__" []
      = .error .UnknownBuiltinError :=
  ⟨by decide, rfl, by decide, rfl, by decide, rfl, by decide, rfl⟩

/-- The router throws `UnknownBuiltinError` itself exactly on the names outside
the four sets it tests in a build without the experimental families. -/
theorem execute_unknown_iff (name : String) (args : List Value) :
    (∀ h, BuiltinInterpreter.execute false h name args = .error .UnknownBuiltinError) ↔
      (name ∉ FileIOBuiltIns.builtins ∧ name ∉ TimeBuiltins.builtins ∧
        name ∉ MathBuiltins.builtins ∧ name ∉ EnvBuiltins.builtins) := by
  have hF := fileio_is_builtin_iff name
  have hT := time_is_builtin_iff name
  have hM := math_is_builtin_iff name
  have hE := env_is_builtin_iff name
  constructor
  · intro h
    have h0 := h BuiltinHandlers.quiet
    simp only [BuiltinInterpreter.execute, BuiltinHandlers.quiet, Bool.false_and,
      Bool.false_eq_true, if_false] at h0
    split_ifs at h0 with h1 h2 h3 h4
    exact ⟨fun m => h1 (hF.mpr m), fun m => h2 (hT.mpr m), fun m => h3 (hM.mpr m),
      fun m => h4 (hE.mpr m)⟩
  · rintro ⟨h1, h2, h3, h4⟩ h
    simp only [BuiltinInterpreter.execute, Bool.false_and, Bool.false_eq_true, if_false,
      if_neg (fun m => h1 (hF.mp m)), if_neg (fun m => h2 (hT.mp m)),
      if_neg (fun m => h3 (hM.mp m)), if_neg (fun m => h4 (hE.mp m))]

theorem is_builtin_method_iff (name : String) :
    KiwiBuiltins.is_builtin_method false name = true ↔
      (name ∈ ConsoleBuiltins.builtins ∨ name ∈ EnvBuiltins.builtins ∨
        name ∈ ArgvBuiltins.builtins ∨ name ∈ TimeBuiltins.builtins ∨
        name ∈ FileIOBuiltIns.builtins ∨ name ∈ MathBuiltins.builtins ∨
        name ∈ ModuleBuiltins.builtins ∨ name ∈ SysBuiltins.builtins) := by
  simp only [KiwiBuiltins.is_builtin_method, Bool.false_eq_true, if_false, Bool.or_eq_true,
    ConsoleBuiltins.is_builtin, EnvBuiltins.is_builtin, ArgvBuiltins.is_builtin,
    TimeBuiltins.is_builtin, FileIOBuiltIns.is_builtin, MathBuiltins.is_builtin,
    ModuleBuiltins.is_builtin, SysBuiltins.is_builtin, List.contains, List.elem_eq_mem,
    decide_eq_true_eq, or_assoc]

/-- C37 (amended): in a build without the experimental families, a name for
which `KiwiBuiltins.is_builtin_method` returns true is claimed by one of the
families that `BuiltinInterpreter::execute(token, name, args)` tests exactly
when it is a FileIO, Time, Math or Env name; for the Console, Argv, Module and
Sys names, which are builtin methods too, the dispatch fails with
`UnknownBuiltinError` whatever the handlers do. -/
theorem builtin_method_routing (name : String) (args : List Value)
    (hm : KiwiBuiltins.is_builtin_method false name = true) :
    ((∀ h, BuiltinInterpreter.execute false h name args = .error .UnknownBuiltinError) ↔
      (name ∈ ConsoleBuiltins.builtins ∨ name ∈ ArgvBuiltins.builtins ∨
        name ∈ ModuleBuiltins.builtins ∨ name ∈ SysBuiltins.builtins)) ∧
    ((name ∈ FileIOBuiltIns.builtins ∨ name ∈ TimeBuiltins.builtins ∨
        name ∈ MathBuiltins.builtins ∨ name ∈ EnvBuiltins.builtins) ↔
      ¬ (name ∈ ConsoleBuiltins.builtins ∨ name ∈ ArgvBuiltins.builtins ∨
        name ∈ ModuleBuiltins.builtins ∨ name ∈ SysBuiltins.builtins)) := by
  have hp := List.pairwise_iff_getElem.mp builtin_sets_pairwise
  have hmem := (is_builtin_method_iff name).mp hm
  have hdis : (name ∈ ConsoleBuiltins.builtins ∨ name ∈ ArgvBuiltins.builtins ∨
        name ∈ ModuleBuiltins.builtins ∨ name ∈ SysBuiltins.builtins) →
      (name ∉ FileIOBuiltIns.builtins ∧ name ∉ TimeBuiltins.builtins ∧
        name ∉ MathBuiltins.builtins ∧ name ∉ EnvBuiltins.builtins) := by
    rintro (h | h | h | h)
    · exact ⟨fun m => hp 0 10 (by decide) (by decide) (by decide) name m h,
        fun m => hp 1 10 (by decide) (by decide) (by decide) name m h,
        fun m => hp 2 10 (by decide) (by decide) (by decide) name m h,
        fun m => hp 3 10 (by decide) (by decide) (by decide) name m h⟩
    · exact ⟨fun m => hp 0 8 (by decide) (by decide) (by decide) name m h,
        fun m => hp 1 8 (by decide) (by decide) (by decide) name m h,
        fun m => hp 2 8 (by decide) (by decide) (by decide) name m h,
        fun m => hp 3 8 (by decide) (by decide) (by decide) name m h⟩
    · exact ⟨fun m => hp 0 6 (by decide) (by decide) (by decide) name m h,
        fun m => hp 1 6 (by decide) (by decide) (by decide) name m h,
        fun m => hp 2 6 (by decide) (by decide) (by decide) name m h,
        fun m => hp 3 6 (by decide) (by decide) (by decide) name m h⟩
    · exact ⟨fun m => hp 0 9 (by decide) (by decide) (by decide) name m h,
        fun m => hp 1 9 (by decide) (by decide) (by decide) name m h,
        fun m => hp 2 9 (by decide) (by decide) (by decide) name m h,
        fun m => hp 3 9 (by decide) (by decide) (by decide) name m h⟩
  have hrest : (name ∉ FileIOBuiltIns.builtins ∧ name ∉ TimeBuiltins.builtins ∧
        name ∉ MathBuiltins.builtins ∧ name ∉ EnvBuiltins.builtins) →
      (name ∈ ConsoleBuiltins.builtins ∨ name ∈ ArgvBuiltins.builtins ∨
        name ∈ ModuleBuiltins.builtins ∨ name ∈ SysBuiltins.builtins) := by
    rintro ⟨h1, h2, h3, h4⟩
    rcases hmem with h | h | h | h | h | h | h | h
    · exact Or.inl h
    · exact absurd h h4
    · exact Or.inr (Or.inl h)
    · exact absurd h h2
    · exact absurd h h1
    · exact absurd h h3
    · exact Or.inr (Or.inr (Or.inl h))
    · exact Or.inr (Or.inr (Or.inr h))
  refine ⟨(execute_unknown_iff name args).trans ⟨hrest, hdis⟩, ?_, ?_⟩
  · intro h hc
    obtain ⟨h1, h2, h3, h4⟩ := hdis hc
    rcases h with h | h | h | h
    · exact h1 h
    · exact h2 h
    · exact h3 h
    · exact h4 h
  · intro hc
    by_contra hno
    apply hc
    apply hrest
    exact ⟨fun m => hno (Or.inl m), fun m => hno (Or.inr (Or.inl m)),
      fun m => hno (Or.inr (Or.inr (Or.inl m))), fun m => hno (Or.inr (Or.inr (Or.inr m)))⟩

theorem builtin_method_routing_witness :
    ((∀ h, BuiltinInterpreter.execute false h "input" [] = .error .UnknownBuiltinError) ↔
      ("input" ∈ ConsoleBuiltins.builtins ∨ "input" ∈ ArgvBuiltins.builtins ∨
        "input" ∈ ModuleBuiltins.builtins ∨ "input" ∈ SysBuiltins.builtins)) ∧
    (("input" ∈ FileIOBuiltIns.builtins ∨ "input" ∈ TimeBuiltins.builtins ∨
        "input" ∈ MathBuiltins.builtins ∨ "input" ∈ EnvBuiltins.builtins) ↔
      ¬ ("input" ∈ ConsoleBuiltins.builtins ∨ "input" ∈ ArgvBuiltins.builtins ∨
        "input" ∈ ModuleBuiltins.builtins ∨ "input" ∈ SysBuiltins.builtins)) :=
  builtin_method_routing "input" [] (by decide)

/-- From a valid position and with enough fuel the loop of
`isSliceAssignmentExpression` returns `true` when a token from the position on
is a `COLON` or an `OPERATOR`, and otherwise ends in the `std::out_of_range` of
`tokens.at(++pos)`; it does not return `false`. -/
theorem sliceAssignmentLoop_spec (tokens : List Token) (fuel : Nat) :
    ∀ (pos : Nat) (token : Token), tokens[pos]? = some token → tokens.length - pos < fuel →
      sliceAssignmentLoop tokens fuel pos token
        = if (tokens.drop pos).any
              (fun t => decide (t.getType = .COLON ∨ t.getType = .OPERATOR)) = true
            then some (.ok true) else some (.error .out_of_range) := by
  induction fuel with
  | zero => intro pos token _ h; omega
  | succ fuel ih =>
    intro pos token hat hfuel
    have hlt : pos < tokens.length := by
      by_contra hc
      rw [List.getElem?_eq_none (by omega)] at hat
      cases hat
    have hdrop : tokens.drop pos = token :: tokens.drop (pos + 1) := by
      rw [List.drop_eq_getElem_cons hlt]
      congr 1
      rw [List.getElem?_eq_getElem hlt] at hat
      exact Option.some.inj hat
    rw [sliceAssignmentLoop, if_pos hlt, hdrop, List.any_cons]
    by_cases hsep : token.getType = .COLON ∨ token.getType = .OPERATOR
    · rw [if_pos hsep]
      simp [hsep]
    · rw [if_neg hsep]
      have hd : decide (token.getType = .COLON ∨ token.getType = .OPERATOR) = false :=
        decide_eq_false hsep
      rw [hd, Bool.false_or]
      cases hnext : tokens[pos + 1]? with
      | some next => exact ih (pos + 1) next hnext (by omega)
      | none =>
        have hlen : tokens.length ≤ pos + 1 := by
          by_contra hc
          rw [List.getElem?_eq_getElem (by omega)] at hnext
          cases hnext
        rw [List.drop_eq_nil_of_le hlen]
        rfl

/-- C38: on the token stream that holds one `IDENTIFIER` token, at position 0,
`isSliceAssignmentExpression` does not return `false`: after the token is
found to be neither `COLON` nor `OPERATOR`, `tokens.at(++pos)` asks for index
1 of a vector of size 1 and throws `std::out_of_range`. So it does on three
such tokens from position 1. -/
theorem slice_assignment_scan_throws (fuel : Nat) :
    isSliceAssignmentExpression (fuel + 1) ⟨[⟨.IDENTIFIER⟩], 0⟩
      = some (.error .out_of_range) ∧
    isSliceAssignmentExpression (fuel + 2)
        ⟨[⟨.OPEN_BRACKET⟩, ⟨.LITERAL⟩, ⟨.CLOSE_BRACKET⟩], 1⟩
      = some (.error .out_of_range) ∧
    isSliceAssignmentExpression (fuel + 2)
        ⟨[⟨.OPEN_BRACKET⟩, ⟨.LITERAL⟩, ⟨.COLON⟩], 1⟩
      = some (.ok true) :=
  ⟨rfl, rfl, rfl⟩

theorem rot_inverse (u k : Nat) (hu : u < 18446744073709551616) (hk0 : 0 < k) (hk : k < 64) :
    ((((u >>> k) ||| (u <<< (64 - k)) % 18446744073709551616) <<< k) % 18446744073709551616 |||
      (((u >>> k) ||| (u <<< (64 - k)) % 18446744073709551616) >>> (64 - k))) = u := by
  have h64 : (18446744073709551616 : Nat) = 2 ^ 64 := by norm_num
  rw [h64] at hu ⊢
  apply Nat.eq_of_testBit_eq
  intro i
  have hbig : ∀ j, 64 ≤ j → u.testBit j = false := by
    intro j hj
    apply Nat.testBit_lt_two_pow
    exact lt_of_lt_of_le hu (Nat.pow_le_pow_right (by norm_num) hj)
  simp only [Nat.testBit_mod_two_pow, Nat.testBit_or, Nat.testBit_shiftLeft,
    Nat.testBit_shiftRight]
  by_cases hi : i < 64
  · by_cases hik : k ≤ i
    · have e1 : k + (i - k) = i := by omega
      have h2 : ¬ (64 - k + i < 64) := by omega
      have h3 : ¬ (i - k ≥ 64 - k) := by omega
      have h4 : i - k < 64 := by omega
      have h5 := hbig (64 - k + i) (by omega)
      have h6 : k + (64 - k + i) = 64 + i := by omega
      have h7 := hbig (64 + i) (by omega)
      simp [hi, hik, e1, h2, h3, h4, h5, h6, h7]
    · have h1 : 64 - k + i < 64 := by omega
      have h2 : k + (64 - k + i) = 64 + i := by omega
      have h3 : 64 - k + i - (64 - k) = i := by omega
      have h5 := hbig (64 + i) (by omega)
      simp [hi, hik, h1, h2, h3, h5]
  · have h1 := hbig i (by omega)
    have h2 := hbig (64 - k + i) (by omega)
    have h3 : k + (64 - k + i) = 64 + i := by omega
    have h4 := hbig (64 + i) (by omega)
    have h5 : ¬ (64 - k + i < 64) := by omega
    simp [hi, h1, h2, h3, h4, h5]

theorem rotr_lt (u k m : Nat) (hu : u < 18446744073709551616) :
    ((u >>> k) ||| (u <<< m) % 18446744073709551616) < 18446744073709551616 := by
  have h64 : (18446744073709551616 : Nat) = 2 ^ 64 := by norm_num
  rw [h64] at hu ⊢
  apply Nat.or_lt_two_pow
  · rw [Nat.shiftRight_eq_div_pow]
    exact lt_of_le_of_lt (Nat.div_le_self _ _) hu
  · exact Nat.mod_lt _ (Nat.two_pow_pos 64)

theorem toUnsigned_wrap64 (r : Nat) (hr : r < 18446744073709551616) :
    toUnsigned (wrap64 (r : Int)) = r := by
  unfold toUnsigned wrap64
  omega

theorem toUnsigned_lt (v : Int) : toUnsigned v < 18446744073709551616 := by
  unfold toUnsigned
  omega

theorem wrap64_toUnsigned (v : Int) (h0 : -9223372036854775808 ≤ v)
    (h1 : v < 9223372036854775808) : wrap64 (toUnsigned v : Int) = v := by
  unfold toUnsigned wrap64
  omega

/-- C40: for every 64-bit Integer `v` and every Integer shift `s` (positive,
negative, zero or a multiple of 64), `__rotl__(__rotr__(v, s), s) = v`. -/
theorem rotate_round_trip (v s : Int) (h0 : -9223372036854775808 ≤ v)
    (h1 : v < 9223372036854775808) : __rotl__ (__rotr__ v s) s = v := by
  by_cases hs : s = 0
  · simp [__rotl__, __rotr__, hs]
  · simp only [__rotl__, __rotr__, if_neg hs]
    generalize hk : (if Int.tmod s 64 < 0 then Int.tmod s 64 + 64 else Int.tmod s 64) = k
    have hk0 : 0 ≤ k ∧ k < 64 := by
      subst hk
      by_cases hneg : s < 0
      · obtain ⟨m, rfl⟩ := Int.eq_negSucc_of_lt_zero hneg
        have e : Int.tmod (Int.negSucc m) 64 = -(((m + 1) % 64 : Nat) : Int) := rfl
        rw [e]
        split_ifs <;> omega
      · have a0 := Int.tmod_nonneg 64 (show (0 : Int) ≤ s by omega)
        have a1 := Int.tmod_lt_of_pos s (show (0 : Int) < 64 by norm_num)
        split_ifs <;> omega
    have hu := toUnsigned_lt v
    by_cases hkz : k = 0
    · subst hkz
      have e1 : shiftCount 0 = 0 := by decide
      have e2 : shiftCount (64 - 0) = 0 := by decide
      simp only [e1, e2, Nat.shiftRight_zero, Nat.shiftLeft_zero, Nat.mod_eq_of_lt hu,
        Nat.or_self]
      rw [toUnsigned_wrap64 _ hu]
      simp only [Nat.mod_eq_of_lt hu, Nat.or_self]
      exact wrap64_toUnsigned v h0 h1
    · obtain ⟨n, rfl⟩ : ∃ n : Nat, k = n := ⟨k.toNat, by omega⟩
      have e1 : shiftCount (n : Int) = n := by unfold shiftCount; omega
      have e2 : shiftCount (64 - (n : Int)) = 64 - n := by unfold shiftCount; omega
      simp only [e1, e2]
      rw [toUnsigned_wrap64 _ (rotr_lt _ _ _ hu)]
      rw [rot_inverse _ n hu (by omega) (by omega)]
      exact wrap64_toUnsigned v h0 h1

theorem rotate_round_trip_witness :
    __rotl__ (__rotr__ 5 3) 3 = 5 ∧ __rotr__ 5 3 = -6917529027641081856 ∧
      __rotr__ 5 64 = 5 ∧ __rotl__ (__rotr__ (-7) (-130)) (-130) = -7 ∧
      __rotr__ 1 (-1) = 2 :=
  ⟨rotate_round_trip 5 3 (by decide) (by decide), by decide, by decide, by decide, by decide⟩

theorem divisorsLoop_eq (N s : Nat) (hN : N < 2147483648)
    (hle : ∀ m, m ≤ s ↔ m * m ≤ N) (fuel : Nat) :
    ∀ (j : Nat) (acc : List Value), 1 ≤ j → j ≤ s + 1 → s + 1 - j < fuel →
      divisorsLoop N fuel j acc
        = some (acc ++ (List.range' j (s + 1 - j)).flatMap (divisorsStep N)) := by
  induction fuel with
  | zero => intro j acc _ _ h; omega
  | succ fuel ih =>
    intro j acc h1 h2 h3
    by_cases hj : j ≤ s
    · have hb : sqrtBound j N = true := by
        simp only [sqrtBound, decide_eq_true_eq]
        refine ⟨by omega, ?_⟩
        have : j * j ≤ N := (hle j).mp hj
        exact_mod_cast this
      have hjb : j < 46341 := by
        by_contra hc
        have h5 : 46341 * 46341 ≤ j * j := Nat.mul_le_mul (by omega) (by omega)
        have h6 : j * j ≤ N := (hle j).mp hj
        omega
      have hw : wrap32 ((j : Int) + 1) = ((j + 1 : Nat) : Int) := by
        rw [wrap32_of_range _ (by omega) (by omega)]; push_cast; rfl
      have hmod : Int.tmod (N : Int) (j : Int) = ((N % j : Nat) : Int) := by
        rw [Int.tmod_eq_emod (Int.ofNat_nonneg N) (Int.ofNat_nonneg j)]
        exact (Int.natCast_mod N j).symm
      have hdiv : Int.tdiv (N : Int) (j : Int) = ((N / j : Nat) : Int) := by
        rw [Int.tdiv_eq_ediv (Int.ofNat_nonneg N) (Int.ofNat_nonneg j)]
        exact (Int.natCast_div N j).symm
      have hr : List.range' j (s + 1 - j)
          = j :: List.range' (j + 1) (s + 1 - (j + 1)) := by
        have : s + 1 - j = (s + 1 - (j + 1)) + 1 := by omega
        rw [this, List.range'_succ]
      rw [divisorsLoop, if_pos hb, hmod, hdiv, hw, hr, List.flatMap_cons]
      by_cases hm : N % j = 0
      · have hm1 : ((N % j : Nat) : Int) = 0 := by rw [hm]; rfl
        by_cases hd : j = N / j
        · have hd1 : ¬ ((j : Int) ≠ ((N / j : Nat) : Int)) := by
            rw [← hd]; exact fun h => h rfl
          have hst : divisorsStep N j = [.int j] := by
            rw [divisorsStep, if_pos hm, if_neg (fun h => h hd)]
          rw [if_pos hm1, if_neg hd1, ih (j + 1) _ (by omega) (by omega) (by omega), hst,
            List.append_assoc]
        · have hd1 : (j : Int) ≠ ((N / j : Nat) : Int) := by
            intro h; exact hd (by exact_mod_cast h)
          have hst : divisorsStep N j = [.int j, .int (N / j : Nat)] := by
            rw [divisorsStep, if_pos hm, if_pos hd]
          rw [if_pos hm1, if_pos hd1, ih (j + 1) _ (by omega) (by omega) (by omega), hst]
          simp only [List.append_assoc, List.singleton_append, List.cons_append, List.nil_append]
      · have hm1 : ¬ ((N % j : Nat) : Int) = 0 := by
          intro h; exact hm (by exact_mod_cast h)
        have hst : divisorsStep N j = [] := by
          rw [divisorsStep, if_neg hm]
        rw [if_neg hm1, ih (j + 1) _ (by omega) (by omega) (by omega), hst, List.nil_append]
    · have hb : sqrtBound j N = false := by
        simp only [sqrtBound, decide_eq_false_iff_not, not_and, not_le]
        intro _
        have : N < j * j := by
          by_contra hc
          exact hj ((hle j).mpr (by omega))
        exact_mod_cast this
      have : s + 1 - j = 0 := by omega
      rw [divisorsLoop, hb, this]
      simp

theorem divisorsStep_mem (N j : Nat) (v : Value) :
    v ∈ divisorsStep N j ↔ N % j = 0 ∧ (v = .int j ∨ v = .int (N / j : Nat)) := by
  unfold divisorsStep
  by_cases hm : N % j = 0
  · by_cases hd : j = N / j
    · rw [if_pos hm, if_neg (fun h => h hd), ← hd]
      simp [hm]
    · rw [if_pos hm, if_pos hd]
      simp [hm]
  · rw [if_neg hm]
    simp [hm]

theorem divisorsStep_nodup (N j : Nat) : (divisorsStep N j).Nodup := by
  unfold divisorsStep
  by_cases hm : N % j = 0
  · by_cases hd : j = N / j
    · rw [if_pos hm, if_neg (fun h => h hd)]
      simp
    · rw [if_pos hm, if_pos hd]
      have : (j : Int) ≠ ((N / j : Nat) : Int) := fun h => hd (by exact_mod_cast h)
      rw [List.nodup_cons]
      refine ⟨?_, List.nodup_singleton _⟩
      rw [List.mem_singleton]
      exact fun h => this (Value.int.inj h)
  · rw [if_neg hm]
    simp

theorem divisors_mem (N s : Nat) (hN : 0 < N) (hle : ∀ m, m ≤ s ↔ m * m ≤ N) (v : Value) :
    v ∈ (List.range' 1 s).flatMap (divisorsStep N)
      ↔ ∃ d : Nat, v = .int d ∧ 0 < d ∧ d ∣ N := by
  simp only [List.mem_flatMap, List.mem_range'_1, divisorsStep_mem]
  constructor
  · rintro ⟨j, ⟨hj1, _⟩, hm, hv | hv⟩
    · exact ⟨j, hv, hj1, Nat.dvd_of_mod_eq_zero hm⟩
    · have hdvd : j ∣ N := Nat.dvd_of_mod_eq_zero hm
      refine ⟨N / j, hv, ?_, Nat.div_dvd_of_dvd hdvd⟩
      exact Nat.div_pos (Nat.le_of_dvd hN hdvd) hj1
  · rintro ⟨d, hv, hd0, hdvd⟩
    by_cases hds : d ≤ s
    · exact ⟨d, ⟨hd0, by omega⟩, Nat.mod_eq_zero_of_dvd hdvd, Or.inl hv⟩
    · have hdd : N < d * d := by
        by_contra hc
        exact hds ((hle d).mpr (by omega))
      obtain ⟨q, hq⟩ := hdvd
      have hq0 : 0 < q := by
        rcases Nat.eq_zero_or_pos q with h | h
        · rw [h, Nat.mul_zero] at hq; omega
        · exact h
      have hqd : q < d := by
        by_contra hc
        have : d * d ≤ d * q := Nat.mul_le_mul_left d (by omega)
        omega
      have hqq : q * q ≤ N := by
        have : q * q ≤ d * q := Nat.mul_le_mul_right q (by omega)
        omega
      have hNq : N / q = d := by
        rw [hq]; exact Nat.mul_div_cancel _ hq0
      refine ⟨q, ⟨hq0, ?_⟩, ?_, Or.inr ?_⟩
      · have := (hle q).mpr hqq
        omega
      · rw [hq]; exact Nat.mul_mod_left _ _
      · rw [hNq]; exact hv

theorem divisors_nodup (N s : Nat) (hN : 0 < N) (hle : ∀ m, m ≤ s ↔ m * m ≤ N) :
    ((List.range' 1 s).flatMap (divisorsStep N)).Nodup := by
  rw [List.nodup_flatMap]
  refine ⟨fun j _ => divisorsStep_nodup N j, ?_⟩
  have hss : s * s ≤ N := (hle s).mp (Nat.le_refl s)
  have hp : List.Pairwise (fun a b => a < b) (List.range' 1 s) := List.pairwise_lt_range' 1 s
  have hall : ∀ j ∈ List.range' 1 s, 1 ≤ j ∧ j ≤ s := by
    intro j hj
    rw [List.mem_range'_1] at hj
    omega
  refine (List.Pairwise.and_mem.mp hp).imp ?_
  rintro a b ⟨ha, hb, hab⟩
  obtain ⟨ha1, ha2⟩ := hall a ha
  obtain ⟨hb1, hb2⟩ := hall b hb
  intro v hva hvb
  rw [divisorsStep_mem] at hva hvb
  obtain ⟨hma, hva⟩ := hva
  obtain ⟨hmb, hvb⟩ := hvb
  have hqa : a * (N / a) = N := Nat.mul_div_cancel' (Nat.dvd_of_mod_eq_zero hma)
  have hqb : b * (N / b) = N := Nat.mul_div_cancel' (Nat.dvd_of_mod_eq_zero hmb)
  have hbb : b * b ≤ N := (hle b).mp hb2
  have hab2 : b * a < b * b := Nat.mul_lt_mul_of_pos_left hab (by omega)
  rcases hva with h1 | h1 <;> rcases hvb with h2 | h2 <;> rw [h1] at h2 <;>
    simp only [Value.int.injEq, Nat.cast_inj] at h2
  · omega
  · rw [← h2] at hqb; omega
  · rw [h2, Nat.mul_comm] at hqa; omega
  · rw [h2] at hqa
    have : a * (N / b) < b * (N / b) := by
      apply Nat.mul_lt_mul_of_pos_right hab
      rcases Nat.eq_zero_or_pos (N / b) with h | h
      · rw [h, Nat.mul_zero] at hqb; omega
      · exact h
    omega

/-- C39: for every `int` `n ≥ 1`, `__divisors__(n)` returns a list that holds
every positive divisor of `n` exactly once and nothing else, and for every
`int` `n ≤ 0` it returns the empty list; fuel above the integer square root of
`n` is enough for the loop. -/
theorem divisors_exact (n : Int) (fuel : Nat) (h0 : -2147483648 ≤ n) (h1 : n < 2147483648)
    (hf : Nat.sqrt n.toNat < fuel) :
    ∃ l, __divisors__ fuel n = some l ∧
      (0 < n → l.Nodup ∧ ∀ v, v ∈ l ↔ ∃ d : Int, v = .int d ∧ 0 < d ∧ d ∣ n) ∧
      (n ≤ 0 → l = []) := by
  by_cases hn : 0 < n
  · obtain ⟨N, rfl⟩ : ∃ N : Nat, n = N := ⟨n.toNat, by omega⟩
    have hN : 0 < N := by omega
    have hle : ∀ m, m ≤ Nat.sqrt N ↔ m * m ≤ N := fun m => Nat.le_sqrt
    have hf1 : Nat.sqrt N + 1 - 1 < fuel := by
      rw [Int.toNat_ofNat] at hf
      rw [Nat.add_sub_cancel]
      exact hf
    have hrun := divisorsLoop_eq N (Nat.sqrt N) (by omega) hle fuel 1 [] (Nat.le_refl 1)
      (Nat.le_add_left 1 _) hf1
    rw [Nat.add_sub_cancel, List.nil_append] at hrun
    refine ⟨_, hrun, fun _ => ⟨divisors_nodup N _ hN hle, fun v => ?_⟩, fun h => by omega⟩
    rw [divisors_mem N _ hN hle]
    constructor
    · rintro ⟨d, hv, hd, hdvd⟩
      exact ⟨d, hv, by omega, Int.natCast_dvd_natCast.mpr hdvd⟩
    · rintro ⟨d, hv, hd, hdvd⟩
      obtain ⟨e, rfl⟩ : ∃ e : Nat, d = e := ⟨d.toNat, by omega⟩
      exact ⟨e, hv, by omega, Int.natCast_dvd_natCast.mp hdvd⟩
  · obtain ⟨f, rfl⟩ : ∃ f, fuel = f + 1 := ⟨fuel - 1, by omega⟩
    have hb : sqrtBound 1 n = false := by
      simp only [sqrtBound, decide_eq_false_iff_not, not_and, not_le]
      intro _
      omega
    refine ⟨[], ?_, fun h => absurd h hn, fun _ => rfl⟩
    rw [__divisors__, divisorsLoop, hb]
    rfl

theorem divisors_exact_witness :
    (∃ l, __divisors__ 4 12 = some l ∧
      ((0 : Int) < 12 → l.Nodup ∧ ∀ v, v ∈ l ↔ ∃ d : Int, v = .int d ∧ 0 < d ∧ d ∣ (12 : Int)) ∧
      ((12 : Int) ≤ 0 → l = [])) ∧
    __divisors__ 4 12 = some [.int 1, .int 12, .int 2, .int 6, .int 3, .int 4] ∧
    __divisors__ 4 9 = some [.int 1, .int 9, .int 3] ∧
    __divisors__ 1 (-4) = some [] :=
  ⟨divisors_exact 12 4 (by decide) (by decide) (Nat.sqrt_lt.mpr (by decide)), by decide,
    by decide, by decide⟩

/-- C31: a call of the L1 lasso, the L2 ridge or the elastic-net builtin with
no argument fails with `BuiltinUnexpectedArgumentError` carrying
`MLBuiltins.RegWeightDecay`, the name that the weight-decay builtin reports; a
call of the binary focal loss with no argument carries
`MLBuiltins.LossBinaryCrossEntropy`; the cosine-similarity builtin is sent to
`executeLossCatCrossEntropy`: with one argument it carries
`MLBuiltins.LossCatCrossEntropy`, and with three arguments it is accepted and
calls `__categorical_crossentropy__`. -/
theorem ml_arity_error_names_other_builtin {σ : Type} (ml : MLFunctions σ) (st : σ)
    (x y z : Value) :
    MLBuiltinHandler.execute ml .Builtin_MLReg_L1Lasso [] st
      = (st, .error (.BuiltinUnexpectedArgumentError MLBuiltins.RegWeightDecay)) ∧
    MLBuiltinHandler.execute ml .Builtin_MLReg_L2Ridge [] st
      = (st, .error (.BuiltinUnexpectedArgumentError MLBuiltins.RegWeightDecay)) ∧
    MLBuiltinHandler.execute ml .Builtin_MLReg_ElasticNet [] st
      = (st, .error (.BuiltinUnexpectedArgumentError MLBuiltins.RegWeightDecay)) ∧
    MLBuiltinHandler.execute ml .Builtin_MLReg_WeightDecay [] st
      = (st, .error (.BuiltinUnexpectedArgumentError MLBuiltins.RegWeightDecay)) ∧
    MLBuiltinHandler.execute ml .Builtin_MLLoss_BinaryFocal [] st
      = (st, .error (.BuiltinUnexpectedArgumentError MLBuiltins.LossBinaryCrossEntropy)) ∧
    MLBuiltinHandler.execute ml .Builtin_MLLoss_BinaryCrossEntropy [] st
      = (st, .error (.BuiltinUnexpectedArgumentError MLBuiltins.LossBinaryCrossEntropy)) ∧
    MLBuiltinHandler.execute ml .Builtin_MLLoss_CosSimilarity [x] st
      = (st, .error (.BuiltinUnexpectedArgumentError MLBuiltins.LossCatCrossEntropy)) ∧
    MLBuiltinHandler.execute ml .Builtin_MLLoss_CatCrossEntropy [x] st
      = (st, .error (.BuiltinUnexpectedArgumentError MLBuiltins.LossCatCrossEntropy)) ∧
    MLBuiltinHandler.execute ml .Builtin_MLLoss_CosSimilarity [x, y, z] st
      = ml.__categorical_crossentropy__ x y z st ∧
    MLBuiltinHandler.executeLossCosineSimilarity ml [x, y, z] st
      = (st, .error (.BuiltinUnexpectedArgumentError MLBuiltins.LossCosSimilarity)) :=
  ⟨rfl, rfl, rfl, rfl, rfl, rfl, rfl, rfl, rfl, rfl⟩

/-- The builtins whose error carries their own member of `MLBuiltins`: a call
with no argument, and a call with ten arguments, fails with that member. -/
theorem ml_arity_error_own_name {σ : Type} (ml : MLFunctions σ) (st : σ) (x : Value) :
    ∀ p ∈ [(SubTokenType.Builtin_MLReg_Dropout, MLBuiltins.RegDropout),
          (.Builtin_MLReg_WeightDecay, .RegWeightDecay),
          (.Builtin_MLOptim_RMSProp, .OptimRMSProp),
          (.Builtin_MLOptim_Adadelta, .OptimAdadelta),
          (.Builtin_MLOptim_Adagrad, .OptimAdagrad),
          (.Builtin_MLOptim_Adamax, .OptimAdamax),
          (.Builtin_MLOptim_Adam, .OptimAdam),
          (.Builtin_MLOptim_Nadam, .OptimNadam),
          (.Builtin_MLOptim_SGD, .OptimSGD),
          (.Builtin_MLOptim_SGDNesterov, .OptimSGDNesterov),
          (.Builtin_MLLoss_BinaryCrossEntropy, .LossBinaryCrossEntropy),
          (.Builtin_MLLoss_CatCrossEntropy, .LossCatCrossEntropy)],
      MLBuiltinHandler.execute ml p.1 [] st
          = (st, .error (.BuiltinUnexpectedArgumentError p.2)) ∧
        MLBuiltinHandler.execute ml p.1 [x, x, x, x, x, x, x, x, x, x] st
          = (st, .error (.BuiltinUnexpectedArgumentError p.2)) := by
  intro p hp
  simp only [List.mem_cons, List.mem_singleton, List.not_mem_nil, or_false] at hp
  rcases hp with h | h | h | h | h | h | h | h | h | h | h | h <;> subst h <;> exact ⟨rfl, rfl⟩

/-- C32: for every ML builtin with optional trailing arguments, the call
through `MLBuiltinHandler::execute` with trailing arguments omitted has the
outcome of the call with those arguments given as the defaults of the handler:
learning rate 0.01 and momentum 0.0 for SGD and Nesterov SGD, 0.001 and 0.9 for
RMSProp, 0.02, 0.9 and 0.999 for Adam, Nadam and Adamax with `t = 1` for Adam
and Nadam, rho 0.95 for Adadelta, rate 0.5 for dropout, 0.01 for weight decay,
L1, L2 and elastic net; and so for the other defaults (epsilon, Adagrad, the
losses). -/
theorem ml_defaults {σ : Type} (ml : MLFunctions σ) (st : σ) (w g m v a b c d : Value) :
    (MLBuiltinHandler.execute ml .Builtin_MLOptim_SGD [w, g, v] st
        = MLBuiltinHandler.execute ml .Builtin_MLOptim_SGD
            [w, g, v, .double Double.lit_0_01, .double Double.lit_0_0] st ∧
      MLBuiltinHandler.execute ml .Builtin_MLOptim_SGD [w, g, v, a] st
        = MLBuiltinHandler.execute ml .Builtin_MLOptim_SGD
            [w, g, v, a, .double Double.lit_0_0] st) ∧
    (MLBuiltinHandler.execute ml .Builtin_MLOptim_SGDNesterov [w, g, v] st
        = MLBuiltinHandler.execute ml .Builtin_MLOptim_SGDNesterov
            [w, g, v, .double Double.lit_0_01, .double Double.lit_0_0] st ∧
      MLBuiltinHandler.execute ml .Builtin_MLOptim_SGDNesterov [w, g, v, a] st
        = MLBuiltinHandler.execute ml .Builtin_MLOptim_SGDNesterov
            [w, g, v, a, .double Double.lit_0_0] st) ∧
    (MLBuiltinHandler.execute ml .Builtin_MLOptim_RMSProp [w, g, v] st
        = MLBuiltinHandler.execute ml .Builtin_MLOptim_RMSProp
            [w, g, v, .double Double.lit_0_001, .double Double.lit_0_9] st ∧
      MLBuiltinHandler.execute ml .Builtin_MLOptim_RMSProp [w, g, v, a] st
        = MLBuiltinHandler.execute ml .Builtin_MLOptim_RMSProp
            [w, g, v, a, .double Double.lit_0_9] st) ∧
    (MLBuiltinHandler.execute ml .Builtin_MLOptim_Adam [w, g, m, v] st
        = MLBuiltinHandler.execute ml .Builtin_MLOptim_Adam
            [w, g, m, v, .double Double.lit_0_02, .double Double.lit_0_9,
              .double Double.lit_0_999, .int 1] st ∧
      MLBuiltinHandler.execute ml .Builtin_MLOptim_Adam [w, g, m, v, a, b, c, d] st
        = MLBuiltinHandler.execute ml .Builtin_MLOptim_Adam
            [w, g, m, v, a, b, c, d, .double __epsilon__] st ∧
      MLBuiltinHandler.execute ml .Builtin_MLOptim_Adam [w, g, m, v, a] st
        = MLBuiltinHandler.execute ml .Builtin_MLOptim_Adam
            [w, g, m, v, a, .double Double.lit_0_9, .double Double.lit_0_999, .int 1] st ∧
      MLBuiltinHandler.execute ml .Builtin_MLOptim_Adam [w, g, m, v, a, b] st
        = MLBuiltinHandler.execute ml .Builtin_MLOptim_Adam
            [w, g, m, v, a, b, .double Double.lit_0_999, .int 1] st ∧
      MLBuiltinHandler.execute ml .Builtin_MLOptim_Adam [w, g, m, v, a, b, c] st
        = MLBuiltinHandler.execute ml .Builtin_MLOptim_Adam
            [w, g, m, v, a, b, c, .int 1] st) ∧
    (MLBuiltinHandler.execute ml .Builtin_MLOptim_Nadam [w, g, m, v] st
        = MLBuiltinHandler.execute ml .Builtin_MLOptim_Nadam
            [w, g, m, v, .double Double.lit_0_02, .double Double.lit_0_9,
              .double Double.lit_0_999, .int 1] st ∧
      MLBuiltinHandler.execute ml .Builtin_MLOptim_Nadam [w, g, m, v, a, b, c, d] st
        = MLBuiltinHandler.execute ml .Builtin_MLOptim_Nadam
            [w, g, m, v, a, b, c, d, .double __epsilon__] st ∧
      MLBuiltinHandler.execute ml .Builtin_MLOptim_Nadam [w, g, m, v, a] st
        = MLBuiltinHandler.execute ml .Builtin_MLOptim_Nadam
            [w, g, m, v, a, .double Double.lit_0_9, .double Double.lit_0_999, .int 1] st ∧
      MLBuiltinHandler.execute ml .Builtin_MLOptim_Nadam [w, g, m, v, a, b] st
        = MLBuiltinHandler.execute ml .Builtin_MLOptim_Nadam
            [w, g, m, v, a, b, .double Double.lit_0_999, .int 1] st ∧
      MLBuiltinHandler.execute ml .Builtin_MLOptim_Nadam [w, g, m, v, a, b, c] st
        = MLBuiltinHandler.execute ml .Builtin_MLOptim_Nadam
            [w, g, m, v, a, b, c, .int 1] st) ∧
    (MLBuiltinHandler.execute ml .Builtin_MLOptim_Adamax [w, g, m, v] st
        = MLBuiltinHandler.execute ml .Builtin_MLOptim_Adamax
            [w, g, m, v, .double Double.lit_0_02, .double Double.lit_0_9,
              .double Double.lit_0_999] st ∧
      MLBuiltinHandler.execute ml .Builtin_MLOptim_Adamax [w, g, m, v, a, b, c] st
        = MLBuiltinHandler.execute ml .Builtin_MLOptim_Adamax
            [w, g, m, v, a, b, c, .double __epsilon__] st ∧
      MLBuiltinHandler.execute ml .Builtin_MLOptim_Adamax [w, g, m, v, a] st
        = MLBuiltinHandler.execute ml .Builtin_MLOptim_Adamax
            [w, g, m, v, a, .double Double.lit_0_9, .double Double.lit_0_999] st ∧
      MLBuiltinHandler.execute ml .Builtin_MLOptim_Adamax [w, g, m, v, a, b] st
        = MLBuiltinHandler.execute ml .Builtin_MLOptim_Adamax
            [w, g, m, v, a, b, .double Double.lit_0_999] st) ∧
    (MLBuiltinHandler.execute ml .Builtin_MLOptim_Adadelta [w, g, m, v] st
        = MLBuiltinHandler.execute ml .Builtin_MLOptim_Adadelta
            [w, g, m, v, .double Double.lit_0_95] st ∧
      MLBuiltinHandler.execute ml .Builtin_MLOptim_Adadelta [w, g, m, v, a] st
        = MLBuiltinHandler.execute ml .Builtin_MLOptim_Adadelta
            [w, g, m, v, a, .double Double.lit_1em6] st) ∧
    (MLBuiltinHandler.execute ml .Builtin_MLOptim_Adagrad [w, g, v] st
        = MLBuiltinHandler.execute ml .Builtin_MLOptim_Adagrad
            [w, g, v, .double Double.lit_0_01] st ∧
      MLBuiltinHandler.execute ml .Builtin_MLOptim_Adagrad [w, g, v, a] st
        = MLBuiltinHandler.execute ml .Builtin_MLOptim_Adagrad
            [w, g, v, a, .double __epsilon__] st) ∧
    MLBuiltinHandler.execute ml .Builtin_MLReg_Dropout [w] st
      = MLBuiltinHandler.execute ml .Builtin_MLReg_Dropout [w, .double HALF] st ∧
    MLBuiltinHandler.execute ml .Builtin_MLReg_WeightDecay [w] st
      = MLBuiltinHandler.execute ml .Builtin_MLReg_WeightDecay [w, .double ONE_PERCENT] st ∧
    MLBuiltinHandler.execute ml .Builtin_MLReg_L1Lasso [w] st
      = MLBuiltinHandler.execute ml .Builtin_MLReg_L1Lasso [w, .double ONE_PERCENT] st ∧
    MLBuiltinHandler.execute ml .Builtin_MLReg_L2Ridge [w] st
      = MLBuiltinHandler.execute ml .Builtin_MLReg_L2Ridge [w, .double ONE_PERCENT] st ∧
    (MLBuiltinHandler.execute ml .Builtin_MLReg_ElasticNet [w] st
        = MLBuiltinHandler.execute ml .Builtin_MLReg_ElasticNet
            [w, .double ONE_PERCENT, .double ONE_PERCENT] st ∧
      MLBuiltinHandler.execute ml .Builtin_MLReg_ElasticNet [w, a] st
        = MLBuiltinHandler.execute ml .Builtin_MLReg_ElasticNet
            [w, a, .double ONE_PERCENT] st) ∧
    (MLBuiltinHandler.execute ml .Builtin_MLLoss_BinaryCrossEntropy [a, b] st
        = MLBuiltinHandler.execute ml .Builtin_MLLoss_BinaryCrossEntropy
            [a, b, .double __epsilon__] st ∧
      MLBuiltinHandler.execute ml .Builtin_MLLoss_CatCrossEntropy [a, b] st
        = MLBuiltinHandler.execute ml .Builtin_MLLoss_CatCrossEntropy
            [a, b, .double __epsilon__] st ∧
      MLBuiltinHandler.execute ml .Builtin_MLLoss_BinaryFocal [a, b] st
        = MLBuiltinHandler.execute ml .Builtin_MLLoss_BinaryFocal
            [a, b, .double Double.lit_2_0, .double Double.lit_0_25, .double __epsilon__] st) ∧
    (MLBuiltinHandler.execute MLFunctions.recording .Builtin_MLOptim_Adam [w, g, m, v] []
        = ([("__adam__", [w, g, m, v, .double Double.lit_0_02, .double Double.lit_0_9,
            .double Double.lit_0_999, .int 1, .double __epsilon__])], .ok w) ∧
      MLBuiltinHandler.execute MLFunctions.recording .Builtin_MLOptim_SGD [w, g, v] []
        = ([("__sgd__", [w, g, v, .double Double.lit_0_01, .double Double.lit_0_0])], .ok w) ∧
      MLBuiltinHandler.execute MLFunctions.recording .Builtin_MLReg_Dropout [w] []
        = ([("__dropout__", [w, .double HALF])], .ok .null)) ∧
    ONE_PERCENT = Double.lit_0_01 ∧ HALF = ⟨false, 1022, 0⟩ :=
  ⟨⟨rfl, rfl⟩, ⟨rfl, rfl⟩, ⟨rfl, rfl⟩, ⟨rfl, rfl, rfl, rfl, rfl⟩, ⟨rfl, rfl, rfl, rfl, rfl⟩,
    ⟨rfl, rfl, rfl, rfl⟩, ⟨rfl, rfl⟩, ⟨rfl, rfl⟩, rfl, rfl, rfl, rfl, ⟨rfl, rfl⟩,
    ⟨rfl, rfl, rfl⟩, ⟨rfl, rfl, rfl⟩, rfl, rfl⟩

/-- The size test of the optimizers: when the list arguments are Lists that do
not all have the same length, the seven optimizers other than `__adadelta__`
throw `InvalidOperationError` and leave the heap as it was, whatever the other
arguments are; `__adadelta__` does so when `rho` is a number, and throws what
`get_double` throws for `rho` otherwise. -/
theorem optimizer_size_mismatch (fp : DoubleArith) (lib : DoubleLib) (fuel : Nat) (heap : Heap)
    (w g m v : Nat) (a b c d : Value) :
    (((heap.elements w).length ≠ (heap.elements g).length ∨
        (heap.elements w).length ≠ (heap.elements v).length) →
      __rmsprop__ fp lib fuel heap (.list w) (.list g) (.list v) a b
          = some (heap, .error .InvalidOperationError) ∧
        __adagrad__ fp lib fuel heap (.list w) (.list g) (.list v) a
          = some (heap, .error .InvalidOperationError) ∧
        __sgd__ fp fuel heap (.list w) (.list g) (.list v) a b
          = some (heap, .error .InvalidOperationError) ∧
        __nesterov_sgd__ fp fuel heap (.list w) (.list g) (.list v) a b
          = some (heap, .error .InvalidOperationError)) ∧
    (((heap.elements w).length ≠ (heap.elements g).length ∨
        (heap.elements w).length ≠ (heap.elements m).length ∨
        (heap.elements w).length ≠ (heap.elements v).length) →
      __adamax__ fp lib fuel heap (.list w) (.list g) (.list m) (.list v) a b c
          = some (heap, .error .InvalidOperationError) ∧
        __adam__ fp lib fuel heap (.list w) (.list g) (.list m) (.list v) a b c d
          = some (heap, .error .InvalidOperationError) ∧
        __nadam__ fp lib fuel heap (.list w) (.list g) (.list m) (.list v) a b c d
          = some (heap, .error .InvalidOperationError) ∧
        (a.isNumeric = true →
          __adadelta__ fp lib fuel heap (.list w) (.list g) (.list m) (.list v) a
            = some (heap, .error .InvalidOperationError)) ∧
        (a.isNumeric = false →
          __adadelta__ fp lib fuel heap (.list w) (.list g) (.list m) (.list v) a
            = some (heap, .error .ConversionError))) := by
  constructor
  · intro h
    refine ⟨?_, ?_, ?_, ?_⟩
    · simp only [__rmsprop__, if_pos h]
    · simp only [__adagrad__, if_pos h]
    · simp only [__sgd__, if_pos h]
    · simp only [__nesterov_sgd__, if_pos h]
  · intro h
    refine ⟨?_, ?_, ?_, ?_, ?_⟩
    · simp only [__adamax__, if_pos h]
    · simp only [__adam__, if_pos h]
    · simp only [__nadam__, if_pos h]
    · intro ha
      cases a <;> simp [Value.isNumeric, Value.isInt, Value.isDouble] at ha <;>
        simp only [__adadelta__, get_double, if_pos h]
    · intro ha
      cases a <;> simp [Value.isNumeric, Value.isInt, Value.isDouble] at ha <;>
        simp only [__adadelta__, get_double]

/-- C33: with the weights `[1.0]`, the gradients `[]` and the two accumulator
lists `[1.0]`, all Lists and not all of the same length, and the String `"x"`
as `rho`, `__adadelta__` fails with `ConversionError`, not with
`InvalidOperationError`: it converts `rho` before it compares the sizes. The
other optimizers compare the sizes first: `__adagrad__` and `__sgd__` on the
same lists with `"x"` as learning rate fail with `InvalidOperationError`. -/
theorem adadelta_converts_rho_before_size_test (fp : DoubleArith) (lib : DoubleLib)
    (fuel : Nat) :
    __adadelta__ fp lib fuel
        ⟨[[.double Double.lit_1_0], [], [.double Double.lit_1_0], [.double Double.lit_1_0]]⟩
        (.list 0) (.list 1) (.list 2) (.list 3) (.string "x")
      = some (⟨[[.double Double.lit_1_0], [], [.double Double.lit_1_0],
          [.double Double.lit_1_0]]⟩, .error .ConversionError) ∧
    __adagrad__ fp lib fuel
        ⟨[[.double Double.lit_1_0], [], [.double Double.lit_1_0], [.double Double.lit_1_0]]⟩
        (.list 0) (.list 1) (.list 2) (.string "x")
      = some (⟨[[.double Double.lit_1_0], [], [.double Double.lit_1_0],
          [.double Double.lit_1_0]]⟩, .error .InvalidOperationError) ∧
    __sgd__ fp fuel
        ⟨[[.double Double.lit_1_0], [], [.double Double.lit_1_0], [.double Double.lit_1_0]]⟩
        (.list 0) (.list 1) (.list 2) (.string "x") (.string "x")
      = some (⟨[[.double Double.lit_1_0], [], [.double Double.lit_1_0],
          [.double Double.lit_1_0]]⟩, .error .InvalidOperationError) :=
  ⟨rfl, rfl, rfl⟩

/-- A run of `__sgd__` and of `__rmsprop__` on lists of equal length with the
sample host arithmetic: the loops end after one round per element, and a
non-numeric element makes the round throw with the writes before it kept. -/
theorem optimizer_sample_runs (fuel : Nat) :
    __sgd__ DoubleArith.quiet (fuel + 3)
        ⟨[[.int 1, .int 2], [.int 3, .int 4], [.int 5, .int 6]]⟩
        (.list 0) (.list 1) (.list 2) (.double Double.lit_0_01) (.double Double.lit_0_0)
      = some (⟨[[.double Double.nan, .double Double.nan], [.int 3, .int 4],
          [.double Double.nan, .double Double.nan]]⟩, .ok ()) ∧
    __rmsprop__ DoubleArith.quiet DoubleLib.quiet (fuel + 3)
        ⟨[[.int 1, .string "w"], [.int 3, .int 4], [.int 5, .int 6]]⟩
        (.list 0) (.list 1) (.list 2) (.double Double.lit_0_001) (.double Double.lit_0_9)
      = some (⟨[[.double Double.nan, .string "w"], [.int 3, .int 4],
          [.double Double.nan, .double Double.nan]]⟩, .error .ConversionError) :=
  ⟨rfl, rfl⟩

/-- C19: on the list `[0, 1, 2, 3, 4]` the write of `[7, 8, 9]` to the slice
`[3:5]` with step 1 takes the branch for `start < stop`, where `std::copy`
writes the three right-hand elements from index 3 on with no test of the
bound: the third is written past the end of the five-element vector, which is
undefined behaviour, where the claim has `[0, 1, 2, 7, 8, 9]`. When the
right-hand list fits, nothing is deleted: `[9]` written to `[1:3]` gives
`[0, 9, 2, 3, 4]`, and `[7, 8]` written to `[3:5]` gives `[0, 1, 2, 7, 8]`. -/
theorem slice_write_copy_past_end :
    updateListSlice ⟨[[.int 0, .int 1, .int 2, .int 3, .int 4], [.int 7, .int 8, .int 9]]⟩
        false 0 ⟨.int 3, .int 5, .int 1, true⟩ 1 = .undefined ∧
    writeBounds false true 5 3 5 1 = (3, 5) ∧
    updateListSlice ⟨[[.int 0, .int 1, .int 2, .int 3, .int 4], [.int 9]]⟩ false 0
        ⟨.int 1, .int 3, .int 1, true⟩ 1
      = .ok ⟨[[.int 0, .int 9, .int 2, .int 3, .int 4], [.int 9]]⟩ ∧
    updateListSlice ⟨[[.int 0, .int 1, .int 2, .int 3, .int 4], [.int 7, .int 8]]⟩ false 0
        ⟨.int 3, .int 5, .int 1, true⟩ 1
      = .ok ⟨[[.int 0, .int 1, .int 2, .int 7, .int 8], [.int 7, .int 8]]⟩ :=
  ⟨rfl, by decide, rfl, rfl⟩

end Kiwi
